import Mathlib

/-! # Orange-S file-system task (`fs/main.c`): a shallow embedding

The C globals of the file-system task (`inode_table`, `super_block`,
`f_desc_table`, `proc_table`, `fsbuf`, `fs_msg`, `pcaller`) are the fields of
one record `State`, threaded explicitly through every operation.  Pointers
into a table are indices of that table; a null pointer is `none`.  A path
that ends in `panic` or in a failed `assert` returns `Except.error` with the
place it stopped at.

Constants, tables and type declarations that live in headers which are not
part of `fs/main.c` are fields of `Config`; where a comment of `fs/main.c`
spells a value out (`SECTOR_SIZE`, `INODE_SIZE`, `ROOT_DEV`,
`INVALID_DRIVER`, `MAJOR`, `MINOR`) that value is used.
-/

namespace OrangeFS

/-! ## Machine integers -/

/-- Value of a C `int` (32 bits, two's complement) holding the integer `x`. -/
def wrap32 (x : Int) : Int := (x + 2147483648) % 4294967296 - 2147483648

/-- Value of a `u32` holding the natural number `x`. -/
def u32 (x : Nat) : Nat := x % 4294967296

/-! ## Constants spelled out in `fs/main.c` -/

/-- Bytes per sector (`bits_per_sect` is commented as `512 * 8`). -/
def SECTOR_SIZE : Nat := 512

/-- Bytes per on-disk inode record (commented as `INODE_SIZE:  32`). -/
def INODE_SIZE : Nat := 32

/-- Driver number that marks an unmapped major number (commented as `-20`). -/
def INVALID_DRIVER : Int := -20

/-- Root device, commented as `(3 << 8) | 0x21`. -/
def ROOT_DEV : Int := 801

/-- Major number, commented as `(dev >> 8) & 0xFF`. -/
def MAJOR (dev : Int) : Int := dev / 256 % 256

/-- Minor number, commented as `dev & 0xFF`. -/
def MINOR (dev : Int) : Int := dev % 256

/-- Composite device number `(major << 8) | minor`, the form in which the
comment on `ROOT_DEV` spells it. -/
def MAKE_DEV (a b : Nat) : Nat := (a <<< 8) ||| b

/-- Modelled from the spec: the on-disk superblock record is fourteen 32-bit
fields without padding, 56 bytes. -/
def SUPER_BLOCK_SIZE : Nat := 56

/-! ## Records -/

/-- Modelled from the spec: `struct inode` is declared in a header outside
`fs/main.c`.  The four leading fields are the on-disk record (mode tag, size,
extent start sector, extent sector count, 32-bit each, in this order); device,
reference count and inode number exist in memory only. -/
structure inode where
  i_mode : Nat
  i_size : Nat
  i_start_sect : Nat
  i_nr_sects : Nat
  i_dev : Int
  i_cnt : Int
  i_num : Int

/-- Modelled from the spec: `struct super_block` is declared in a header
outside `fs/main.c`.  The fourteen on-disk fields are 32-bit, in the order in
which the spec lists the on-disk record; `sb_dev` exists in memory only. -/
structure super_block where
  magic : Nat
  nr_inodes : Nat
  nr_inode_sects : Nat
  nr_sects : Nat
  nr_imap_sects : Nat
  nr_smap_sects : Nat
  n_1st_sect : Nat
  root_inode : Nat
  inode_size : Nat
  inode_isize_off : Nat
  inode_start_off : Nat
  dir_ent_size : Nat
  dir_ent_inode_off : Nat
  dir_ent_fname_off : Nat
  sb_dev : Int

/-- Modelled from the spec: `struct file_desc` is declared in a header outside
`fs/main.c`: a shared handle around an open inode with a position cursor and a
reference count.  `fd_inode` is a pointer into `inode_table`. -/
structure file_desc where
  fd_mode : Int
  fd_pos : Int
  fd_cnt : Int
  fd_inode : Option Nat

/-- Modelled from the spec: the part of `struct proc` that `fs/main.c` touches,
the fixed-size array `filp` of pointers into `f_desc_table`. -/
structure proc where
  filp : Nat → Option Nat

/-- Modelled from the spec: `MESSAGE` is declared in a header outside
`fs/main.c`: the sender, the operation tag and a payload `u` whose slots the
field names `FD`, `RETVAL`, `CNT`, `PROC_NR`, `PID` select (see `Config`). -/
structure MESSAGE where
  source : Int
  type : Int
  u : Nat → Int

/-- Modelled from the spec: `struct part_info`, the geometry the driver
reports: first sector and sector count of the partition. -/
structure part_info where
  base : Nat
  size : Nat

/-- Constants, the driver table and the payload layout that `fs/main.c` takes
from headers and from `global.c`. -/
structure Config where
  NR_INODE : Nat
  NR_SUPER_BLOCK : Nat
  NR_FILES : Nat
  NR_CONSOLES : Nat
  NR_DEFAULT_FILE_SECTS : Nat
  ROOT_INODE : Nat
  MAGIC_V1 : Nat
  I_DIRECTORY : Nat
  I_CHAR_SPECIAL : Nat
  DIR_ENTRY_SIZE : Nat
  DEV_CHAR_TTY : Nat
  NO_DEV : Int
  dd_map : Int → Int
  OPEN : Int
  CLOSE : Int
  READ : Int
  WRITE : Int
  UNLINK : Int
  SUSPEND_PROC : Int
  RESUME_PROC : Int
  FORK : Int
  EXIT : Int
  SYSCALL_RET : Int
  FD : Nat
  RETVAL : Nat
  CNT : Nat
  PROC_NR : Nat
  PID : Nat

/-- The globals of the file-system task together with the contents of the
devices behind the drivers.  `fsbuf` is byte memory addressed by the signed
offset from the start of the buffer; `disk drv minor pos` is the byte at byte
position `pos` of device `minor` of driver `drv`. -/
structure State where
  inode_table : Nat → inode
  f_desc_table : Nat → file_desc
  proc_table : Int → proc
  fsbuf : Int → Nat
  disk : Int → Int → Nat → Nat
  fs_msg : MESSAGE
  pcaller : Int
  root_inode : Option Nat
  super_block : Nat → super_block

/-- Where a run of the task stops for good: a failed `assert`, a `panic`, or a
dereference of a null pointer. -/
inductive Fatal where
  | assert_driver
  | assert_unknown_message
  | assert_inode_bitmap
  | assert_first_slot
  | assert_i_cnt
  | assert_magic
  | panic_super_block_slots
  | panic_super_block_not_found
  | panic_inode_table_full
  | null_pointer
  deriving DecidableEq, Repr

/-! ## Byte memory -/

/-- Little-endian 32-bit load from byte memory. -/
def ld32 (mem : Int → Nat) (off : Int) : Nat :=
  mem off % 256 + 256 * (mem (off + 1) % 256) + 65536 * (mem (off + 2) % 256)
    + 16777216 * (mem (off + 3) % 256)

/-- Little-endian 32-bit store into byte memory. -/
def st32 (mem : Int → Nat) (off : Int) (v : Nat) : Int → Nat :=
  fun a =>
    if a = off then v % 256
    else if a = off + 1 then v / 256 % 256
    else if a = off + 2 then v / 65536 % 256
    else if a = off + 3 then v / 16777216 % 256
    else mem a

/-- C `memset(mem + 0, c, n)` on byte memory. -/
def memset (mem : Int → Nat) (c : Nat) (n : Nat) : Int → Nat :=
  fun a => if 0 ≤ a ∧ a < n then c % 256 else mem a

/-! ## Block I/O gateway -/

/-- Transfer direction of `rw_sector` (`DEV_READ` or `DEV_WRITE`). -/
inductive io_type where
  | DEV_READ
  | DEV_WRITE
  deriving DecidableEq, Repr

/-- Embedding of `rw_sector(io_type, dev, pos, bytes, TASK_FS, fsbuf)`: the
driver of `MAJOR(dev)` must be mapped; the rendezvous with it copies `bytes`
bytes between `fsbuf` and byte position `pos` of device `MINOR(dev)`.
Modelled from the spec: the driver is an external task; a device returns on
read what was last written. -/
def rw_sector (K : Config) (st : State) (io : io_type) (dev : Int) (pos : Nat)
    (bytes : Nat) : Except Fatal State :=
  if K.dd_map (MAJOR dev) = INVALID_DRIVER then .error .assert_driver
  else
    match io with
    | .DEV_READ =>
      .ok { st with fsbuf := fun a =>
              if 0 ≤ a ∧ a < bytes then st.disk (K.dd_map (MAJOR dev)) (MINOR dev) (pos + a.toNat)
              else st.fsbuf a }
    | .DEV_WRITE =>
      .ok { st with disk := fun d m p =>
              if d = K.dd_map (MAJOR dev) ∧ m = MINOR dev ∧ pos ≤ p ∧ p < pos + bytes
              then st.fsbuf ((p - pos : Nat) : Int)
              else st.disk d m p }

/-- Byte position of sector `sect_nr`, as the 64-bit `pos` argument. -/
def sect_pos (sect_nr : Int) : Nat := (sect_nr * SECTOR_SIZE % 18446744073709551616).toNat

/-- Modelled from the spec: macro `RD_SECT(dev, sect_nr)`, a whole-sector read
at byte offset sector index times sector size. -/
def RD_SECT (K : Config) (st : State) (dev : Int) (sect_nr : Int) : Except Fatal State :=
  rw_sector K st .DEV_READ dev (sect_pos sect_nr) SECTOR_SIZE

/-- Modelled from the spec: macro `WR_SECT(dev, sect_nr)`, a whole-sector write
at byte offset sector index times sector size. -/
def WR_SECT (K : Config) (st : State) (dev : Int) (sect_nr : Int) : Except Fatal State :=
  rw_sector K st .DEV_WRITE dev (sect_pos sect_nr) SECTOR_SIZE

/-! ## Superblock registry -/

/-- Embedding of `get_super_block`: the first slot whose `sb_dev` is `dev`,
`panic` when there is none. -/
def get_super_block (K : Config) (st : State) (dev : Int) : Except Fatal Nat :=
  match (List.range K.NR_SUPER_BLOCK).find? (fun i => decide ((st.super_block i).sb_dev = dev)) with
  | some i => .ok i
  | none => .error .panic_super_block_not_found

/-! ## Inode cache -/

/-- The scan of `get_inode` over the slots `ps`, with `q` the first free slot
seen so far: `Sum.inl p` is the early return at a held slot `p` that matches,
`Sum.inr q` the end of the loop. -/
def get_inode_scan (tbl : Nat → inode) (dev num : Int) : List Nat → Option Nat → Nat ⊕ Option Nat
  | [], q => .inr q
  | p :: ps, q =>
    if (tbl p).i_cnt ≠ 0 then
      if (tbl p).i_dev = dev ∧ (tbl p).i_num = num then .inl p
      else get_inode_scan tbl dev num ps q
    else
      get_inode_scan tbl dev num ps (if q = none then some p else q)

/-- Embedding of `get_inode(dev, num)`: the handle returned (`none` is the null
pointer returned for `num == 0`) and the state after the call. -/
def get_inode (K : Config) (st : State) (dev num : Int) : Except Fatal (Option Nat × State) :=
  if num = 0 then .ok (none, st)
  else
    match get_inode_scan st.inode_table dev num (List.range K.NR_INODE) none with
    | .inl p =>
      let hit : inode := { st.inode_table p with i_cnt := wrap32 ((st.inode_table p).i_cnt + 1) }
      .ok (some p, { st with inode_table := Function.update st.inode_table p hit })
    | .inr none => .error .panic_inode_table_full
    | .inr (some q) => do
      let fresh : inode := { st.inode_table q with i_dev := dev, i_num := num, i_cnt := 1 }
      let st1 : State := { st with inode_table := Function.update st.inode_table q fresh }
      let sb ← get_super_block K st1 dev
      let blk_nr : Int := wrap32 (1 + 1 + (st1.super_block sb).nr_imap_sects
              + (st1.super_block sb).nr_smap_sects
              + (wrap32 (num - 1)).tdiv ((SECTOR_SIZE / INODE_SIZE : Nat) : Int))
      let st2 ← RD_SECT K st1 dev blk_nr
      let pinode : Int := (wrap32 (num - 1)).tmod ((SECTOR_SIZE / INODE_SIZE : Nat) : Int) * INODE_SIZE
      let loaded : inode :=
        { st2.inode_table q with
          i_mode := ld32 st2.fsbuf pinode
          i_size := ld32 st2.fsbuf (pinode + 4)
          i_start_sect := ld32 st2.fsbuf (pinode + 8)
          i_nr_sects := ld32 st2.fsbuf (pinode + 12) }
      .ok (some q, { st2 with inode_table := Function.update st2.inode_table q loaded })

/-- Embedding of `put_inode(pinode)`: the assertion `i_cnt > 0`, then the
decrement. -/
def put_inode (st : State) (pinode : Nat) : Except Fatal State :=
  if 0 < (st.inode_table pinode).i_cnt then
    let released : inode := { st.inode_table pinode with i_cnt := (st.inode_table pinode).i_cnt - 1 }
    .ok { st with inode_table := Function.update st.inode_table pinode released }
  else .error .assert_i_cnt

/-- Embedding of `sync_inode(p)`: read the sector of the inode's record, store
the four on-disk fields at the record's offset, write the sector back. -/
def sync_inode (K : Config) (st : State) (p : Nat) : Except Fatal State := do
  let sb ← get_super_block K st (st.inode_table p).i_dev
  let blk_nr : Int := wrap32 (1 + 1 + (st.super_block sb).nr_imap_sects
          + (st.super_block sb).nr_smap_sects
          + (wrap32 ((st.inode_table p).i_num - 1)).tdiv ((SECTOR_SIZE / INODE_SIZE : Nat) : Int))
  let st1 ← RD_SECT K st (st.inode_table p).i_dev blk_nr
  let pinode : Int :=
    (wrap32 ((st.inode_table p).i_num - 1)).tmod ((SECTOR_SIZE / INODE_SIZE : Nat) : Int) * INODE_SIZE
  let buf1 := st32 st1.fsbuf pinode (st.inode_table p).i_mode
  let buf2 := st32 buf1 (pinode + 4) (st.inode_table p).i_size
  let buf3 := st32 buf2 (pinode + 8) (st.inode_table p).i_start_sect
  let buf4 := st32 buf3 (pinode + 12) (st.inode_table p).i_nr_sects
  WR_SECT K { st1 with fsbuf := buf4 } (st.inode_table p).i_dev blk_nr

/-! ## Per-process file-table bridge -/

/-- One pass of the loop body of `fs_fork` for slot `i` of process `pid`. -/
def fs_fork_slot (st : State) (pid : Int) (i : Nat) : Except Fatal State :=
  match (st.proc_table pid).filp i with
  | none => .ok st
  | some d =>
    let fd1 : file_desc := { st.f_desc_table d with fd_cnt := wrap32 ((st.f_desc_table d).fd_cnt + 1) }
    let st1 : State := { st with f_desc_table := Function.update st.f_desc_table d fd1 }
    match (st1.f_desc_table d).fd_inode with
    | none => .error .null_pointer
    | some n =>
      let ino : inode := { st1.inode_table n with i_cnt := wrap32 ((st1.inode_table n).i_cnt + 1) }
      .ok { st1 with inode_table := Function.update st1.inode_table n ino }

/-- The loop of `fs_fork` over the slots `is` of process `pid`. -/
def fs_fork_loop (pid : Int) : List Nat → State → Except Fatal State
  | [], st => .ok st
  | i :: is, st =>
    match fs_fork_slot st pid i with
    | .ok st1 => fs_fork_loop pid is st1
    | .error e => .error e

/-- Embedding of `fs_fork()`: the child is `proc_table[fs_msg.PID]`. -/
def fs_fork (K : Config) (st : State) : Except Fatal (Int × State) :=
  match fs_fork_loop (st.fs_msg.u K.PID) (List.range K.NR_FILES) st with
  | .ok st1 => .ok (0, st1)
  | .error e => .error e

/-- One pass of the loop body of `fs_exit` for slot `i` of process `pid`. -/
def fs_exit_slot (st : State) (pid : Int) (i : Nat) : Except Fatal State :=
  match (st.proc_table pid).filp i with
  | none => .ok st
  | some d =>
    match (st.f_desc_table d).fd_inode with
    | none => .error .null_pointer
    | some n =>
      let ino : inode := { st.inode_table n with i_cnt := wrap32 ((st.inode_table n).i_cnt - 1) }
      let st1 : State := { st with inode_table := Function.update st.inode_table n ino }
      let fd1 : file_desc := { st1.f_desc_table d with fd_cnt := wrap32 ((st1.f_desc_table d).fd_cnt - 1) }
      let fd2 : file_desc := if fd1.fd_cnt = 0 then { fd1 with fd_inode := none } else fd1
      let st2 : State := { st1 with f_desc_table := Function.update st1.f_desc_table d fd2 }
      let pr : proc := { filp := Function.update (st2.proc_table pid).filp i none }
      .ok { st2 with proc_table := Function.update st2.proc_table pid pr }

/-- The loop of `fs_exit` over the slots `is` of process `pid`. -/
def fs_exit_loop (pid : Int) : List Nat → State → Except Fatal State
  | [], st => .ok st
  | i :: is, st =>
    match fs_exit_slot st pid i with
    | .ok st1 => fs_exit_loop pid is st1
    | .error e => .error e

/-- Embedding of `fs_exit()`: the process is `proc_table[fs_msg.PID]`. -/
def fs_exit (K : Config) (st : State) : Except Fatal (Int × State) :=
  match fs_exit_loop (st.fs_msg.u K.PID) (List.range K.NR_FILES) st with
  | .ok st1 => .ok (0, st1)
  | .error e => .error e

/-! ## Request dispatcher -/

/-- Modelled from the spec: the request handlers that other files of the
repository define.  Each returns its result and the state it leaves; it may
rewrite `fs_msg` (the read/write handler sets its tag to `SUSPEND_PROC` when
the target is a slow device) and may itself end fatally. -/
structure Handlers where
  do_open : State → Except Fatal (Int × State)
  do_close : State → Except Fatal (Int × State)
  do_rdwt : State → Except Fatal (Int × State)
  do_unlink : State → Except Fatal (Int × State)

/-- Assignment to the payload field of `fs_msg` that lives in slot `slot`. -/
def set_field (st : State) (slot : Nat) (v : Int) : State :=
  { st with fs_msg := { st.fs_msg with u := Function.update st.fs_msg.u slot v } }

/-- A handler call whose result is stored in payload slot `slot` of `fs_msg`. -/
def call_into (h : State → Except Fatal (Int × State)) (slot : Nat) (src : Int) (st : State) :
    Except Fatal (Int × State) :=
  match h st with
  | .ok (r, st1) => .ok (src, set_field st1 slot r)
  | .error e => .error e

/-- The body of the loop of `task_fs` from the assignment of `src` to the end
of the `switch`: the reply target and the state after dispatch. -/
def task_fs_dispatch (K : Config) (H : Handlers) (st : State) : Except Fatal (Int × State) :=
  let src : Int := st.fs_msg.source
  let st0 : State := { st with pcaller := src }
  if st0.fs_msg.type = K.OPEN then call_into H.do_open K.FD src st0
  else if st0.fs_msg.type = K.CLOSE then call_into H.do_close K.RETVAL src st0
  else if st0.fs_msg.type = K.READ ∨ st0.fs_msg.type = K.WRITE then call_into H.do_rdwt K.CNT src st0
  else if st0.fs_msg.type = K.UNLINK then call_into H.do_unlink K.RETVAL src st0
  else if st0.fs_msg.type = K.RESUME_PROC then .ok (st0.fs_msg.u K.PROC_NR, st0)
  else if st0.fs_msg.type = K.FORK then call_into (fs_fork K) K.RETVAL src st0
  else if st0.fs_msg.type = K.EXIT then call_into (fs_exit K) K.RETVAL src st0
  else .error .assert_unknown_message

/-- One iteration of the loop of `task_fs` on the received message `msg`: the
state it leaves and the messages it sends (destination, message), in order. -/
def task_fs_iteration (K : Config) (H : Handlers) (st : State) (msg : MESSAGE) :
    Except Fatal (State × List (Int × MESSAGE)) :=
  match task_fs_dispatch K H { st with fs_msg := msg } with
  | .error e => .error e
  | .ok (src, st1) =>
    if st1.fs_msg.type ≠ K.SUSPEND_PROC then
      let reply : MESSAGE := { st1.fs_msg with type := K.SYSCALL_RET }
      .ok ({ st1 with fs_msg := reply }, [(src, reply)])
    else .ok (st1, [])

/-! ## On-disk layout builder -/

/-- Value of a `u32` holding the integer `x`. -/
def to_u32 (x : Int) : Nat := (x % 4294967296).toNat

/-- Store of the bytes `bs` from offset `off` on. -/
def st_bytes (mem : Int → Nat) (off : Int) : List Nat → Int → Nat
  | [] => mem
  | b :: bs => st_bytes (Function.update mem off (b % 256)) (off + 1) bs

/-- The superblock that `mkfs` computes from the geometry `geo`.  Modelled
from the spec: the four field offsets are those of the record layouts (inode:
mode, size, start sector; directory entry: inode number, name). -/
def mkfs_super_block (K : Config) (geo : part_info) : super_block :=
  let bits_per_sect : Nat := SECTOR_SIZE * 8
  let nr_inodes : Nat := u32 bits_per_sect
  let nr_inode_sects : Nat := u32 (nr_inodes * INODE_SIZE) / SECTOR_SIZE
  let nr_sects : Nat := u32 geo.size
  let nr_imap_sects : Nat := 1
  let nr_smap_sects : Nat := u32 (nr_sects / bits_per_sect + 1)
  { magic := K.MAGIC_V1
    nr_inodes := nr_inodes
    nr_inode_sects := nr_inode_sects
    nr_sects := nr_sects
    nr_imap_sects := nr_imap_sects
    nr_smap_sects := nr_smap_sects
    n_1st_sect := u32 (1 + 1 + nr_imap_sects + nr_smap_sects + nr_inode_sects)
    root_inode := K.ROOT_INODE
    inode_size := INODE_SIZE
    inode_isize_off := 4
    inode_start_off := 8
    dir_ent_size := K.DIR_ENTRY_SIZE
    dir_ent_inode_off := 0
    dir_ent_fname_off := 4
    sb_dev := 0 }

/-- The first `SUPER_BLOCK_SIZE` bytes of a superblock stored at offset 0
(`memcpy(fsbuf, &sb, SUPER_BLOCK_SIZE)`). -/
def st_super_block (mem : Int → Nat) (sb : super_block) : Int → Nat :=
  let m1 := st32 mem 0 sb.magic
  let m2 := st32 m1 4 sb.nr_inodes
  let m3 := st32 m2 8 sb.nr_inode_sects
  let m4 := st32 m3 12 sb.nr_sects
  let m5 := st32 m4 16 sb.nr_imap_sects
  let m6 := st32 m5 20 sb.nr_smap_sects
  let m7 := st32 m6 24 sb.n_1st_sect
  let m8 := st32 m7 28 sb.root_inode
  let m9 := st32 m8 32 sb.inode_size
  let m10 := st32 m9 36 sb.inode_isize_off
  let m11 := st32 m10 40 sb.inode_start_off
  let m12 := st32 m11 44 sb.dir_ent_size
  let m13 := st32 m12 48 sb.dir_ent_inode_off
  st32 m13 52 sb.dir_ent_fname_off

/-- The loop `fsbuf[at] |= 1 << i` for `i` below `n`. -/
def set_low_bits (mem : Int → Nat) (pos : Int) (n : Nat) : Int → Nat :=
  (List.range n).foldl (fun m i => Function.update m pos ((m pos ||| (1 <<< i)) % 256)) mem

/-- The loop `fsbuf[i] = 0xFF` for `i` below `n`. -/
def fill_ff (mem : Int → Nat) (n : Nat) : Int → Nat :=
  (List.range n).foldl (fun m i => Function.update m (i : Int) 0xFF) mem

/-- Whole-sector writes of the current `fsbuf` to the sectors `ns`, in order. -/
def WR_SECT_each (K : Config) (dev : Int) : List Int → State → Except Fatal State
  | [], st => .ok st
  | n :: ns, st =>
    match WR_SECT K st dev n with
    | .ok st1 => WR_SECT_each K dev ns st1
    | .error e => .error e

/-- The inode record of console `i`, stored at `INODE_SIZE * (i + 1)`. -/
def st_tty_inode (K : Config) (mem : Int → Nat) (i : Nat) : Int → Nat :=
  let pi : Int := ((INODE_SIZE * (i + 1) : Nat) : Int)
  let m1 := st32 mem pi K.I_CHAR_SPECIAL
  let m2 := st32 m1 (pi + 4) 0
  let m3 := st32 m2 (pi + 8) (MAKE_DEV K.DEV_CHAR_TTY i)
  st32 m3 (pi + 12) 0

/-- The directory entry of console `i`: `pde` advanced `i + 1` times, inode
number `i + 2`, name `dev_tty` followed by the decimal digits of `i`. -/
def st_tty_entry (K : Config) (mem : Int → Nat) (i : Nat) : Int → Nat :=
  let pde : Int := ((K.DIR_ENTRY_SIZE * (i + 1) : Nat) : Int)
  let m1 := st32 mem pde (to_u32 ((i : Int) + 2))
  st_bytes m1 (pde + 4) ((("dev_tty" ++ toString i).toList.map Char.toNat) ++ [0])

/-- The section "super block" of `mkfs`: the record `sb` over a sector filled
with `0x90`, written to sector 1. -/
def mkfs_write_super_block (K : Config) (sb : super_block) (st : State) : Except Fatal State :=
  let buf := st_super_block (memset st.fsbuf 0x90 SECTOR_SIZE) sb
  WR_SECT K { st with fsbuf := buf } ROOT_DEV 1

/-- The section "inode map" of `mkfs`: bits 0 to `NR_CONSOLES + 1` of byte 0,
the assertion on that byte, the write to sector 2. -/
def mkfs_inode_map (K : Config) (st : State) : Except Fatal State :=
  let buf := set_low_bits (memset st.fsbuf 0 SECTOR_SIZE) 0 (K.NR_CONSOLES + 2)
  if buf 0 ≠ 0x1F then .error .assert_inode_bitmap
  else WR_SECT K { st with fsbuf := buf } ROOT_DEV 2

/-- The section "secter map" of `mkfs`: the first sector of the sector bitmap
with `NR_DEFAULT_FILE_SECTS + 1` bits set, then zeroed sectors for the rest of
the bitmap. -/
def mkfs_sector_map (K : Config) (sb : super_block) (st : State) : Except Fatal State :=
  let nr_sects : Nat := K.NR_DEFAULT_FILE_SECTS + 1
  let buf1 := fill_ff (memset st.fsbuf 0 SECTOR_SIZE) (nr_sects / 8)
  let buf2 := set_low_bits buf1 ((nr_sects / 8 : Nat) : Int) (nr_sects % 8)
  match WR_SECT K { st with fsbuf := buf2 } ROOT_DEV (u32 (2 + sb.nr_imap_sects)) with
  | .error e => .error e
  | .ok st1 =>
    WR_SECT_each K ROOT_DEV
      ((List.range' 1 (sb.nr_smap_sects - 1)).map
        (fun i => ((u32 (2 + sb.nr_imap_sects + i) : Nat) : Int)))
      { st1 with fsbuf := memset st1.fsbuf 0 SECTOR_SIZE }

/-- The section "inodes" of `mkfs`: the record of the root directory and one
record per console, written to the first sector of the inode table. -/
def mkfs_inodes (K : Config) (sb : super_block) (st : State) : Except Fatal State :=
  let buf1 := memset st.fsbuf 0 SECTOR_SIZE
  let buf2 := st32 buf1 0 K.I_DIRECTORY
  let buf3 := st32 buf2 4 (u32 (K.DIR_ENTRY_SIZE * 4))
  let buf4 := st32 buf3 8 sb.n_1st_sect
  let buf5 := st32 buf4 12 K.NR_DEFAULT_FILE_SECTS
  let buf6 := (List.range K.NR_CONSOLES).foldl (st_tty_inode K) buf5
  WR_SECT K { st with fsbuf := buf6 } ROOT_DEV (u32 (2 + sb.nr_imap_sects + sb.nr_smap_sects))

/-- The section "`/'" of `mkfs`: the entry `.` for inode 1 and one entry per
console, written to the first data sector. -/
def mkfs_root_dir (K : Config) (sb : super_block) (st : State) : Except Fatal State :=
  let buf1 := memset st.fsbuf 0 SECTOR_SIZE
  let buf2 := st32 buf1 0 1
  let buf3 := st_bytes buf2 4 [46, 0]
  let buf4 := (List.range K.NR_CONSOLES).foldl (st_tty_entry K) buf3
  WR_SECT K { st with fsbuf := buf4 } ROOT_DEV sb.n_1st_sect

/-- Embedding of `mkfs()`; `geo` is the geometry with which the driver answers
the `DIOCTL_GET_GEO` request. -/
def mkfs (K : Config) (geo : part_info) (st : State) : Except Fatal State :=
  if K.dd_map (MAJOR ROOT_DEV) = INVALID_DRIVER then .error .assert_driver
  else do
    let sb := mkfs_super_block K geo
    let st1 ← mkfs_write_super_block K sb st
    let st2 ← mkfs_inode_map K st1
    let st3 ← mkfs_sector_map K sb st2
    let st4 ← mkfs_inodes K sb st3
    mkfs_root_dir K sb st4

/-- The state a successful `WR_SECT(dev, sect_nr)` leaves. -/
def wr_state (K : Config) (st : State) (dev : Int) (sect_nr : Int) : State :=
  { st with disk := fun d m p =>
      if d = K.dd_map (MAJOR dev) ∧ m = MINOR dev ∧ sect_pos sect_nr ≤ p
        ∧ p < sect_pos sect_nr + SECTOR_SIZE
      then st.fsbuf ((p - sect_pos sect_nr : Nat) : Int)
      else st.disk d m p }

/-- The state a successful run of `WR_SECT_each` over the sectors `ns` leaves. -/
def wr_each_state (K : Config) (dev : Int) : List Int → State → State
  | [], st => st
  | n :: ns, st => wr_each_state K dev ns (wr_state K st dev n)

/-! ## Descriptions of the states that `get_inode` leaves -/

/-- Sector of the inode table that holds the record of inode `num`, as
`get_inode` and `sync_inode` compute it from superblock `sb`. -/
def inode_blk_nr (sb : super_block) (num : Int) : Int :=
  wrap32 (1 + 1 + sb.nr_imap_sects + sb.nr_smap_sects
    + (wrap32 (num - 1)).tdiv ((SECTOR_SIZE / INODE_SIZE : Nat) : Int))

/-- Byte offset of the record of inode `num` inside its sector, as `get_inode`
and `sync_inode` compute it. -/
def inode_offset (num : Int) : Int :=
  (wrap32 (num - 1)).tmod ((SECTOR_SIZE / INODE_SIZE : Nat) : Int) * INODE_SIZE

/-- Contents of `fsbuf` after reading sector `sect_nr` of `dev`. -/
def fsbuf_after_read (K : Config) (st : State) (dev sect_nr : Int) : Int → Nat :=
  fun a =>
    if 0 ≤ a ∧ a < (SECTOR_SIZE : Nat) then
      st.disk (K.dd_map (MAJOR dev)) (MINOR dev) (sect_pos sect_nr + a.toNat)
    else st.fsbuf a

/-- The inode that a cache miss for `(dev, num)` leaves in slot `q`, the
registry slot of `dev` being `i`. -/
def miss_inode (K : Config) (st : State) (dev num : Int) (i : Nat) : inode :=
  { i_mode := ld32 (fsbuf_after_read K st dev (inode_blk_nr (st.super_block i) num)) (inode_offset num)
    i_size := ld32 (fsbuf_after_read K st dev (inode_blk_nr (st.super_block i) num)) (inode_offset num + 4)
    i_start_sect :=
      ld32 (fsbuf_after_read K st dev (inode_blk_nr (st.super_block i) num)) (inode_offset num + 8)
    i_nr_sects :=
      ld32 (fsbuf_after_read K st dev (inode_blk_nr (st.super_block i) num)) (inode_offset num + 12)
    i_dev := dev
    i_cnt := 1
    i_num := num }

/-- The state that a cache miss for `(dev, num)` filling slot `q` leaves. -/
def miss_state (K : Config) (st : State) (dev num : Int) (q i : Nat) : State :=
  { st with
    inode_table := Function.update st.inode_table q (miss_inode K st dev num i)
    fsbuf := fsbuf_after_read K st dev (inode_blk_nr (st.super_block i) num) }

/-- The state that a cache hit at slot `p` leaves. -/
def hit_state (st : State) (p : Nat) : State :=
  let hit : inode := { st.inode_table p with i_cnt := wrap32 ((st.inode_table p).i_cnt + 1) }
  { st with inode_table := Function.update st.inode_table p hit }

/-- What a `put_inode` on a slot with a positive count leaves. -/
def put_state (st : State) (p : Nat) : State :=
  let released : inode := { st.inode_table p with i_cnt := (st.inode_table p).i_cnt - 1 }
  { st with inode_table := Function.update st.inode_table p released }

/-! ## Descriptions of the states that `fs_fork` and `fs_exit` leave -/

/-- The integers a C `int` can hold. -/
def in_int32 (x : Int) : Prop := -2147483648 ≤ x ∧ x < 2147483648

instance (x : Int) : Decidable (in_int32 x) := by
  unfold in_int32
  infer_instance

/-- Number of the slots `l` of the file table `filp` that point at
descriptor `d`. -/
def slots_at_desc (filp : Nat → Option Nat) (l : List Nat) (d : Nat) : Nat :=
  l.countP (fun i => decide (filp i = some d))

/-- Number of the slots `l` of the file table `filp` whose descriptor points at
inode `n`, `fdi` giving the inode pointer of each descriptor. -/
def slots_at_inode (filp : Nat → Option Nat) (fdi : Nat → Option Nat) (l : List Nat) (n : Nat) : Nat :=
  l.countP (fun i => decide ((filp i).bind fdi = some n))

/-- The state the loop body of `fs_fork` leaves for a slot that points at
descriptor `d`, which points at inode `n`. -/
def fork_slot_state (st : State) (d n : Nat) : State :=
  let fd1 : file_desc := { st.f_desc_table d with fd_cnt := wrap32 ((st.f_desc_table d).fd_cnt + 1) }
  let ino : inode := { st.inode_table n with i_cnt := wrap32 ((st.inode_table n).i_cnt + 1) }
  { st with
    f_desc_table := Function.update st.f_desc_table d fd1
    inode_table := Function.update st.inode_table n ino }

/-- The state the loop body of `fs_exit` leaves for slot `i` of process `pid`
that points at descriptor `d`, which points at inode `n`. -/
def exit_slot_state (st : State) (pid : Int) (i d n : Nat) : State :=
  let ino : inode := { st.inode_table n with i_cnt := wrap32 ((st.inode_table n).i_cnt - 1) }
  let fd1 : file_desc := { st.f_desc_table d with fd_cnt := wrap32 ((st.f_desc_table d).fd_cnt - 1) }
  let fd2 : file_desc := if fd1.fd_cnt = 0 then { fd1 with fd_inode := none } else fd1
  let pr : proc := { filp := Function.update (st.proc_table pid).filp i none }
  { st with
    inode_table := Function.update st.inode_table n ino
    f_desc_table := Function.update st.f_desc_table d fd2
    proc_table := Function.update st.proc_table pid pr }

/-! ## Descriptions of the states that `sync_inode` and repeated releases leave -/

/-- The buffer `sync_inode(p)` writes back: the sector read, with the four
on-disk fields of slot `p` stored at the offset of its record. -/
def sync_buf (K : Config) (st : State) (p i : Nat) : Int → Nat :=
  let dev := (st.inode_table p).i_dev
  let num := (st.inode_table p).i_num
  let buf := fsbuf_after_read K st dev (inode_blk_nr (st.super_block i) num)
  let buf1 := st32 buf (inode_offset num) (st.inode_table p).i_mode
  let buf2 := st32 buf1 (inode_offset num + 4) (st.inode_table p).i_size
  let buf3 := st32 buf2 (inode_offset num + 8) (st.inode_table p).i_start_sect
  st32 buf3 (inode_offset num + 12) (st.inode_table p).i_nr_sects

/-- The state a successful `sync_inode(p)` leaves, the registry slot of the
device of `p` being `i`. -/
def sync_state (K : Config) (st : State) (p i : Nat) : State :=
  wr_state K { st with fsbuf := sync_buf K st p i } (st.inode_table p).i_dev
    (inode_blk_nr (st.super_block i) (st.inode_table p).i_num)

/-- The call `put_inode(p)` made `k` times in a row. -/
def put_inode_times : Nat → State → Nat → Except Fatal State
  | 0, st, _ => .ok st
  | k + 1, st, p =>
    match put_inode st p with
    | .ok st1 => put_inode_times k st1 p
    | .error e => .error e

/-- The state in which the reference count of slot `p` has been released to
zero. -/
def released_state (st : State) (p : Nat) : State :=
  let released : inode := { st.inode_table p with i_cnt := 0 }
  { st with inode_table := Function.update st.inode_table p released }

/-! ## A concrete configuration and state -/

/-- A configuration with the values of the Orange-S headers: three consoles,
64 cache slots, 8 registry slots, hard-disk driver on major 3, terminal driver
on major 4. -/
def sample_config : Config :=
  { NR_INODE := 64
    NR_SUPER_BLOCK := 8
    NR_FILES := 64
    NR_CONSOLES := 3
    NR_DEFAULT_FILE_SECTS := 2048
    ROOT_INODE := 1
    MAGIC_V1 := 0x111
    I_DIRECTORY := 0x4000
    I_CHAR_SPECIAL := 0x2000
    DIR_ENTRY_SIZE := 16
    DEV_CHAR_TTY := 4
    NO_DEV := 0
    dd_map := fun m => if m = 3 then 2 else if m = 4 then 0 else INVALID_DRIVER
    OPEN := 4
    CLOSE := 5
    READ := 6
    WRITE := 7
    UNLINK := 10
    SUSPEND_PROC := 11
    RESUME_PROC := 12
    FORK := 15
    EXIT := 16
    SYSCALL_RET := 17
    FD := 0
    RETVAL := 0
    CNT := 1
    PROC_NR := 2
    PID := 1 }

/-- An inode slot with every field zero. -/
def zero_inode : inode :=
  { i_mode := 0, i_size := 0, i_start_sect := 0, i_nr_sects := 0, i_dev := 0, i_cnt := 0, i_num := 0 }

/-- A superblock slot with every field zero and device `dev`. -/
def zero_super_block (dev : Int) : super_block :=
  { magic := 0, nr_inodes := 0, nr_inode_sects := 0, nr_sects := 0, nr_imap_sects := 0,
    nr_smap_sects := 0, n_1st_sect := 0, root_inode := 0, inode_size := 0, inode_isize_off := 0,
    inode_start_off := 0, dir_ent_size := 0, dir_ent_inode_off := 0, dir_ent_fname_off := 0,
    sb_dev := dev }

/-- A state with an empty inode cache, empty descriptor and file tables, a
zeroed disk, and the root device in registry slot 0 with one inode-bitmap and
one sector-bitmap sector. -/
def sample_state : State :=
  { inode_table := fun _ => zero_inode
    f_desc_table := fun _ => { fd_mode := 0, fd_pos := 0, fd_cnt := 0, fd_inode := none }
    proc_table := fun _ => { filp := fun _ => none }
    fsbuf := fun _ => 0
    disk := fun _ _ _ => 0
    fs_msg := { source := 0, type := 0, u := fun _ => 0 }
    pcaller := 0
    root_inode := none
    super_block := fun i =>
      if i = 0 then { zero_super_block ROOT_DEV with nr_imap_sects := 1, nr_smap_sects := 1 }
      else zero_super_block 0 }

/-- Modelled from the spec: the operation tags are enumerators of one C
enumeration, hence pairwise different. -/
def msgtype_distinct (K : Config) : Prop :=
  [K.OPEN, K.CLOSE, K.READ, K.WRITE, K.UNLINK, K.SUSPEND_PROC, K.RESUME_PROC, K.FORK, K.EXIT,
    K.SYSCALL_RET].Nodup

instance (K : Config) : Decidable (msgtype_distinct K) := by
  unfold msgtype_distinct
  infer_instance

/-- Handlers for the concrete configuration: open returns descriptor 3, the
read/write handler suspends the caller, the others return 0. -/
def sample_handlers : Handlers :=
  { do_open := fun st => .ok (3, st)
    do_close := fun st => .ok (0, st)
    do_rdwt := fun st => .ok (0, { st with fs_msg := { st.fs_msg with type := 11 } })
    do_unlink := fun st => .ok (0, st) }

/-- A request with tag `type` from process `source` that carries `v` in every
payload slot. -/
def sample_msg (source type v : Int) : MESSAGE :=
  { source := source, type := type, u := fun _ => v }

/-- A cache in which slot `j` is held for inode `j` of the root device. -/
def full_state : State :=
  { sample_state with
    inode_table := fun j => { zero_inode with i_cnt := 1, i_dev := ROOT_DEV, i_num := j } }

/-- A state in which process 0 has three open slots: slots 0 and 1 share
descriptor 0, slot 2 points at descriptor 1, and both descriptors point at
inode 0. -/
def open_files_state : State :=
  { sample_state with
    inode_table := fun n => if n = 0 then { zero_inode with i_cnt := 3, i_num := 7 } else zero_inode
    f_desc_table := fun d =>
      if d = 0 then { fd_mode := 0, fd_pos := 0, fd_cnt := 2, fd_inode := some 0 }
      else if d = 1 then { fd_mode := 0, fd_pos := 0, fd_cnt := 1, fd_inode := some 0 }
      else { fd_mode := 0, fd_pos := 0, fd_cnt := 0, fd_inode := none }
    proc_table := fun _ =>
      { filp := fun i => if i = 0 then some 0 else if i = 1 then some 0
                         else if i = 2 then some 1 else none } }

/-- A state in which slot 0 of the cache is held twice for inode 5 of the root
device, with freshly set fields, and every other slot is free. -/
def held_state : State :=
  { sample_state with
    inode_table := fun j =>
      if j = 0 then
        { i_mode := 0x8000, i_size := 1234, i_start_sect := 300, i_nr_sects := 2048,
          i_dev := ROOT_DEV, i_cnt := 2, i_num := 5 }
      else zero_inode }

/-! ## Loading a superblock and start-up -/

/-- The `struct super_block` that lies at the start of byte memory `mem`
(`*psb` for `psb = (struct super_block *)fsbuf`): the fourteen on-disk fields
and the four bytes that follow them, which the record keeps as `sb_dev`. -/
def ld_super_block (mem : Int → Nat) : super_block :=
  { magic := ld32 mem 0
    nr_inodes := ld32 mem 4
    nr_inode_sects := ld32 mem 8
    nr_sects := ld32 mem 12
    nr_imap_sects := ld32 mem 16
    nr_smap_sects := ld32 mem 20
    n_1st_sect := ld32 mem 24
    root_inode := ld32 mem 28
    inode_size := ld32 mem 32
    inode_isize_off := ld32 mem 36
    inode_start_off := ld32 mem 40
    dir_ent_size := ld32 mem 44
    dir_ent_inode_off := ld32 mem 48
    dir_ent_fname_off := ld32 mem 52
    sb_dev := wrap32 (ld32 mem 56) }

/-- Embedding of `read_super_block(dev)`.  The message it builds and sends is
the one `rw_sector(DEV_READ, dev, SECTOR_SIZE * 1, SECTOR_SIZE, TASK_FS, fsbuf)`
sends, behind the same assertion on the driver; then the scan for a slot with
`sb_dev == NO_DEV`, the `panic` when the scan ends at `NR_SUPER_BLOCK`, the
assertion `i == 0`, the copy of the record and the stamp with `dev`. -/
def read_super_block (K : Config) (st : State) (dev : Int) : Except Fatal State :=
  match rw_sector K st .DEV_READ dev (SECTOR_SIZE * 1) SECTOR_SIZE with
  | .error e => .error e
  | .ok st1 =>
    match (List.range K.NR_SUPER_BLOCK).find?
        (fun i => decide ((st1.super_block i).sb_dev = K.NO_DEV)) with
    | none => .error .panic_super_block_slots
    | some i =>
      if i ≠ 0 then .error .assert_first_slot
      else
        let sb : super_block := { ld_super_block st1.fsbuf with sb_dev := dev }
        .ok { st1 with super_block := Function.update st1.super_block i sb }

/-- A descriptor slot with every field zero. -/
def zero_file_desc : file_desc :=
  { fd_mode := 0, fd_pos := 0, fd_cnt := 0, fd_inode := none }

/-- The three clearing loops at the start of `init_fs()`: `f_desc_table[]`
and `inode_table[]` are zeroed, every registry slot gets `sb_dev = NO_DEV`;
`NR_FILE_DESC` is the size of `f_desc_table`. -/
def init_tables (K : Config) (NR_FILE_DESC : Nat) (st : State) : State :=
  { st with
    f_desc_table := fun i => if i < NR_FILE_DESC then zero_file_desc else st.f_desc_table i
    inode_table := fun i =>
      if i < K.NR_INODE then
        { i_mode := 0, i_size := 0, i_start_sect := 0, i_nr_sects := 0, i_dev := 0, i_cnt := 0,
          i_num := 0 }
      else st.inode_table i
    super_block := fun i =>
      if i < K.NR_SUPER_BLOCK then { st.super_block i with sb_dev := K.NO_DEV }
      else st.super_block i }

/-- Embedding of `init_fs()`; `geo` is the geometry with which the driver
answers `mkfs`.  The `DEV_OPEN` rendezvous with the driver leaves the contents
of the device as they are. -/
def init_fs (K : Config) (NR_FILE_DESC : Nat) (geo : part_info) (st : State) :
    Except Fatal State :=
  let st1 : State := init_tables K NR_FILE_DESC st
  if K.dd_map (MAJOR ROOT_DEV) = INVALID_DRIVER then .error .assert_driver
  else
    match mkfs K geo st1 with
    | .error e => .error e
    | .ok st2 =>
      match read_super_block K st2 ROOT_DEV with
      | .error e => .error e
      | .ok st3 =>
        match get_super_block K st3 ROOT_DEV with
        | .error e => .error e
        | .ok sb =>
          if (st3.super_block sb).magic ≠ K.MAGIC_V1 then .error .assert_magic
          else
            match get_inode K st3 ROOT_DEV K.ROOT_INODE with
            | .error e => .error e
            | .ok (r, st4) => .ok { st4 with root_inode := r }

/-- The registry states that start-up and successful `read_super_block` calls
lead to: at the start every slot carries `NO_DEV`; a successful
`read_super_block` is a step; so is every step that leaves the registry as it
is (all other operations of the task). -/
inductive registry_reachable (K : Config) : State → Prop where
  | start (st : State)
      (h : ∀ i, i < K.NR_SUPER_BLOCK → (st.super_block i).sb_dev = K.NO_DEV) :
      registry_reachable K st
  | load (st st1 : State) (dev : Int) (hr : registry_reachable K st)
      (h : read_super_block K st dev = .ok st1) : registry_reachable K st1
  | other (st st1 : State) (hr : registry_reachable K st)
      (h : st1.super_block = st.super_block) : registry_reachable K st1

/-- No two held slots of the inode cache mirror the same inode. -/
def cache_unique (K : Config) (st : State) : Prop :=
  ∀ i j, i < K.NR_INODE → j < K.NR_INODE →
    (st.inode_table i).i_cnt ≠ 0 → (st.inode_table j).i_cnt ≠ 0 →
    (st.inode_table i).i_dev = (st.inode_table j).i_dev →
    (st.inode_table i).i_num = (st.inode_table j).i_num → i = j

/-- The state a successful `read_super_block(dev)` leaves: sector 1 of `dev` in
`fsbuf`, and in registry slot 0 the record read, stamped with `dev`. -/
def load_state (K : Config) (st : State) (dev : Int) : State :=
  let sb : super_block := { ld_super_block (fsbuf_after_read K st dev 1) with sb_dev := dev }
  { st with
    fsbuf := fsbuf_after_read K st dev 1
    super_block := Function.update st.super_block 0 sb }

/-- The concrete state with every registry slot unused, as `init_fs` leaves
the registry before it loads the root device. -/
def fresh_state : State :=
  { sample_state with super_block := fun _ => zero_super_block 0 }

/-- What the loop of `fs_exit` over the slots `l` of process `pid` needs to run
through: no slot listed twice, every descriptor that a slot points at points
at an inode, no reference count of a descriptor reaches zero before the last
slot that points at it, and all counts are values of a C `int`. -/
def exit_ready (pid : Int) (l : List Nat) (st : State) : Prop :=
  l.Nodup
  ∧ (∀ i, i ∈ l → ∀ d, (st.proc_table pid).filp i = some d →
      (st.f_desc_table d).fd_inode ≠ none)
  ∧ (∀ d, ∀ k : Nat, 1 ≤ k → k < slots_at_desc (st.proc_table pid).filp l d →
      wrap32 ((st.f_desc_table d).fd_cnt - k) ≠ 0)
  ∧ (∀ d, in_int32 (st.f_desc_table d).fd_cnt)
  ∧ (∀ n, in_int32 (st.inode_table n).i_cnt)

/-- A state in which process 0 has two open slots that share descriptor 0,
whose count is 2: the process is the only holder. -/
def last_holder_state : State :=
  { sample_state with
    inode_table := fun n => if n = 0 then { zero_inode with i_cnt := 2, i_num := 7 } else zero_inode
    f_desc_table := fun d =>
      if d = 0 then { fd_mode := 0, fd_pos := 0, fd_cnt := 2, fd_inode := some 0 }
      else { fd_mode := 0, fd_pos := 0, fd_cnt := 0, fd_inode := none }
    proc_table := fun _ =>
      { filp := fun i => if i = 0 then some 0 else if i = 1 then some 0 else none } }

/-! ## The sectors that `mkfs` writes -/

/-- Sector 1 as `mkfs` writes it: the superblock record over bytes `0x90`. -/
def sb_sector (K : Config) (geo : part_info) : Int → Nat :=
  st_super_block (fun _ => 0x90) (mkfs_super_block K geo)

/-- The first sector of the sector bitmap as `mkfs` writes it. -/
def smap_sector (K : Config) : Int → Nat :=
  set_low_bits (fill_ff (fun _ => 0) ((K.NR_DEFAULT_FILE_SECTS + 1) / 8))
    ((((K.NR_DEFAULT_FILE_SECTS + 1) / 8 : Nat) : Int)) ((K.NR_DEFAULT_FILE_SECTS + 1) % 8)

/-- The first sector of the inode table as `mkfs` writes it. -/
def inode_sector (K : Config) (geo : part_info) : Int → Nat :=
  (List.range K.NR_CONSOLES).foldl (st_tty_inode K)
    (st32 (st32 (st32 (st32 (fun _ => 0) 0 K.I_DIRECTORY) 4 (u32 (K.DIR_ENTRY_SIZE * 4))) 8
      (mkfs_super_block K geo).n_1st_sect) 12 K.NR_DEFAULT_FILE_SECTS)

/-! # Theorems -/

/-! ## Lemmas on the cache scan -/

theorem find_range_first (P : Nat → Bool) (n a : Nat) (ha : a < n) (hPa : P a = true)
    (hlow : ∀ j, j < a → P j = false) : (List.range n).find? P = some a := by
  induction n with
  | zero => omega
  | succ n ih =>
    rw [List.range_succ, List.find?_append]
    by_cases h : a < n
    · rw [ih h]; rfl
    · have han : a = n := by omega
      subst han
      have hnone : (List.range a).find? P = none := by
        rw [List.find?_eq_none]
        intro x hx
        rw [List.mem_range] at hx
        simp [hlow x hx]
      rw [hnone]
      simp [List.find?, hPa]

theorem find_range_some (P : Nat → Bool) (n a : Nat) (h : (List.range n).find? P = some a) :
    a < n ∧ P a = true ∧ ∀ j, j < a → P j = false := by
  induction n with
  | zero => simp at h
  | succ n ih =>
    rw [List.range_succ, List.find?_append] at h
    cases hf : (List.range n).find? P with
    | some b =>
      rw [hf] at h
      have hb : b = a := by simpa using h
      subst hb
      obtain ⟨h1, h2, h3⟩ := ih hf
      exact ⟨by omega, h2, h3⟩
    | none =>
      rw [hf] at h
      have hPn : P n = true ∧ n = a := by
        by_cases hp : P n = true
        · simp [List.find?, hp] at h
          exact ⟨hp, h⟩
        · simp [List.find?, hp] at h
      obtain ⟨hp, rfl⟩ := hPn
      refine ⟨by omega, hp, ?_⟩
      intro j hj
      rw [List.find?_eq_none] at hf
      have := hf j (List.mem_range.mpr hj)
      simpa using this

theorem find_range_none (P : Nat → Bool) (n : Nat) :
    (List.range n).find? P = none ↔ ∀ j, j < n → P j = false := by
  rw [List.find?_eq_none]
  constructor
  · intro h j hj
    simpa using h j (List.mem_range.mpr hj)
  · intro h x hx
    simp [h x (List.mem_range.mp hx)]

theorem find_range_exists (P : Nat → Bool) (n : Nat) (h : ∃ j, j < n ∧ P j = true) :
    ∃ a, (List.range n).find? P = some a := by
  cases hf : (List.range n).find? P with
  | some a => exact ⟨a, rfl⟩
  | none =>
    obtain ⟨j, hj, hP⟩ := h
    rw [find_range_none] at hf
    rw [hf j hj] at hP
    cases hP

/-- The scan of `get_inode` returns early at the first held slot that matches;
when there is none it ends with the first free slot (or the `q` it started
with). -/
theorem get_inode_scan_eq (tbl : Nat → inode) (dev num : Int) (l : List Nat) (q : Option Nat) :
    get_inode_scan tbl dev num l q =
      match l.find? (fun p => decide ((tbl p).i_cnt ≠ 0 ∧ (tbl p).i_dev = dev ∧ (tbl p).i_num = num)) with
      | some p => .inl p
      | none => .inr (q.or (l.find? (fun p => decide ((tbl p).i_cnt = 0)))) := by
  induction l generalizing q with
  | nil => cases q <;> rfl
  | cons p ps ih =>
    by_cases hc : (tbl p).i_cnt = 0
    · simp only [get_inode_scan, hc, ne_eq, not_true_eq_false, if_false, List.find?, false_and,
        decide_False, decide_True]
      rw [ih]
      cases q <;> simp
    · by_cases hm : (tbl p).i_dev = dev ∧ (tbl p).i_num = num
      · simp [get_inode_scan, hc, hm, List.find?]
      · have hm2 : ¬ ((tbl p).i_cnt ≠ 0 ∧ (tbl p).i_dev = dev ∧ (tbl p).i_num = num) := by
          intro h; exact hm h.2
        simp only [get_inode_scan, hc, ne_eq, not_false_eq_true, if_true, hm, if_false,
          List.find?, hm2, decide_False]
        rw [ih]
        simp [hc, hm]

/-! ## What one `get_inode` call does: lemmas -/

theorem get_inode_hit (K : Config) (st : State) (dev num : Int) (p : Nat) (hnum : num ≠ 0)
    (hp : p < K.NR_INODE) (hcnt : (st.inode_table p).i_cnt ≠ 0)
    (hdev : (st.inode_table p).i_dev = dev) (hino : (st.inode_table p).i_num = num)
    (hfirst : ∀ j, j < p → ¬ ((st.inode_table j).i_cnt ≠ 0 ∧ (st.inode_table j).i_dev = dev
      ∧ (st.inode_table j).i_num = num)) :
    get_inode K st dev num = .ok (some p, hit_state st p) := by
  have hfind := find_range_first
    (fun p => decide ((st.inode_table p).i_cnt ≠ 0 ∧ (st.inode_table p).i_dev = dev
      ∧ (st.inode_table p).i_num = num)) K.NR_INODE p hp
    (by simp [hcnt, hdev, hino]) (by intro j hj; simpa using hfirst j hj)
  unfold get_inode
  rw [if_neg hnum, get_inode_scan_eq, hfind]
  rfl

theorem get_inode_miss (K : Config) (st : State) (dev num : Int) (q i : Nat) (hnum : num ≠ 0)
    (hmiss : ∀ j, j < K.NR_INODE → ¬ ((st.inode_table j).i_cnt ≠ 0 ∧ (st.inode_table j).i_dev = dev
      ∧ (st.inode_table j).i_num = num))
    (hq : q < K.NR_INODE) (hfree : (st.inode_table q).i_cnt = 0)
    (hlow : ∀ j, j < q → (st.inode_table j).i_cnt ≠ 0)
    (hsb : get_super_block K st dev = .ok i)
    (hdrv : K.dd_map (MAJOR dev) ≠ INVALID_DRIVER) :
    get_inode K st dev num = .ok (some q, miss_state K st dev num q i) := by
  have hnone := (find_range_none
    (fun p => decide ((st.inode_table p).i_cnt ≠ 0 ∧ (st.inode_table p).i_dev = dev
      ∧ (st.inode_table p).i_num = num)) K.NR_INODE).mpr
    (by intro j hj; simpa using hmiss j hj)
  have hfind := find_range_first (fun p => decide ((st.inode_table p).i_cnt = 0)) K.NR_INODE q hq
    (by simp [hfree]) (by intro j hj; simpa using hlow j hj)
  have hsb2 : ∀ tbl, get_super_block K { st with inode_table := tbl } dev = .ok i := fun _ => hsb
  unfold get_inode
  rw [if_neg hnum, get_inode_scan_eq, hnone, hfind]
  simp only [Option.or, bind, Except.bind, hsb2, RD_SECT, rw_sector, if_neg hdrv,
    Function.update_same, Function.update_idem]
  rfl

theorem get_inode_full (K : Config) (st : State) (dev num : Int) (hnum : num ≠ 0)
    (hmiss : ∀ j, j < K.NR_INODE → ¬ ((st.inode_table j).i_cnt ≠ 0 ∧ (st.inode_table j).i_dev = dev
      ∧ (st.inode_table j).i_num = num))
    (hheld : ∀ j, j < K.NR_INODE → (st.inode_table j).i_cnt ≠ 0) :
    get_inode K st dev num = .error .panic_inode_table_full := by
  have hnone := (find_range_none
    (fun p => decide ((st.inode_table p).i_cnt ≠ 0 ∧ (st.inode_table p).i_dev = dev
      ∧ (st.inode_table p).i_num = num)) K.NR_INODE).mpr
    (by intro j hj; simpa using hmiss j hj)
  have hnone2 := (find_range_none (fun p => decide ((st.inode_table p).i_cnt = 0)) K.NR_INODE).mpr
    (by intro j hj; simpa using hheld j hj)
  unfold get_inode
  rw [if_neg hnum, get_inode_scan_eq, hnone, hnone2]
  rfl

theorem get_super_block_ok (K : Config) (st : State) (dev : Int)
    (h : ∃ i, i < K.NR_SUPER_BLOCK ∧ (st.super_block i).sb_dev = dev) :
    ∃ i, get_super_block K st dev = .ok i ∧ i < K.NR_SUPER_BLOCK ∧ (st.super_block i).sb_dev = dev := by
  obtain ⟨j, hj, hdev⟩ := h
  obtain ⟨i, hi⟩ := find_range_exists (fun i => decide ((st.super_block i).sb_dev = dev))
    K.NR_SUPER_BLOCK ⟨j, hj, by simp [hdev]⟩
  obtain ⟨h1, h2, _⟩ := find_range_some _ _ _ hi
  refine ⟨i, ?_, h1, by simpa using h2⟩
  unfold get_super_block
  rw [hi]

/-- In a cache with a free slot there is a lowest free slot. -/
theorem lowest_free_slot (K : Config) (st : State)
    (hfree : ∃ j, j < K.NR_INODE ∧ (st.inode_table j).i_cnt = 0) :
    ∃ q, q < K.NR_INODE ∧ (st.inode_table q).i_cnt = 0 ∧ ∀ j, j < q → (st.inode_table j).i_cnt ≠ 0 := by
  obtain ⟨j, hj, hc⟩ := hfree
  obtain ⟨q, hq⟩ := find_range_exists (fun p => decide ((st.inode_table p).i_cnt = 0))
    K.NR_INODE ⟨j, hj, by simp [hc]⟩
  obtain ⟨h1, h2, h3⟩ := find_range_some _ _ _ hq
  refine ⟨q, h1, by simpa using h2, ?_⟩
  intro i hi
  simpa using h3 i hi

/-! ## C1: cache identity -/

/-- C1: for an inode number other than 0 that no held slot of the cache mirrors,
with a free slot available, the superblock of the device in the registry and
the driver of the device mapped, two consecutive `get_inode(dev, num)` calls
return the same slot, whose reference count is 2 after the second call. -/
theorem get_inode_twice_same_slot (K : Config) (st : State) (dev num : Int) (hnum : num ≠ 0)
    (hunheld : ∀ j, j < K.NR_INODE → (st.inode_table j).i_cnt ≠ 0 →
      ¬ ((st.inode_table j).i_dev = dev ∧ (st.inode_table j).i_num = num))
    (hfree : ∃ j, j < K.NR_INODE ∧ (st.inode_table j).i_cnt = 0)
    (hsb : ∃ i, i < K.NR_SUPER_BLOCK ∧ (st.super_block i).sb_dev = dev)
    (hdrv : K.dd_map (MAJOR dev) ≠ INVALID_DRIVER) :
    ∃ q st1 st2, get_inode K st dev num = .ok (some q, st1)
      ∧ get_inode K st1 dev num = .ok (some q, st2)
      ∧ (st2.inode_table q).i_cnt = 2 := by
  obtain ⟨q, hq, hq0, hlow⟩ := lowest_free_slot K st hfree
  obtain ⟨i, hi, _, _⟩ := get_super_block_ok K st dev hsb
  have h1 := get_inode_miss K st dev num q i hnum (fun j hj h => hunheld j hj h.1 h.2)
    hq hq0 hlow hi hdrv
  have hslot : (miss_state K st dev num q i).inode_table q = miss_inode K st dev num i := by
    simp [miss_state]
  have hother : ∀ j, j ≠ q → (miss_state K st dev num q i).inode_table j = st.inode_table j := by
    intro j hj
    simp [miss_state, Function.update_noteq hj]
  have h2 := get_inode_hit K (miss_state K st dev num q i) dev num q hnum hq
    (by rw [hslot]; simp [miss_inode]) (by rw [hslot]; rfl) (by rw [hslot]; rfl)
    (by
      intro j hj h
      rw [hother j (by omega)] at h
      exact hunheld j (by omega) h.1 h.2)
  refine ⟨q, _, _, h1, h2, ?_⟩
  simp [hit_state, hslot, miss_inode, wrap32]

theorem get_inode_twice_same_slot_witness :
    ∃ q st1 st2, get_inode sample_config sample_state ROOT_DEV 5 = .ok (some q, st1)
      ∧ get_inode sample_config st1 ROOT_DEV 5 = .ok (some q, st2)
      ∧ (st2.inode_table q).i_cnt = 2 :=
  get_inode_twice_same_slot sample_config sample_state ROOT_DEV 5 (by decide)
    (fun _ _ h => absurd rfl h) ⟨0, by decide, rfl⟩ ⟨0, by decide, rfl⟩ (by decide)

/-! ## C6: release -/

theorem put_inode_pos (st : State) (p : Nat) (hpos : 0 < (st.inode_table p).i_cnt) :
    put_inode st p = .ok (put_state st p) := by
  unfold put_inode
  rw [if_pos hpos]
  rfl

theorem put_state_slot (st : State) (p : Nat) :
    (put_state st p).inode_table p
      = { st.inode_table p with i_cnt := (st.inode_table p).i_cnt - 1 } := by
  simp [put_state]

theorem put_state_other (st : State) (p j : Nat) (hj : j ≠ p) :
    (put_state st p).inode_table j = st.inode_table j := by
  simp [put_state, Function.update_noteq hj]

/-- C6: `put_inode` on a slot whose reference count is 0 ends in the failed
assertion and returns no state (nothing is decremented); on a slot with a
positive count it succeeds, the count of that slot drops by exactly 1, its
other fields, every other slot and every other part of the state are
unchanged. -/
theorem put_inode_spec (st : State) (p : Nat) :
    ((st.inode_table p).i_cnt = 0 → put_inode st p = .error .assert_i_cnt)
    ∧ (0 < (st.inode_table p).i_cnt →
        ∃ st1, put_inode st p = .ok st1
          ∧ (st1.inode_table p).i_cnt = (st.inode_table p).i_cnt - 1
          ∧ (st1.inode_table p).i_mode = (st.inode_table p).i_mode
          ∧ (st1.inode_table p).i_size = (st.inode_table p).i_size
          ∧ (st1.inode_table p).i_start_sect = (st.inode_table p).i_start_sect
          ∧ (st1.inode_table p).i_nr_sects = (st.inode_table p).i_nr_sects
          ∧ (st1.inode_table p).i_dev = (st.inode_table p).i_dev
          ∧ (st1.inode_table p).i_num = (st.inode_table p).i_num
          ∧ (∀ j, j ≠ p → st1.inode_table j = st.inode_table j)
          ∧ st1.f_desc_table = st.f_desc_table ∧ st1.proc_table = st.proc_table
          ∧ st1.fsbuf = st.fsbuf ∧ st1.disk = st.disk ∧ st1.fs_msg = st.fs_msg
          ∧ st1.pcaller = st.pcaller ∧ st1.root_inode = st.root_inode
          ∧ st1.super_block = st.super_block) := by
  constructor
  · intro h0
    simp [put_inode, h0]
  · intro hpos
    refine ⟨put_state st p, put_inode_pos st p hpos, ?_⟩
    rw [put_state_slot]
    exact ⟨rfl, rfl, rfl, rfl, rfl, rfl, rfl, fun j hj => put_state_other st p j hj,
      rfl, rfl, rfl, rfl, rfl, rfl, rfl, rfl⟩

theorem put_inode_spec_witness :
    put_inode sample_state 0 = .error .assert_i_cnt
    ∧ ∃ st1, put_inode (hit_state (hit_state sample_state 3) 3) 3 = .ok st1
        ∧ (st1.inode_table 3).i_cnt = 1 :=
  ⟨(put_inode_spec sample_state 0).1 rfl,
   by
    obtain ⟨st1, h, hc, _⟩ := (put_inode_spec (hit_state (hit_state sample_state 3) 3) 3).2 (by decide)
    exact ⟨st1, h, by rw [hc]; decide⟩⟩

/-! ## C7: cache exhaustion -/

/-- C7: when every slot of the cache is held and none of them mirrors
`(dev, num)`, `get_inode(dev, num)` with `num` other than 0 ends in the panic
"the inode table is full" and returns no handle; and it never ends there when
some slot is free or some held slot mirrors `(dev, num)`. -/
theorem get_inode_table_full_iff (K : Config) (st : State) (dev num : Int) :
    ((∀ j, j < K.NR_INODE → (st.inode_table j).i_cnt ≠ 0) →
      (∀ j, j < K.NR_INODE → ¬ ((st.inode_table j).i_dev = dev ∧ (st.inode_table j).i_num = num)) →
      num ≠ 0 → get_inode K st dev num = .error .panic_inode_table_full)
    ∧ (((∃ j, j < K.NR_INODE ∧ (st.inode_table j).i_cnt = 0)
        ∨ (∃ j, j < K.NR_INODE ∧ (st.inode_table j).i_cnt ≠ 0 ∧ (st.inode_table j).i_dev = dev
            ∧ (st.inode_table j).i_num = num)) →
      get_inode K st dev num ≠ .error .panic_inode_table_full) := by
  constructor
  · intro hheld hmiss hnum
    exact get_inode_full K st dev num hnum (fun j hj h => hmiss j hj h.2) hheld
  · intro h
    by_cases hnum : num = 0
    · simp [get_inode, hnum]
    · by_cases hhit : ∃ j, j < K.NR_INODE ∧ (st.inode_table j).i_cnt ≠ 0
          ∧ (st.inode_table j).i_dev = dev ∧ (st.inode_table j).i_num = num
      · obtain ⟨j, hj, hc⟩ := hhit
        obtain ⟨p, hp⟩ := find_range_exists
          (fun p => decide ((st.inode_table p).i_cnt ≠ 0 ∧ (st.inode_table p).i_dev = dev
            ∧ (st.inode_table p).i_num = num)) K.NR_INODE ⟨j, hj, by simpa using hc⟩
        unfold get_inode
        rw [if_neg hnum, get_inode_scan_eq, hp]
        simp
      · have hfree : ∃ j, j < K.NR_INODE ∧ (st.inode_table j).i_cnt = 0 := by
          rcases h with h | h
          · exact h
          · exact absurd h hhit
        obtain ⟨q, hq, hq0, hlow⟩ := lowest_free_slot K st hfree
        have hnone := (find_range_none
          (fun p => decide ((st.inode_table p).i_cnt ≠ 0 ∧ (st.inode_table p).i_dev = dev
            ∧ (st.inode_table p).i_num = num)) K.NR_INODE).mpr
          (by
            intro j hj
            simp only [decide_eq_false_iff_not]
            intro hc
            exact hhit ⟨j, hj, hc⟩)
        have hfind := find_range_first (fun p => decide ((st.inode_table p).i_cnt = 0))
          K.NR_INODE q hq (by simp [hq0]) (by intro j hj; simpa using hlow j hj)
        unfold get_inode
        rw [if_neg hnum, get_inode_scan_eq, hnone, hfind]
        simp only [Option.or, bind, Except.bind]
        cases hg : get_super_block K _ dev with
        | error e =>
          have he : e = Fatal.panic_super_block_not_found := by
            unfold get_super_block at hg
            split at hg
            · cases hg
            · cases hg; rfl
          subst he
          simp
        | ok i =>
          simp only [RD_SECT, rw_sector]
          by_cases hd : K.dd_map (MAJOR dev) = INVALID_DRIVER
          · simp [hd]
          · simp [hd]

theorem get_inode_table_full_iff_witness :
    get_inode { sample_config with NR_INODE := 4 } full_state ROOT_DEV 9 = .error .panic_inode_table_full
    ∧ get_inode sample_config sample_state ROOT_DEV 9 ≠ .error .panic_inode_table_full :=
  ⟨(get_inode_table_full_iff { sample_config with NR_INODE := 4 } full_state ROOT_DEV 9).1
      (fun _ _ h => by
        have h1 : (1 : Int) = 0 := h
        omega)
      (fun j hj => by
        have hj4 : j < 4 := hj
        intro h
        have h2 : (j : Int) = 9 := h.2
        omega)
      (by decide),
   (get_inode_table_full_iff sample_config sample_state ROOT_DEV 9).2
      (Or.inl ⟨0, by decide, rfl⟩)⟩

/-! ## C8: a released slot is reusable -/

theorem get_super_block_congr (K : Config) (st st1 : State) (dev : Int)
    (h : st1.super_block = st.super_block) :
    get_super_block K st1 dev = get_super_block K st dev := by
  unfold get_super_block
  rw [h]

/-- C8: two `get_inode(dev, num)` calls on an inode that no held slot mirrors,
followed by two `put_inode` calls on the returned slot `q`, leave the
reference count of `q` at 0; a `get_inode(dev2, num2)` that follows, for an
inode that no held slot mirrors, succeeds and fills `q`, which is the
lowest-index slot with reference count zero. -/
theorem released_slot_reusable (K : Config) (st : State) (dev num dev2 num2 : Int)
    (hnum : num ≠ 0)
    (hunheld : ∀ j, j < K.NR_INODE → (st.inode_table j).i_cnt ≠ 0 →
      ¬ ((st.inode_table j).i_dev = dev ∧ (st.inode_table j).i_num = num))
    (hfree : ∃ j, j < K.NR_INODE ∧ (st.inode_table j).i_cnt = 0)
    (hsb : ∃ i, i < K.NR_SUPER_BLOCK ∧ (st.super_block i).sb_dev = dev)
    (hdrv : K.dd_map (MAJOR dev) ≠ INVALID_DRIVER)
    (hnum2 : num2 ≠ 0)
    (hunheld2 : ∀ j, j < K.NR_INODE → (st.inode_table j).i_cnt ≠ 0 →
      ¬ ((st.inode_table j).i_dev = dev2 ∧ (st.inode_table j).i_num = num2))
    (hsb2 : ∃ i, i < K.NR_SUPER_BLOCK ∧ (st.super_block i).sb_dev = dev2)
    (hdrv2 : K.dd_map (MAJOR dev2) ≠ INVALID_DRIVER) :
    ∃ q st1 st2 st3 st4 st5,
      get_inode K st dev num = .ok (some q, st1)
      ∧ get_inode K st1 dev num = .ok (some q, st2)
      ∧ put_inode st2 q = .ok st3
      ∧ put_inode st3 q = .ok st4
      ∧ (st4.inode_table q).i_cnt = 0
      ∧ get_inode K st4 dev2 num2 = .ok (some q, st5)
      ∧ q < K.NR_INODE
      ∧ (∀ j, j < q → (st4.inode_table j).i_cnt ≠ 0)
      ∧ (st5.inode_table q).i_dev = dev2
      ∧ (st5.inode_table q).i_num = num2
      ∧ (st5.inode_table q).i_cnt = 1 := by
  obtain ⟨q, hq, hq0, hlow⟩ := lowest_free_slot K st hfree
  obtain ⟨i, hi, _, _⟩ := get_super_block_ok K st dev hsb
  obtain ⟨i2, hi2, _, _⟩ := get_super_block_ok K st dev2 hsb2
  have h1 := get_inode_miss K st dev num q i hnum (fun j hj h => hunheld j hj h.1 h.2)
    hq hq0 hlow hi hdrv
  have hslot : (miss_state K st dev num q i).inode_table q = miss_inode K st dev num i := by
    simp [miss_state]
  have hother : ∀ j, j ≠ q → (miss_state K st dev num q i).inode_table j = st.inode_table j := by
    intro j hj
    simp [miss_state, Function.update_noteq hj]
  have h2 := get_inode_hit K (miss_state K st dev num q i) dev num q hnum hq
    (by rw [hslot]; simp [miss_inode]) (by rw [hslot]; rfl) (by rw [hslot]; rfl)
    (by
      intro j hj h
      rw [hother j (by omega)] at h
      exact hunheld j (by omega) h.1 h.2)
  have hc2 : ((hit_state (miss_state K st dev num q i) q).inode_table q).i_cnt = 2 := by
    simp [hit_state, hslot, miss_inode, wrap32]
  have ho2 : ∀ j, j ≠ q → (hit_state (miss_state K st dev num q i) q).inode_table j
      = st.inode_table j := by
    intro j hj
    simp [hit_state, Function.update_noteq hj, hother j hj]
  have hc3 : ((put_state (hit_state (miss_state K st dev num q i) q) q).inode_table q).i_cnt = 1 := by
    rw [put_state_slot]
    show ((hit_state (miss_state K st dev num q i) q).inode_table q).i_cnt - 1 = 1
    rw [hc2]; decide
  have h3 := put_inode_pos (hit_state (miss_state K st dev num q i) q) q (by rw [hc2]; decide)
  have h4 := put_inode_pos (put_state (hit_state (miss_state K st dev num q i) q) q) q
    (by rw [hc3]; decide)
  generalize hst4 : put_state (put_state (hit_state (miss_state K st dev num q i) q) q) q = st4
    at h4
  have hc40 : (st4.inode_table q).i_cnt = 0 := by
    rw [← hst4, put_state_slot]
    show ((put_state (hit_state (miss_state K st dev num q i) q) q).inode_table q).i_cnt - 1 = 0
    rw [hc3]; decide
  have ho40 : ∀ j, j ≠ q → st4.inode_table j = st.inode_table j := by
    intro j hj
    rw [← hst4, put_state_other _ _ _ hj, put_state_other _ _ _ hj, ho2 j hj]
  have hs40 : st4.super_block = st.super_block := by
    rw [← hst4]; rfl
  have hlow4 : ∀ j, j < q → (st4.inode_table j).i_cnt ≠ 0 := by
    intro j hj
    rw [ho40 j (by omega)]
    exact hlow j hj
  have h5 := get_inode_miss K st4 dev2 num2 q i2 hnum2
    (by
      intro j hj h
      by_cases hjq : j = q
      · subst hjq; exact h.1 hc40
      · rw [ho40 j hjq] at h
        exact hunheld2 j hj h.1 h.2)
    hq hc40 hlow4 (by rw [get_super_block_congr K st st4 dev2 hs40]; exact hi2) hdrv2
  refine ⟨q, _, _, _, st4, _, h1, h2, h3, h4, hc40, h5, hq, hlow4, ?_, ?_, ?_⟩ <;>
    simp [miss_state, miss_inode]

theorem released_slot_reusable_witness :
    ∃ q st1 st2 st3 st4 st5,
      get_inode sample_config sample_state ROOT_DEV 5 = .ok (some q, st1)
      ∧ get_inode sample_config st1 ROOT_DEV 5 = .ok (some q, st2)
      ∧ put_inode st2 q = .ok st3
      ∧ put_inode st3 q = .ok st4
      ∧ (st4.inode_table q).i_cnt = 0
      ∧ get_inode sample_config st4 ROOT_DEV 7 = .ok (some q, st5)
      ∧ q < sample_config.NR_INODE
      ∧ (∀ j, j < q → (st4.inode_table j).i_cnt ≠ 0)
      ∧ (st5.inode_table q).i_dev = ROOT_DEV
      ∧ (st5.inode_table q).i_num = 7
      ∧ (st5.inode_table q).i_cnt = 1 :=
  released_slot_reusable sample_config sample_state ROOT_DEV 5 ROOT_DEV 7 (by decide)
    (fun _ _ h => absurd rfl h) ⟨0, by decide, rfl⟩ ⟨0, by decide, rfl⟩ (by decide)
    (by decide) (fun _ _ h => absurd rfl h) ⟨0, by decide, rfl⟩ (by decide)

/-! ## C4, C5: the reply rule of the dispatcher -/

theorem call_into_src (h : State → Except Fatal (Int × State)) (slot : Nat) (s x : Int)
    (st st1 : State) (hc : call_into h slot s st = .ok (x, st1)) : x = s := by
  unfold call_into at hc
  cases hh : h st with
  | error e => rw [hh] at hc; cases hc
  | ok r =>
    obtain ⟨r1, r2⟩ := r
    rw [hh] at hc
    simp only [Except.ok.injEq, Prod.mk.injEq] at hc
    exact hc.1.symm

theorem task_fs_dispatch_src (K : Config) (H : Handlers) (st : State) (src : Int) (st1 : State)
    (hnd : msgtype_distinct K)
    (hd : task_fs_dispatch K H st = .ok (src, st1)) :
    src = if st.fs_msg.type = K.RESUME_PROC then st.fs_msg.u K.PROC_NR else st.fs_msg.source := by
  simp only [msgtype_distinct, List.nodup_cons, List.mem_cons, List.mem_singleton, not_or,
    List.not_mem_nil, not_false_eq_true, List.nodup_nil, and_true] at hnd
  unfold task_fs_dispatch at hd
  simp only at hd
  by_cases hr : st.fs_msg.type = K.RESUME_PROC
  · have e1 : ¬ K.RESUME_PROC = K.OPEN := fun h => by simp_all
    have e2 : ¬ K.RESUME_PROC = K.CLOSE := fun h => by simp_all
    have e3 : ¬ K.RESUME_PROC = K.READ := fun h => by simp_all
    have e4 : ¬ K.RESUME_PROC = K.WRITE := fun h => by simp_all
    have e5 : ¬ K.RESUME_PROC = K.UNLINK := fun h => by simp_all
    rw [hr] at hd
    simp only [e1, e2, e3, e4, e5, if_false, or_self, if_true, Except.ok.injEq,
      Prod.mk.injEq] at hd
    rw [if_pos hr]
    exact hd.1.symm
  · rw [if_neg hr]
    simp only [hr, if_false] at hd
    split at hd
    · exact call_into_src _ _ _ _ _ _ hd
    · split at hd
      · exact call_into_src _ _ _ _ _ _ hd
      · split at hd
        · exact call_into_src _ _ _ _ _ _ hd
        · split at hd
          · exact call_into_src _ _ _ _ _ _ hd
          · split at hd
            · exact call_into_src _ _ _ _ _ _ hd
            · split at hd
              · exact call_into_src _ _ _ _ _ _ hd
              · cases hd

/-- C5: in an iteration of the dispatcher that does not end fatally, with `src`
and `st1` the reply target and the state after the `switch`: `src` is the
sender of the request, or the carried process identifier when the request is
`RESUME_PROC`; when the tag of `fs_msg` is then `SUSPEND_PROC` the iteration
sends nothing; otherwise it sends exactly one message, with tag `SYSCALL_RET`,
to `src`. -/
theorem task_fs_reply_rule (K : Config) (H : Handlers) (st : State) (msg : MESSAGE) (src : Int)
    (st1 : State) (hnd : msgtype_distinct K)
    (hd : task_fs_dispatch K H { st with fs_msg := msg } = .ok (src, st1)) :
    (src = if msg.type = K.RESUME_PROC then msg.u K.PROC_NR else msg.source)
    ∧ (st1.fs_msg.type = K.SUSPEND_PROC → task_fs_iteration K H st msg = .ok (st1, []))
    ∧ (st1.fs_msg.type ≠ K.SUSPEND_PROC →
        ∃ st2 reply, task_fs_iteration K H st msg = .ok (st2, [(src, reply)])
          ∧ reply = { st1.fs_msg with type := K.SYSCALL_RET }
          ∧ reply.type = K.SYSCALL_RET) := by
  refine ⟨task_fs_dispatch_src K H _ src st1 hnd hd, ?_, ?_⟩
  · intro hs
    unfold task_fs_iteration
    rw [hd]
    simp [hs]
  · intro hs
    unfold task_fs_iteration
    rw [hd]
    simp only [hs, ne_eq, not_false_eq_true, if_true]
    exact ⟨_, _, rfl, rfl, rfl⟩

theorem task_fs_reply_rule_witness :
    ∃ st1, task_fs_dispatch sample_config sample_handlers
        { sample_state with fs_msg := sample_msg 5 6 0 } = .ok (5, st1)
      ∧ task_fs_iteration sample_config sample_handlers sample_state (sample_msg 5 6 0)
        = .ok (st1, []) :=
  ⟨_, rfl,
    (task_fs_reply_rule sample_config sample_handlers sample_state (sample_msg 5 6 0) 5 _
      (by decide) rfl).2.1 rfl⟩

/-- C4: an iteration of the dispatcher on a `RESUME_PROC` message that sender
`s` sent and that carries process identifier `p` sends exactly one message; it
has tag `SYSCALL_RET` and goes to `p`, so nothing is sent to `s` when `s` is
another process than `p`. -/
theorem resume_proc_reply_target (K : Config) (H : Handlers) (st : State) (msg : MESSAGE)
    (hnd : msgtype_distinct K) (hr : msg.type = K.RESUME_PROC) :
    ∃ st2 reply sends, task_fs_iteration K H st msg = .ok (st2, sends)
      ∧ sends = [(msg.u K.PROC_NR, reply)]
      ∧ reply.type = K.SYSCALL_RET
      ∧ (msg.source ≠ msg.u K.PROC_NR → ∀ x, x ∈ sends → x.1 ≠ msg.source) := by
  have hnd2 := hnd
  simp only [msgtype_distinct, List.nodup_cons, List.mem_cons, List.mem_singleton, not_or,
    List.not_mem_nil, not_false_eq_true, List.nodup_nil, and_true] at hnd2
  have e1 : ¬ K.RESUME_PROC = K.OPEN := fun h => by simp_all
  have e2 : ¬ K.RESUME_PROC = K.CLOSE := fun h => by simp_all
  have e3 : ¬ K.RESUME_PROC = K.READ := fun h => by simp_all
  have e4 : ¬ K.RESUME_PROC = K.WRITE := fun h => by simp_all
  have e5 : ¬ K.RESUME_PROC = K.UNLINK := fun h => by simp_all
  have e6 : ¬ K.RESUME_PROC = K.SUSPEND_PROC := fun h => by simp_all
  have hd : task_fs_dispatch K H { st with fs_msg := msg }
      = .ok (msg.u K.PROC_NR, { st with fs_msg := msg, pcaller := msg.source }) := by
    unfold task_fs_dispatch
    simp only [hr, e1, e2, e3, e4, e5, if_false, or_self, if_true]
  unfold task_fs_iteration
  rw [hd]
  simp only [hr, e6, ne_eq, not_false_eq_true, if_true]
  refine ⟨_, _, _, rfl, rfl, rfl, ?_⟩
  intro hne x hx
  simp only [List.mem_singleton] at hx
  rw [hx]
  exact fun h => hne h.symm

theorem resume_proc_reply_target_witness :
    ∃ st2 reply sends,
      task_fs_iteration sample_config sample_handlers sample_state (sample_msg 1 12 5)
        = .ok (st2, sends)
      ∧ sends = [((sample_msg 1 12 5).u sample_config.PROC_NR, reply)]
      ∧ reply.type = sample_config.SYSCALL_RET
      ∧ ((sample_msg 1 12 5).source ≠ (sample_msg 1 12 5).u sample_config.PROC_NR →
          ∀ x, x ∈ sends → x.1 ≠ (sample_msg 1 12 5).source) :=
  resume_proc_reply_target sample_config sample_handlers sample_state (sample_msg 1 12 5)
    (by decide) rfl

/-! ## C9: layout arithmetic -/

theorem nr_inodes_val (K : Config) (geo : part_info) :
    (mkfs_super_block K geo).nr_inodes = 4096 := by
  simp [mkfs_super_block, u32, SECTOR_SIZE]

theorem nr_inode_sects_val (K : Config) (geo : part_info) :
    (mkfs_super_block K geo).nr_inode_sects = 256 := by
  simp [mkfs_super_block, u32, SECTOR_SIZE, INODE_SIZE]

/-- C9: with 512-byte sectors and 32-byte inode records, for every sector count
`V` that fits the 32-bit field of the geometry, `mkfs` computes
`nr_inodes = 4096`, `nr_smap_sects = V / 4096 + 1` (5 for `V = 20000`),
`nr_inode_sects = 256`, which is `4096 * 32 / 512` rounded up,
`nr_imap_sects = 1` and `n_1st_sect = 2 + 1 + nr_smap_sects + nr_inode_sects`. -/
theorem mkfs_layout_arithmetic (K : Config) (geo : part_info) (hV : geo.size < 4294967296) :
    SECTOR_SIZE = 512 ∧ INODE_SIZE = 32
    ∧ (mkfs_super_block K geo).nr_inodes = 4096
    ∧ (mkfs_super_block K geo).nr_smap_sects = geo.size / 4096 + 1
    ∧ (geo.size = 20000 → (mkfs_super_block K geo).nr_smap_sects = 5)
    ∧ (mkfs_super_block K geo).nr_inode_sects = 256
    ∧ (mkfs_super_block K geo).nr_inode_sects
        = ((mkfs_super_block K geo).nr_inodes * INODE_SIZE + (SECTOR_SIZE - 1)) / SECTOR_SIZE
    ∧ (mkfs_super_block K geo).nr_imap_sects = 1
    ∧ (mkfs_super_block K geo).n_1st_sect
        = 2 + 1 + (mkfs_super_block K geo).nr_smap_sects + (mkfs_super_block K geo).nr_inode_sects := by
  have h1 : geo.size % 4294967296 = geo.size := Nat.mod_eq_of_lt hV
  have h2 : (geo.size / 4096 + 1) % 4294967296 = geo.size / 4096 + 1 :=
    Nat.mod_eq_of_lt (by omega)
  have h3 : (1 + 1 + 1 + (geo.size / 4096 + 1) + 256) % 4294967296
      = 2 + 1 + (geo.size / 4096 + 1) + 256 := by omega
  refine ⟨rfl, rfl, nr_inodes_val K geo, ?_, ?_, nr_inode_sects_val K geo, ?_, rfl, ?_⟩
  · simp only [mkfs_super_block, u32, SECTOR_SIZE, h1]
    exact h2
  · intro hv
    simp only [mkfs_super_block, u32, SECTOR_SIZE, hv]
  · rw [nr_inode_sects_val, nr_inodes_val]
    norm_num [INODE_SIZE, SECTOR_SIZE]
  · simp only [mkfs_super_block, u32, SECTOR_SIZE, INODE_SIZE, h1]
    norm_num
    omega

theorem mkfs_layout_arithmetic_witness :
    (mkfs_super_block sample_config { base := 0, size := 20000 }).nr_inodes = 4096
    ∧ (mkfs_super_block sample_config { base := 0, size := 20000 }).nr_smap_sects = 5
    ∧ (mkfs_super_block sample_config { base := 0, size := 20000 }).nr_inode_sects = 256
    ∧ (mkfs_super_block sample_config { base := 0, size := 20000 }).nr_imap_sects = 1
    ∧ (mkfs_super_block sample_config { base := 0, size := 20000 }).n_1st_sect = 264 :=
  have h := mkfs_layout_arithmetic sample_config { base := 0, size := 20000 } (by decide)
  ⟨h.2.2.1, h.2.2.2.2.1 rfl, h.2.2.2.2.2.1, h.2.2.2.2.2.2.2.1, by rw [h.2.2.2.2.2.2.2.2]; rfl⟩

/-! ## C10: the inode bitmap that `mkfs` writes -/

theorem WR_SECT_eq (K : Config) (st : State) (dev n : Int)
    (hdrv : K.dd_map (MAJOR dev) ≠ INVALID_DRIVER) :
    WR_SECT K st dev n = .ok (wr_state K st dev n) := by
  simp [WR_SECT, rw_sector, hdrv, wr_state]

theorem sect_pos_nat (k : Nat) (hk : k < 4294967296) : sect_pos (k : Int) = k * 512 := by
  unfold sect_pos
  simp only [SECTOR_SIZE]
  omega

theorem wr_state_disk_below (K : Config) (st : State) (dev n : Int) (d m : Int) (p : Nat)
    (h : p < sect_pos n) : (wr_state K st dev n).disk d m p = st.disk d m p := by
  simp only [wr_state]
  rw [if_neg]
  omega

theorem wr_state_disk_inside (K : Config) (st : State) (dev n : Int) (a : Nat)
    (h : a < SECTOR_SIZE) :
    (wr_state K st dev n).disk (K.dd_map (MAJOR dev)) (MINOR dev) (sect_pos n + a)
      = st.fsbuf (a : Int) := by
  simp only [wr_state, true_and]
  rw [if_pos ⟨by omega, by omega⟩]
  congr 1
  omega

theorem WR_SECT_each_eq (K : Config) (dev : Int)
    (hdrv : K.dd_map (MAJOR dev) ≠ INVALID_DRIVER) (ns : List Int) :
    ∀ st : State, WR_SECT_each K dev ns st = .ok (wr_each_state K dev ns st) := by
  induction ns with
  | nil => intro st; rfl
  | cons n ns ih =>
    intro st
    simp only [WR_SECT_each, WR_SECT_eq K st dev n hdrv, wr_each_state]
    exact ih _

theorem wr_each_state_disk_below (K : Config) (dev : Int) (bound : Nat) (ns : List Int) :
    ∀ st : State, (∀ n, n ∈ ns → bound ≤ sect_pos n) →
      ∀ d m p, p < bound → (wr_each_state K dev ns st).disk d m p = st.disk d m p := by
  induction ns with
  | nil => intro st _ _ _ _ _; rfl
  | cons n ns ih =>
    intro st hns d m p hp
    simp only [wr_each_state]
    rw [ih (wr_state K st dev n) (fun x hx => hns x (List.mem_cons_of_mem _ hx)) d m p hp]
    exact wr_state_disk_below K st dev n d m p
      (lt_of_lt_of_le hp (hns n (List.mem_cons_self _ _)))

theorem set_low_bits_other (m : Int → Nat) (pos : Int) (n : Nat) (a : Int) (h : a ≠ pos) :
    set_low_bits m pos n a = m a := by
  induction n with
  | zero => rfl
  | succ n ih =>
    unfold set_low_bits at ih ⊢
    rw [List.range_succ, List.foldl_append]
    simp only [List.foldl_cons, List.foldl_nil]
    rw [Function.update_noteq h]
    exact ih

theorem set_low_bits_five (m : Int → Nat) (h : m 0 = 0) : set_low_bits m 0 5 0 = 0x1F := by
  have hr : List.range 5 = [0, 1, 2, 3, 4] := by decide
  unfold set_low_bits
  rw [hr]
  simp only [List.foldl_cons, List.foldl_nil, Function.update_same, h]
  decide

theorem smap_bound (K : Config) (geo : part_info) :
    1 ≤ (mkfs_super_block K geo).nr_smap_sects
      ∧ (mkfs_super_block K geo).nr_smap_sects ≤ 1048576 := by
  simp only [mkfs_super_block, u32, SECTOR_SIZE]
  omega

theorem n_1st_sect_val (K : Config) (geo : part_info) :
    (mkfs_super_block K geo).n_1st_sect = 259 + (mkfs_super_block K geo).nr_smap_sects := by
  have hb := smap_bound K geo
  have hi := nr_inode_sects_val K geo
  have h : (mkfs_super_block K geo).n_1st_sect
      = u32 (1 + 1 + 1 + (mkfs_super_block K geo).nr_smap_sects
          + (mkfs_super_block K geo).nr_inode_sects) := rfl
  rw [h, hi]
  unfold u32
  omega

theorem mkfs_sector_map_frame (K : Config) (geo : part_info) (st : State)
    (hdrv : K.dd_map (MAJOR ROOT_DEV) ≠ INVALID_DRIVER) :
    ∃ st1, mkfs_sector_map K (mkfs_super_block K geo) st = .ok st1
      ∧ ∀ d m p, p < 1536 → st1.disk d m p = st.disk d m p := by
  obtain ⟨hb1, hb2⟩ := smap_bound K geo
  have himap : (mkfs_super_block K geo).nr_imap_sects = 1 := rfl
  unfold mkfs_sector_map
  simp only [WR_SECT_eq K _ ROOT_DEV _ hdrv, WR_SECT_each_eq K ROOT_DEV hdrv]
  refine ⟨_, rfl, ?_⟩
  intro d m p hp
  rw [wr_each_state_disk_below K ROOT_DEV 1536 _ _ ?_ d m p hp]
  · rw [wr_state_disk_below]
    rw [himap]
    have hu : u32 (2 + 1) = 3 := by decide
    rw [hu, sect_pos_nat 3 (by decide)]
    omega
  · intro n hn
    simp only [List.mem_map, List.mem_range'_1] at hn
    obtain ⟨i, ⟨hi1, hi2⟩, rfl⟩ := hn
    rw [himap]
    have hu : u32 (2 + 1 + i) = 3 + i := by unfold u32; omega
    rw [hu, sect_pos_nat (3 + i) (by omega)]
    omega

theorem mkfs_inodes_frame (K : Config) (geo : part_info) (st : State)
    (hdrv : K.dd_map (MAJOR ROOT_DEV) ≠ INVALID_DRIVER) :
    ∃ st1, mkfs_inodes K (mkfs_super_block K geo) st = .ok st1
      ∧ ∀ d m p, p < 1536 → st1.disk d m p = st.disk d m p := by
  obtain ⟨hb1, hb2⟩ := smap_bound K geo
  have himap : (mkfs_super_block K geo).nr_imap_sects = 1 := rfl
  unfold mkfs_inodes
  simp only [WR_SECT_eq K _ ROOT_DEV _ hdrv]
  refine ⟨_, rfl, ?_⟩
  intro d m p hp
  rw [wr_state_disk_below]
  rw [himap]
  have hu : u32 (2 + 1 + (mkfs_super_block K geo).nr_smap_sects)
      = 3 + (mkfs_super_block K geo).nr_smap_sects := by unfold u32; omega
  rw [hu, sect_pos_nat _ (by omega)]
  omega

theorem mkfs_root_dir_frame (K : Config) (geo : part_info) (st : State)
    (hdrv : K.dd_map (MAJOR ROOT_DEV) ≠ INVALID_DRIVER) :
    ∃ st1, mkfs_root_dir K (mkfs_super_block K geo) st = .ok st1
      ∧ ∀ d m p, p < 1536 → st1.disk d m p = st.disk d m p := by
  obtain ⟨hb1, hb2⟩ := smap_bound K geo
  unfold mkfs_root_dir
  simp only [WR_SECT_eq K _ ROOT_DEV _ hdrv]
  refine ⟨_, rfl, ?_⟩
  intro d m p hp
  rw [wr_state_disk_below]
  rw [n_1st_sect_val, sect_pos_nat _ (by omega)]
  omega

theorem mkfs_write_super_block_ok (K : Config) (sb : super_block) (st : State)
    (hdrv : K.dd_map (MAJOR ROOT_DEV) ≠ INVALID_DRIVER) :
    ∃ st1, mkfs_write_super_block K sb st = .ok st1 := by
  unfold mkfs_write_super_block
  simp only [WR_SECT_eq K _ ROOT_DEV _ hdrv]
  exact ⟨_, rfl⟩

theorem mkfs_inode_map_ok (K : Config) (st : State) (hcons : K.NR_CONSOLES = 3)
    (hdrv : K.dd_map (MAJOR ROOT_DEV) ≠ INVALID_DRIVER) :
    ∃ st1, mkfs_inode_map K st = .ok st1
      ∧ ∀ a : Nat, a < SECTOR_SIZE →
          st1.disk (K.dd_map (MAJOR ROOT_DEV)) (MINOR ROOT_DEV) (sect_pos 2 + a)
            = if a = 0 then 0x1F else 0 := by
  have hbyte0 : set_low_bits (memset st.fsbuf 0 SECTOR_SIZE) 0 (K.NR_CONSOLES + 2) 0 = 0x1F := by
    rw [hcons]
    exact set_low_bits_five _ (by simp [memset, SECTOR_SIZE])
  unfold mkfs_inode_map
  simp only [hbyte0, ne_eq, not_true_eq_false, if_false, WR_SECT_eq K _ ROOT_DEV _ hdrv]
  refine ⟨_, rfl, ?_⟩
  intro a ha
  rw [wr_state_disk_inside K _ ROOT_DEV 2 a ha]
  by_cases h0 : a = 0
  · subst h0
    rw [if_pos rfl]
    exact hbyte0
  · rw [if_neg h0]
    show set_low_bits (memset st.fsbuf 0 SECTOR_SIZE) 0 (K.NR_CONSOLES + 2) (a : Int) = 0
    rw [set_low_bits_other _ _ _ _ (by omega)]
    simp only [memset]
    rw [if_pos ⟨by omega, by exact_mod_cast ha⟩]

/-- C10: with three consoles and the driver of the root device mapped, `mkfs`
completes (its assertion on `fsbuf[0]` holds) and leaves in sector 2 of the
root device a first byte `0x1F`, whose set bits are exactly bits 0 to 4, and
zero in every other byte of the sector. -/
theorem mkfs_inode_bitmap (K : Config) (geo : part_info) (st : State)
    (hcons : K.NR_CONSOLES = 3)
    (hdrv : K.dd_map (MAJOR ROOT_DEV) ≠ INVALID_DRIVER) :
    ∃ st1, mkfs K geo st = .ok st1
      ∧ st1.disk (K.dd_map (MAJOR ROOT_DEV)) (MINOR ROOT_DEV) (sect_pos 2) = 0x1F
      ∧ (∀ b, (st1.disk (K.dd_map (MAJOR ROOT_DEV)) (MINOR ROOT_DEV) (sect_pos 2)).testBit b
            = decide (b < 5))
      ∧ ∀ a, 0 < a → a < SECTOR_SIZE →
          st1.disk (K.dd_map (MAJOR ROOT_DEV)) (MINOR ROOT_DEV) (sect_pos 2 + a) = 0 := by
  have hp2 : sect_pos 2 = 1024 := sect_pos_nat 2 (by decide)
  obtain ⟨st1, h1⟩ := mkfs_write_super_block_ok K (mkfs_super_block K geo) st hdrv
  obtain ⟨st2, h2, hb2⟩ := mkfs_inode_map_ok K st1 hcons hdrv
  obtain ⟨st3, h3, hf3⟩ := mkfs_sector_map_frame K geo st2 hdrv
  obtain ⟨st4, h4, hf4⟩ := mkfs_inodes_frame K geo st3 hdrv
  obtain ⟨st5, h5, hf5⟩ := mkfs_root_dir_frame K geo st4 hdrv
  have hrun : mkfs K geo st = .ok st5 := by
    unfold mkfs
    rw [if_neg hdrv]
    simp only [bind, Except.bind, h1, h2, h3, h4, h5]
  have hkey : ∀ a : Nat, a < SECTOR_SIZE →
      st5.disk (K.dd_map (MAJOR ROOT_DEV)) (MINOR ROOT_DEV) (sect_pos 2 + a)
        = if a = 0 then 0x1F else 0 := by
    intro a ha
    have hlt : sect_pos 2 + a < 1536 := by rw [hp2]; unfold SECTOR_SIZE at ha; omega
    rw [hf5 _ _ _ hlt, hf4 _ _ _ hlt, hf3 _ _ _ hlt]
    exact hb2 a ha
  have h0 : st5.disk (K.dd_map (MAJOR ROOT_DEV)) (MINOR ROOT_DEV) (sect_pos 2) = 0x1F := by
    have := hkey 0 (by decide)
    rw [Nat.add_zero] at this
    rw [this]
    rfl
  refine ⟨st5, hrun, h0, ?_, ?_⟩
  · intro b
    rw [h0]
    by_cases hb : b < 5
    · interval_cases b <;> decide
    · rw [Nat.testBit_lt_two_pow]
      · simp [hb]
      · calc 31 < 2 ^ 5 := by decide
          _ ≤ 2 ^ b := Nat.pow_le_pow_right (by decide) (by omega)
  · intro a ha0 ha
    rw [hkey a ha, if_neg (by omega)]

theorem mkfs_inode_bitmap_witness :
    ∃ st1, mkfs sample_config { base := 0, size := 20000 } sample_state = .ok st1
      ∧ st1.disk (sample_config.dd_map (MAJOR ROOT_DEV)) (MINOR ROOT_DEV) (sect_pos 2) = 0x1F
      ∧ (∀ b, (st1.disk (sample_config.dd_map (MAJOR ROOT_DEV)) (MINOR ROOT_DEV)
            (sect_pos 2)).testBit b = decide (b < 5))
      ∧ ∀ a, 0 < a → a < SECTOR_SIZE →
          st1.disk (sample_config.dd_map (MAJOR ROOT_DEV)) (MINOR ROOT_DEV) (sect_pos 2 + a) = 0 :=
  mkfs_inode_bitmap sample_config { base := 0, size := 20000 } sample_state rfl (by decide)

/-! ## C3: fork/exit symmetry -/

theorem wrap32_add_succ (x : Int) (c : Nat) :
    wrap32 (wrap32 (x + 1) + c) = wrap32 (x + ((c + 1 : Nat) : Int)) := by
  unfold wrap32
  omega

theorem wrap32_sub_succ (x : Int) (c : Nat) :
    wrap32 (wrap32 (x - 1) - c) = wrap32 (x - ((c + 1 : Nat) : Int)) := by
  unfold wrap32
  omega

theorem wrap32_id (x : Int) (h : in_int32 x) : wrap32 x = x := by
  unfold in_int32 at h
  unfold wrap32
  omega

theorem wrap32_in_int32 (x : Int) : in_int32 (wrap32 x) := by
  unfold in_int32 wrap32
  omega

theorem fs_fork_slot_none (st : State) (pid : Int) (i : Nat)
    (h : (st.proc_table pid).filp i = none) : fs_fork_slot st pid i = .ok st := by
  unfold fs_fork_slot
  rw [h]

theorem fs_fork_slot_some (st : State) (pid : Int) (i d n : Nat)
    (h : (st.proc_table pid).filp i = some d) (hn : (st.f_desc_table d).fd_inode = some n) :
    fs_fork_slot st pid i = .ok (fork_slot_state st d n) := by
  unfold fs_fork_slot fork_slot_state
  rw [h]
  simp only [Function.update_same, hn]

theorem fs_fork_loop_spec (pid : Int) (l : List Nat) :
    ∀ st : State,
      (∀ i, i ∈ l → ∀ d, (st.proc_table pid).filp i = some d →
        (st.f_desc_table d).fd_inode ≠ none) →
      (∀ d, in_int32 (st.f_desc_table d).fd_cnt) →
      (∀ n, in_int32 (st.inode_table n).i_cnt) →
      ∃ st1, fs_fork_loop pid l st = .ok st1
        ∧ st1.proc_table = st.proc_table ∧ st1.fs_msg = st.fs_msg
        ∧ (∀ d, (st1.f_desc_table d).fd_inode = (st.f_desc_table d).fd_inode)
        ∧ (∀ d, (st1.f_desc_table d).fd_cnt
            = wrap32 ((st.f_desc_table d).fd_cnt + slots_at_desc (st.proc_table pid).filp l d))
        ∧ (∀ n, (st1.inode_table n).i_cnt
            = wrap32 ((st.inode_table n).i_cnt
                + slots_at_inode (st.proc_table pid).filp
                    (fun d => (st.f_desc_table d).fd_inode) l n)) := by
  induction l with
  | nil =>
    intro st _ hfd hino
    refine ⟨st, rfl, rfl, rfl, fun _ => rfl, ?_, ?_⟩
    · intro d
      simp [slots_at_desc, wrap32_id _ (hfd d)]
    · intro n
      simp [slots_at_inode, wrap32_id _ (hino n)]
  | cons i l ih =>
    intro st hptr hfd hino
    cases hf : (st.proc_table pid).filp i with
    | none =>
      obtain ⟨st1, h1, h2, h3, h4, h5, h6⟩ := ih st
        (fun j hj => hptr j (List.mem_cons_of_mem _ hj)) hfd hino
      refine ⟨st1, ?_, h2, h3, h4, ?_, ?_⟩
      · simp only [fs_fork_loop, fs_fork_slot_none st pid i hf]
        exact h1
      · intro d
        rw [h5 d]
        simp [slots_at_desc, List.countP_cons, hf]
      · intro n
        rw [h6 n]
        simp [slots_at_inode, List.countP_cons, hf]
    | some d0 =>
      cases hn : (st.f_desc_table d0).fd_inode with
      | none => exact absurd hn (hptr i (List.mem_cons_self _ _) d0 hf)
      | some n0 =>
        have hfdi : ∀ d, ((fork_slot_state st d0 n0).f_desc_table d).fd_inode
            = (st.f_desc_table d).fd_inode := by
          intro d
          simp only [fork_slot_state, Function.update_apply]
          split
          · next h => rw [h]
          · rfl
        have hfun : (fun d => ((fork_slot_state st d0 n0).f_desc_table d).fd_inode)
            = (fun d => (st.f_desc_table d).fd_inode) := funext hfdi
        obtain ⟨st1, h1, h2, h3, h4, h5, h6⟩ := ih (fork_slot_state st d0 n0)
          (by
            intro j hj d hd
            rw [hfdi d]
            exact hptr j (List.mem_cons_of_mem _ hj) d hd)
          (by
            intro d
            simp only [fork_slot_state, Function.update_apply]
            split
            · exact wrap32_in_int32 _
            · exact hfd d)
          (by
            intro n
            simp only [fork_slot_state, Function.update_apply]
            split
            · exact wrap32_in_int32 _
            · exact hino n)
        refine ⟨st1, ?_, h2, h3, fun d => (h4 d).trans (hfdi d), ?_, ?_⟩
        · simp only [fs_fork_loop, fs_fork_slot_some st pid i d0 n0 hf hn]
          exact h1
        · intro d
          rw [h5 d]
          have hp : (fork_slot_state st d0 n0).proc_table = st.proc_table := rfl
          rw [hp]
          simp only [slots_at_desc, List.countP_cons, hf]
          by_cases hd : d = d0
          · subst hd
            simp only [fork_slot_state, Function.update_same, decide_True, if_true]
            exact wrap32_add_succ _ _
          · have hd2 : ¬ (some d0 = some d) := fun h => hd (Option.some.inj h).symm
            simp only [fork_slot_state, Function.update_noteq hd, hd2, decide_False,
              Bool.false_eq_true, if_false, Nat.add_zero]
        · intro n
          rw [h6 n, hfun]
          have hp : (fork_slot_state st d0 n0).proc_table = st.proc_table := rfl
          rw [hp]
          simp only [slots_at_inode, List.countP_cons, hf, Option.some_bind, hn]
          by_cases hd : n = n0
          · subst hd
            simp only [fork_slot_state, Function.update_same, decide_True, if_true]
            exact wrap32_add_succ _ _
          · have hd2 : ¬ (some n0 = some n) := fun h => hd (Option.some.inj h).symm
            simp only [fork_slot_state, Function.update_noteq hd, hd2, decide_False,
              Bool.false_eq_true, if_false, Nat.add_zero]

theorem fs_exit_slot_none (st : State) (pid : Int) (i : Nat)
    (h : (st.proc_table pid).filp i = none) : fs_exit_slot st pid i = .ok st := by
  unfold fs_exit_slot
  rw [h]

theorem fs_exit_slot_some (st : State) (pid : Int) (i d n : Nat)
    (h : (st.proc_table pid).filp i = some d) (hn : (st.f_desc_table d).fd_inode = some n) :
    fs_exit_slot st pid i = .ok (exit_slot_state st pid i d n) := by
  unfold fs_exit_slot exit_slot_state
  rw [h]
  simp only [hn]

theorem exit_slot_fd_cnt (st : State) (pid : Int) (i d0 n0 d : Nat) :
    ((exit_slot_state st pid i d0 n0).f_desc_table d).fd_cnt
      = if d = d0 then wrap32 ((st.f_desc_table d0).fd_cnt - 1) else (st.f_desc_table d).fd_cnt := by
  simp only [exit_slot_state, Function.update_apply]
  split
  · split <;> rfl
  · rfl

theorem exit_slot_fd_inode (st : State) (pid : Int) (i d0 n0 d : Nat) :
    ((exit_slot_state st pid i d0 n0).f_desc_table d).fd_inode
      = if d = d0 ∧ wrap32 ((st.f_desc_table d0).fd_cnt - 1) = 0 then none
        else (st.f_desc_table d).fd_inode := by
  simp only [exit_slot_state, Function.update_apply]
  by_cases hd : d = d0
  · subst hd
    by_cases hz : wrap32 ((st.f_desc_table d).fd_cnt - 1) = 0
    · simp [hz]
    · simp [hz]
  · simp [hd]

theorem exit_slot_i_cnt (st : State) (pid : Int) (i d0 n0 n : Nat) :
    ((exit_slot_state st pid i d0 n0).inode_table n).i_cnt
      = if n = n0 then wrap32 ((st.inode_table n0).i_cnt - 1) else (st.inode_table n).i_cnt := by
  simp only [exit_slot_state, Function.update_apply]
  split
  · rfl
  · rfl

theorem exit_slot_filp (st : State) (pid : Int) (i d0 n0 j : Nat) :
    ((exit_slot_state st pid i d0 n0).proc_table pid).filp j
      = if j = i then none else (st.proc_table pid).filp j := by
  simp only [exit_slot_state, Function.update_same, Function.update_apply]

theorem fs_exit_loop_spec (pid : Int) (l : List Nat) :
    ∀ st : State, l.Nodup →
      (∀ i, i ∈ l → ∀ d, (st.proc_table pid).filp i = some d →
        (st.f_desc_table d).fd_inode ≠ none) →
      (∀ d, ∀ k : Nat, 1 ≤ k → k < slots_at_desc (st.proc_table pid).filp l d →
        wrap32 ((st.f_desc_table d).fd_cnt - k) ≠ 0) →
      (∀ d, in_int32 (st.f_desc_table d).fd_cnt) →
      (∀ n, in_int32 (st.inode_table n).i_cnt) →
      ∃ st1, fs_exit_loop pid l st = .ok st1
        ∧ st1.fs_msg = st.fs_msg
        ∧ (∀ d, (st1.f_desc_table d).fd_cnt
            = wrap32 ((st.f_desc_table d).fd_cnt - slots_at_desc (st.proc_table pid).filp l d))
        ∧ (∀ n, (st1.inode_table n).i_cnt
            = wrap32 ((st.inode_table n).i_cnt
                - slots_at_inode (st.proc_table pid).filp
                    (fun d => (st.f_desc_table d).fd_inode) l n)) := by
  induction l with
  | nil =>
    intro st _ _ _ hfd hino
    refine ⟨st, rfl, rfl, ?_, ?_⟩
    · intro d
      simp [slots_at_desc, wrap32_id _ (hfd d)]
    · intro n
      simp [slots_at_inode, wrap32_id _ (hino n)]
  | cons i l ih =>
    intro st hnd hptr hnz hfd hino
    have hil : i ∉ l := (List.nodup_cons.mp hnd).1
    have hndl : l.Nodup := (List.nodup_cons.mp hnd).2
    cases hf : (st.proc_table pid).filp i with
    | none =>
      have hsd : ∀ d, slots_at_desc (st.proc_table pid).filp (i :: l) d
          = slots_at_desc (st.proc_table pid).filp l d := by
        intro d
        simp [slots_at_desc, List.countP_cons, hf]
      obtain ⟨st1, h1, h2, h5, h6⟩ := ih st hndl
        (fun j hj => hptr j (List.mem_cons_of_mem _ hj))
        (fun d k hk1 hk2 => hnz d k hk1 (by rw [hsd d]; exact hk2)) hfd hino
      refine ⟨st1, ?_, h2, ?_, ?_⟩
      · simp only [fs_exit_loop, fs_exit_slot_none st pid i hf]
        exact h1
      · intro d
        rw [h5 d, hsd d]
      · intro n
        rw [h6 n]
        simp [slots_at_inode, List.countP_cons, hf]
    | some d0 =>
      cases hn : (st.f_desc_table d0).fd_inode with
      | none => exact absurd hn (hptr i (List.mem_cons_self _ _) d0 hf)
      | some n0 =>
        -- the file table of the tail is unchanged
        have hfilp : ∀ j, j ∈ l → ((exit_slot_state st pid i d0 n0).proc_table pid).filp j
            = (st.proc_table pid).filp j := by
          intro j hj
          have hji : j ≠ i := fun h => hil (by rw [← h]; exact hj)
          rw [exit_slot_filp, if_neg hji]
        have hsd : ∀ d, slots_at_desc ((exit_slot_state st pid i d0 n0).proc_table pid).filp l d
            = slots_at_desc (st.proc_table pid).filp l d := by
          intro d
          unfold slots_at_desc
          apply List.countP_congr
          intro j hj
          rw [hfilp j hj]
        have hhead : ∀ d, slots_at_desc (st.proc_table pid).filp (i :: l) d
            = slots_at_desc (st.proc_table pid).filp l d + if d = d0 then 1 else 0 := by
          intro d
          simp only [slots_at_desc, List.countP_cons, hf]
          by_cases hd : d = d0
          · subst hd; simp
          · have hd2 : ¬ (some d0 = some d) := fun h => hd (Option.some.inj h).symm
            simp [hd, hd2]
        -- a descriptor that a slot of the tail points at is not detached
        have hkeep : ∀ j, j ∈ l → ∀ d, (st.proc_table pid).filp j = some d →
            ((exit_slot_state st pid i d0 n0).f_desc_table d).fd_inode
              = (st.f_desc_table d).fd_inode := by
          intro j hj d hd
          rw [exit_slot_fd_inode]
          apply if_neg
          rintro ⟨hdd, hz⟩
          subst hdd
          have hpos : 0 < slots_at_desc (st.proc_table pid).filp l d := by
            unfold slots_at_desc
            rw [List.countP_pos_iff]
            exact ⟨j, hj, by simp [hd]⟩
          have := hnz d 1 (le_refl 1) (by rw [hhead d]; simp; omega)
          exact this (by simpa using hz)
        have hsi : ∀ n, slots_at_inode ((exit_slot_state st pid i d0 n0).proc_table pid).filp
            (fun d => ((exit_slot_state st pid i d0 n0).f_desc_table d).fd_inode) l n
            = slots_at_inode (st.proc_table pid).filp
                (fun d => (st.f_desc_table d).fd_inode) l n := by
          intro n
          unfold slots_at_inode
          apply List.countP_congr
          intro j hj
          rw [hfilp j hj]
          cases hfj : (st.proc_table pid).filp j with
          | none => simp
          | some d => simp only [Option.some_bind, hkeep j hj d hfj]
        obtain ⟨st1, h1, h2, h5, h6⟩ := ih (exit_slot_state st pid i d0 n0) hndl
          (by
            intro j hj d hd
            rw [hfilp j hj] at hd
            rw [hkeep j hj d hd]
            exact hptr j (List.mem_cons_of_mem _ hj) d hd)
          (by
            intro d k hk1 hk2
            rw [hsd d] at hk2
            rw [exit_slot_fd_cnt]
            by_cases hd : d = d0
            · subst hd
              rw [if_pos rfl, wrap32_sub_succ]
              exact hnz d (k + 1) (by omega) (by rw [hhead d]; simp; omega)
            · rw [if_neg hd]
              exact hnz d k hk1 (by rw [hhead d]; simp [hd]; omega))
          (by
            intro d
            rw [exit_slot_fd_cnt]
            split
            · exact wrap32_in_int32 _
            · exact hfd d)
          (by
            intro n
            rw [exit_slot_i_cnt]
            split
            · exact wrap32_in_int32 _
            · exact hino n)
        refine ⟨st1, ?_, h2, ?_, ?_⟩
        · simp only [fs_exit_loop, fs_exit_slot_some st pid i d0 n0 hf hn]
          exact h1
        · intro d
          rw [h5 d, hsd d, hhead d, exit_slot_fd_cnt]
          by_cases hd : d = d0
          · subst hd
            rw [if_pos rfl, if_pos rfl, wrap32_sub_succ]
          · rw [if_neg hd, if_neg hd, Nat.add_zero]
        · intro n
          rw [h6 n, hsi n, exit_slot_i_cnt]
          simp only [slots_at_inode, List.countP_cons, hf, Option.some_bind, hn]
          by_cases hd : n = n0
          · subst hd
            simp only [decide_True, if_true]
            exact wrap32_sub_succ _ _
          · have hd2 : ¬ (some n0 = some n) := fun h => hd (Option.some.inj h).symm
            simp only [hd, hd2, decide_False, Bool.false_eq_true, if_false, Nat.add_zero]

theorem two_slots_of_count (P : Nat → Bool) (l : List Nat) (hnd : l.Nodup)
    (h : 2 ≤ l.countP P) : ∃ i j, i ∈ l ∧ j ∈ l ∧ i ≠ j ∧ P i = true ∧ P j = true := by
  induction l with
  | nil => simp at h
  | cons a l ih =>
    have hal : a ∉ l := (List.nodup_cons.mp hnd).1
    have hndl : l.Nodup := (List.nodup_cons.mp hnd).2
    by_cases hPa : P a = true
    · have hpos : 0 < l.countP P := by
        rw [List.countP_cons, if_pos hPa] at h
        omega
      rw [List.countP_pos_iff] at hpos
      obtain ⟨j, hj, hPj⟩ := hpos
      exact ⟨a, j, List.mem_cons_self _ _, List.mem_cons_of_mem _ hj,
        fun hij => hal (by rw [hij]; exact hj), hPa, hPj⟩
    · have h2 : 2 ≤ l.countP P := by
        rw [List.countP_cons, if_neg hPa] at h
        omega
      obtain ⟨i, j, hi, hj, hij, hPi, hPj⟩ := ih hndl h2
      exact ⟨i, j, List.mem_cons_of_mem _ hi, List.mem_cons_of_mem _ hj, hij, hPi, hPj⟩

/-- C3: let every non-null slot of the child's file table point at a
descriptor that points at an inode; let a descriptor that two slots of the
table share have a non-negative reference count, and let all counts be values
of a C `int`.  Then `fs_fork` on the child followed at once by `fs_exit` on
the same child both return 0 and leave the `fd_cnt` of every descriptor and
the `i_cnt` of every inode as they were before the fork. -/
theorem fork_exit_symmetry (K : Config) (st : State)
    (hfiles : K.NR_FILES < 2147483648)
    (hptr : ∀ i, i < K.NR_FILES → ∀ d, (st.proc_table (st.fs_msg.u K.PID)).filp i = some d →
      (st.f_desc_table d).fd_inode ≠ none)
    (hshare : ∀ i j, i < K.NR_FILES → j < K.NR_FILES → i ≠ j →
      ∀ d, (st.proc_table (st.fs_msg.u K.PID)).filp i = some d →
        (st.proc_table (st.fs_msg.u K.PID)).filp j = some d → 0 ≤ (st.f_desc_table d).fd_cnt)
    (hfd : ∀ d, in_int32 (st.f_desc_table d).fd_cnt)
    (hino : ∀ n, in_int32 (st.inode_table n).i_cnt) :
    ∃ st1 st2, fs_fork K st = .ok (0, st1) ∧ fs_exit K st1 = .ok (0, st2)
      ∧ (∀ d, (st2.f_desc_table d).fd_cnt = (st.f_desc_table d).fd_cnt)
      ∧ (∀ n, (st2.inode_table n).i_cnt = (st.inode_table n).i_cnt) := by
  obtain ⟨st1, h1, hp1, hm1, hi1, hc1, hn1⟩ :=
    fs_fork_loop_spec (st.fs_msg.u K.PID) (List.range K.NR_FILES) st
      (fun i hi d hd => hptr i (List.mem_range.mp hi) d hd) hfd hino
  have hpid : st1.fs_msg.u K.PID = st.fs_msg.u K.PID := by rw [hm1]
  have hfun : (fun d => (st1.f_desc_table d).fd_inode) = (fun d => (st.f_desc_table d).fd_inode) :=
    funext hi1
  have hlen : ∀ d, slots_at_desc (st.proc_table (st.fs_msg.u K.PID)).filp (List.range K.NR_FILES) d
      ≤ K.NR_FILES := by
    intro d
    unfold slots_at_desc
    exact le_trans (List.countP_le_length _) (le_of_eq (List.length_range _))
  have hleni : ∀ n, slots_at_inode (st.proc_table (st.fs_msg.u K.PID)).filp
      (fun d => (st.f_desc_table d).fd_inode) (List.range K.NR_FILES) n ≤ K.NR_FILES := by
    intro n
    unfold slots_at_inode
    exact le_trans (List.countP_le_length _) (le_of_eq (List.length_range _))
  obtain ⟨st2, h2, _, hc2, hn2⟩ :=
    fs_exit_loop_spec (st.fs_msg.u K.PID) (List.range K.NR_FILES) st1 (List.nodup_range _)
      (by
        intro i hi d hd
        rw [hp1] at hd
        rw [hi1 d]
        exact hptr i (List.mem_range.mp hi) d hd)
      (by
        intro d k hk1 hk2
        rw [hp1] at hk2
        rw [hc1 d]
        have htwo : 2 ≤ slots_at_desc (st.proc_table (st.fs_msg.u K.PID)).filp
            (List.range K.NR_FILES) d := by omega
        obtain ⟨i, j, hi, hj, hij, hPi, hPj⟩ :=
          two_slots_of_count _ _ (List.nodup_range _) htwo
        have h0 := hshare i j (List.mem_range.mp hi) (List.mem_range.mp hj) hij d
          (by simpa using hPi) (by simpa using hPj)
        have hr := hfd d
        have hl := hlen d
        unfold in_int32 at hr
        unfold wrap32
        omega)
      (by intro d; rw [hc1 d]; exact wrap32_in_int32 _)
      (by intro n; rw [hn1 n]; exact wrap32_in_int32 _)
  refine ⟨st1, st2, ?_, ?_, ?_, ?_⟩
  · unfold fs_fork
    rw [h1]
  · unfold fs_exit
    rw [hpid, h2]
  · intro d
    rw [hc2 d, hp1, hc1 d]
    have hr := hfd d
    have hl := hlen d
    unfold in_int32 at hr
    unfold wrap32
    omega
  · intro n
    rw [hn2 n, hp1, hfun, hn1 n]
    have hr := hino n
    have hl := hleni n
    unfold in_int32 at hr
    unfold wrap32
    omega

theorem open_files_filp (i d : Nat)
    (h : (open_files_state.proc_table (open_files_state.fs_msg.u sample_config.PID)).filp i = some d) :
    d = 0 ∨ d = 1 := by
  have hd2 : (if i = 0 then some 0 else if i = 1 then some 0
      else if i = 2 then some 1 else none) = some d := h
  split_ifs at hd2 <;> simp_all

theorem fork_exit_symmetry_witness :
    ∃ st1 st2, fs_fork sample_config open_files_state = .ok (0, st1)
      ∧ fs_exit sample_config st1 = .ok (0, st2)
      ∧ (∀ d, (st2.f_desc_table d).fd_cnt = (open_files_state.f_desc_table d).fd_cnt)
      ∧ (∀ n, (st2.inode_table n).i_cnt = (open_files_state.inode_table n).i_cnt) :=
  fork_exit_symmetry sample_config open_files_state (by decide)
    (by
      intro i _ d hd
      rcases open_files_filp i d hd with h | h <;> subst h <;> simp [open_files_state])
    (by
      intro i j _ _ _ d hd _
      rcases open_files_filp i d hd with h | h <;> subst h <;> decide)
    (by
      intro d
      simp only [open_files_state, in_int32]
      split_ifs <;> decide)
    (by
      intro n
      simp only [open_files_state, in_int32]
      split_ifs <;> decide)

/-! ## C2: write-through round trip -/

theorem ld32_st32_same (m : Int → Nat) (o : Int) (v : Nat) :
    ld32 (st32 m o v) o = v % 4294967296 := by
  unfold ld32 st32
  have h1 : ¬ (o + 1 = o) := by omega
  have h2 : ¬ (o + 2 = o) := by omega
  have h3 : ¬ (o + 3 = o) := by omega
  have h4 : ¬ (o + 2 = o + 1) := by omega
  have h5 : ¬ (o + 3 = o + 1) := by omega
  have h6 : ¬ (o + 3 = o + 2) := by omega
  simp only [if_true, h1, h2, h3, h4, h5, h6, if_false]
  omega

theorem ld32_st32_other (m : Int → Nat) (o o1 : Int) (v : Nat) (h : o1 + 4 ≤ o ∨ o + 4 ≤ o1) :
    ld32 (st32 m o1 v) o = ld32 m o := by
  unfold ld32 st32
  have e0 : ∀ k : Int, 0 ≤ k → k < 4 → ∀ j : Int, 0 ≤ j → j < 4 → ¬ (o + k = o1 + j) := by
    intro k hk1 hk2 j hj1 hj2
    omega
  have a0 : ¬ (o = o1) := by have := e0 0 (by omega) (by omega) 0 (by omega) (by omega); simpa using this
  have a1 : ¬ (o = o1 + 1) := by have := e0 0 (by omega) (by omega) 1 (by omega) (by omega); simpa using this
  have a2 : ¬ (o = o1 + 2) := by have := e0 0 (by omega) (by omega) 2 (by omega) (by omega); simpa using this
  have a3 : ¬ (o = o1 + 3) := by have := e0 0 (by omega) (by omega) 3 (by omega) (by omega); simpa using this
  have b0 : ¬ (o + 1 = o1) := by have := e0 1 (by omega) (by omega) 0 (by omega) (by omega); simpa using this
  have b1 : ¬ (o + 1 = o1 + 1) := e0 1 (by omega) (by omega) 1 (by omega) (by omega)
  have b2 : ¬ (o + 1 = o1 + 2) := e0 1 (by omega) (by omega) 2 (by omega) (by omega)
  have b3 : ¬ (o + 1 = o1 + 3) := e0 1 (by omega) (by omega) 3 (by omega) (by omega)
  have c0 : ¬ (o + 2 = o1) := by have := e0 2 (by omega) (by omega) 0 (by omega) (by omega); simpa using this
  have c1 : ¬ (o + 2 = o1 + 1) := e0 2 (by omega) (by omega) 1 (by omega) (by omega)
  have c2 : ¬ (o + 2 = o1 + 2) := e0 2 (by omega) (by omega) 2 (by omega) (by omega)
  have c3 : ¬ (o + 2 = o1 + 3) := e0 2 (by omega) (by omega) 3 (by omega) (by omega)
  have d0 : ¬ (o + 3 = o1) := by have := e0 3 (by omega) (by omega) 0 (by omega) (by omega); simpa using this
  have d1 : ¬ (o + 3 = o1 + 1) := e0 3 (by omega) (by omega) 1 (by omega) (by omega)
  have d2 : ¬ (o + 3 = o1 + 2) := e0 3 (by omega) (by omega) 2 (by omega) (by omega)
  have d3 : ¬ (o + 3 = o1 + 3) := e0 3 (by omega) (by omega) 3 (by omega) (by omega)
  simp only [a0, a1, a2, a3, b0, b1, b2, b3, c0, c1, c2, c3, d0, d1, d2, d3, if_false]

theorem ld32_congr (m m1 : Int → Nat) (o : Int)
    (h : ∀ k : Int, 0 ≤ k → k < 4 → m (o + k) = m1 (o + k)) : ld32 m o = ld32 m1 o := by
  unfold ld32
  have h0 := h 0 (by omega) (by omega)
  rw [Int.add_zero] at h0
  rw [h0, h 1 (by omega) (by omega), h 2 (by omega) (by omega), h 3 (by omega) (by omega)]

theorem sync_inode_eq (K : Config) (st : State) (p i : Nat)
    (hsb : get_super_block K st (st.inode_table p).i_dev = .ok i)
    (hdrv : K.dd_map (MAJOR (st.inode_table p).i_dev) ≠ INVALID_DRIVER) :
    sync_inode K st p = .ok (sync_state K st p i) := by
  unfold sync_inode
  simp only [bind, Except.bind, hsb, RD_SECT, rw_sector, if_neg hdrv]
  exact WR_SECT_eq K _ _ _ hdrv

theorem put_inode_times_eq (p : Nat) (k : Nat) :
    ∀ st : State, (st.inode_table p).i_cnt = k →
      put_inode_times k st p = .ok (if k = 0 then st else released_state st p) := by
  induction k with
  | zero => intro st _; rfl
  | succ k ih =>
    intro st hc
    have hpos : 0 < (st.inode_table p).i_cnt := by rw [hc]; omega
    have hc1 : ((put_state st p).inode_table p).i_cnt = k := by
      rw [put_state_slot]
      show (st.inode_table p).i_cnt - 1 = k
      rw [hc]; push_cast; omega
    simp only [put_inode_times, put_inode_pos st p hpos, ih (put_state st p) hc1]
    rw [if_neg (Nat.succ_ne_zero k)]
    congr 1
    by_cases hk : k = 0
    · rw [if_pos hk]
      subst hk
      unfold put_state released_state
      simp only [Nat.cast_zero, Nat.cast_one, zero_add] at hc
      rw [hc]
      rfl
    · rw [if_neg hk]
      unfold put_state released_state
      simp only [Function.update_same, Function.update_idem]

theorem inode_offset_bound (num : Int) (h1 : 1 ≤ num) (h2 : num < 2147483648) :
    0 ≤ inode_offset num ∧ inode_offset num ≤ 480 := by
  have hw : wrap32 (num - 1) = num - 1 := wrap32_id _ (by unfold in_int32; omega)
  have h16 : ((SECTOR_SIZE / INODE_SIZE : Nat) : Int) = 16 := by decide
  have h32 : ((INODE_SIZE : Nat) : Int) = 32 := by decide
  unfold inode_offset
  rw [hw, h16, h32, Int.tmod_eq_emod (by omega) (by decide)]
  omega

/-- What a read of the record of slot `p` finds in any later state whose disk
is the one `sync_inode(p)` left and whose registry is unchanged. -/
theorem read_after_sync (K : Config) (st S : State) (p i : Nat)
    (h1 : 1 ≤ (st.inode_table p).i_num) (h2 : (st.inode_table p).i_num < 2147483648)
    (hdisk : S.disk = (sync_state K st p i).disk)
    (hsbS : S.super_block = st.super_block) :
    miss_inode K S (st.inode_table p).i_dev (st.inode_table p).i_num i
      = { i_mode := (st.inode_table p).i_mode % 4294967296
          i_size := (st.inode_table p).i_size % 4294967296
          i_start_sect := (st.inode_table p).i_start_sect % 4294967296
          i_nr_sects := (st.inode_table p).i_nr_sects % 4294967296
          i_dev := (st.inode_table p).i_dev
          i_cnt := 1
          i_num := (st.inode_table p).i_num } := by
  obtain ⟨ho1, ho2⟩ := inode_offset_bound _ h1 h2
  have hread : ∀ a : Int, 0 ≤ a → a < 512 →
      fsbuf_after_read K S (st.inode_table p).i_dev
          (inode_blk_nr (S.super_block i) (st.inode_table p).i_num) a
        = sync_buf K st p i a := by
    intro a ha1 ha2
    have hs : ((SECTOR_SIZE : Nat) : Int) = 512 := by decide
    unfold fsbuf_after_read
    rw [if_pos ⟨ha1, by rw [hs]; exact ha2⟩, hdisk, hsbS]
    unfold sync_state
    rw [wr_state_disk_inside K _ _ _ a.toNat (by unfold SECTOR_SIZE; omega)]
    show sync_buf K st p i ((a.toNat : Nat) : Int) = sync_buf K st p i a
    rw [Int.toNat_of_nonneg ha1]
  have hld : ∀ o : Int, 0 ≤ o → o ≤ 508 →
      ld32 (fsbuf_after_read K S (st.inode_table p).i_dev
          (inode_blk_nr (S.super_block i) (st.inode_table p).i_num)) o
        = ld32 (sync_buf K st p i) o := by
    intro o ho1 ho2
    apply ld32_congr
    intro k hk1 hk2
    exact hread (o + k) (by omega) (by omega)
  unfold miss_inode
  rw [hld _ ho1 (by omega), hld _ (by omega) (by omega), hld _ (by omega) (by omega),
    hld _ (by omega) (by omega)]
  have e1 : ld32 (sync_buf K st p i) (inode_offset (st.inode_table p).i_num)
      = (st.inode_table p).i_mode % 4294967296 := by
    unfold sync_buf
    simp only []
    rw [ld32_st32_other _ _ _ _ (by omega), ld32_st32_other _ _ _ _ (by omega),
      ld32_st32_other _ _ _ _ (by omega), ld32_st32_same]
  have e2 : ld32 (sync_buf K st p i) (inode_offset (st.inode_table p).i_num + 4)
      = (st.inode_table p).i_size % 4294967296 := by
    unfold sync_buf
    simp only []
    rw [ld32_st32_other _ _ _ _ (by omega), ld32_st32_other _ _ _ _ (by omega),
      ld32_st32_same]
  have e3 : ld32 (sync_buf K st p i) (inode_offset (st.inode_table p).i_num + 8)
      = (st.inode_table p).i_start_sect % 4294967296 := by
    unfold sync_buf
    simp only []
    rw [ld32_st32_other _ _ _ _ (by omega), ld32_st32_same]
  have e4 : ld32 (sync_buf K st p i) (inode_offset (st.inode_table p).i_num + 12)
      = (st.inode_table p).i_nr_sects % 4294967296 := by
    unfold sync_buf
    simp only []
    rw [ld32_st32_same]
  rw [e1, e2, e3, e4]

/-- C2: let slot `p` be held for `(dev, num)` with `num ≥ 1`, its four on-disk
fields holding arbitrary 32-bit values, and let no other held slot mirror
`(dev, num)`.  After `sync_inode(p)`, the releases that bring the count of `p`
to zero, and a `get_inode` of another inode `(dev2, num2)` that reuses slot
`p`, a `get_inode(dev, num)` (for which a free slot is left) returns a slot
whose `i_mode`, `i_size`, `i_start_sect` and `i_nr_sects` are the flushed
values. -/
theorem write_through_round_trip (K : Config) (st : State) (p c : Nat) (dev num dev2 num2 : Int)
    (hp : p < K.NR_INODE)
    (hdev : (st.inode_table p).i_dev = dev) (hino : (st.inode_table p).i_num = num)
    (hcnt : (st.inode_table p).i_cnt = c) (hc : 0 < c)
    (hnum1 : 1 ≤ num) (hnum2 : num < 2147483648)
    (hmode : (st.inode_table p).i_mode < 4294967296)
    (hsize : (st.inode_table p).i_size < 4294967296)
    (hstart : (st.inode_table p).i_start_sect < 4294967296)
    (hnr : (st.inode_table p).i_nr_sects < 4294967296)
    (huniq : ∀ j, j < K.NR_INODE → j ≠ p → (st.inode_table j).i_cnt ≠ 0 →
      ¬ ((st.inode_table j).i_dev = dev ∧ (st.inode_table j).i_num = num))
    (hsb : ∃ i, i < K.NR_SUPER_BLOCK ∧ (st.super_block i).sb_dev = dev)
    (hdrv : K.dd_map (MAJOR dev) ≠ INVALID_DRIVER)
    (hlow : ∀ j, j < p → (st.inode_table j).i_cnt ≠ 0)
    (hnum0 : num2 ≠ 0) (hdiff : ¬ (dev2 = dev ∧ num2 = num))
    (hunheld2 : ∀ j, j < K.NR_INODE → j ≠ p → (st.inode_table j).i_cnt ≠ 0 →
      ¬ ((st.inode_table j).i_dev = dev2 ∧ (st.inode_table j).i_num = num2))
    (hsb2 : ∃ i, i < K.NR_SUPER_BLOCK ∧ (st.super_block i).sb_dev = dev2)
    (hdrv2 : K.dd_map (MAJOR dev2) ≠ INVALID_DRIVER)
    (hfree : ∃ j, j < K.NR_INODE ∧ j ≠ p ∧ (st.inode_table j).i_cnt = 0) :
    ∃ st1 st2 st3 q st4,
      sync_inode K st p = .ok st1
      ∧ put_inode_times c st1 p = .ok st2
      ∧ (st2.inode_table p).i_cnt = 0
      ∧ get_inode K st2 dev2 num2 = .ok (some p, st3)
      ∧ get_inode K st3 dev num = .ok (some q, st4)
      ∧ (st4.inode_table q).i_mode = (st.inode_table p).i_mode
      ∧ (st4.inode_table q).i_size = (st.inode_table p).i_size
      ∧ (st4.inode_table q).i_start_sect = (st.inode_table p).i_start_sect
      ∧ (st4.inode_table q).i_nr_sects = (st.inode_table p).i_nr_sects := by
  subst hdev hino
  obtain ⟨i, hi, _, _⟩ := get_super_block_ok K st _ hsb
  obtain ⟨i2, hi2, _, _⟩ := get_super_block_ok K st dev2 hsb2
  -- flush
  have h1 := sync_inode_eq K st p i hi hdrv
  have ht1 : (sync_state K st p i).inode_table = st.inode_table := rfl
  have hs1 : (sync_state K st p i).super_block = st.super_block := rfl
  -- release
  have h2 := put_inode_times_eq p c (sync_state K st p i) (by rw [ht1]; exact hcnt)
  rw [if_neg (by omega)] at h2
  have hslot2 : ((released_state (sync_state K st p i) p).inode_table p).i_cnt = 0 := by
    simp [released_state]
  have hoth2 : ∀ j, j ≠ p →
      (released_state (sync_state K st p i) p).inode_table j = st.inode_table j := by
    intro j hj
    simp [released_state, Function.update_noteq hj, ht1]
  have hs2 : (released_state (sync_state K st p i) p).super_block = st.super_block := rfl
  have hd2 : (released_state (sync_state K st p i) p).disk = (sync_state K st p i).disk := rfl
  -- reuse of the slot
  have h3 := get_inode_miss K (released_state (sync_state K st p i) p) dev2 num2 p i2 hnum0
    (by
      intro j hj h
      by_cases hjp : j = p
      · subst hjp; exact h.1 hslot2
      · rw [hoth2 j hjp] at h
        exact hunheld2 j hj hjp h.1 h.2)
    hp hslot2
    (by intro j hj; rw [hoth2 j (by omega)]; exact hlow j hj)
    (by rw [get_super_block_congr K st _ dev2 hs2]; exact hi2) hdrv2
  generalize hS3 : miss_state K (released_state (sync_state K st p i) p) dev2 num2 p i2 = st3 at h3
  have hslot3 : (st3.inode_table p).i_dev = dev2 ∧ (st3.inode_table p).i_num = num2 := by
    rw [← hS3]; simp [miss_state, miss_inode]
  have hoth3 : ∀ j, j ≠ p → st3.inode_table j = st.inode_table j := by
    intro j hj
    rw [← hS3]
    simp only [miss_state, Function.update_noteq hj]
    exact hoth2 j hj
  have hs3 : st3.super_block = st.super_block := by rw [← hS3]; rfl
  have hd3 : st3.disk = (sync_state K st p i).disk := by rw [← hS3]; rfl
  -- reload
  obtain ⟨q, hq, hq0, hqlow⟩ := lowest_free_slot K st3 (by
    obtain ⟨j, hj, hjp, hj0⟩ := hfree
    exact ⟨j, hj, by rw [hoth3 j hjp]; exact hj0⟩)
  have h4 := get_inode_miss K st3 (st.inode_table p).i_dev (st.inode_table p).i_num q i
    (by omega)
    (by
      intro j hj h
      by_cases hjp : j = p
      · subst hjp
        exact hdiff ⟨hslot3.1.symm.trans h.2.1, hslot3.2.symm.trans h.2.2⟩
      · rw [hoth3 j hjp] at h
        exact huniq j hj hjp h.1 h.2)
    hq hq0 hqlow
    (by rw [get_super_block_congr K st st3 _ hs3]; exact hi) hdrv
  have hload : (miss_state K st3 (st.inode_table p).i_dev (st.inode_table p).i_num q i).inode_table q
      = miss_inode K st3 (st.inode_table p).i_dev (st.inode_table p).i_num i := by
    simp [miss_state]
  have hrd := read_after_sync K st st3 p i hnum1 hnum2 hd3 hs3
  refine ⟨_, _, st3, q, _, h1, h2, hslot2, h3, h4, ?_, ?_, ?_, ?_⟩
  · rw [hload, hrd]; exact Nat.mod_eq_of_lt hmode
  · rw [hload, hrd]; exact Nat.mod_eq_of_lt hsize
  · rw [hload, hrd]; exact Nat.mod_eq_of_lt hstart
  · rw [hload, hrd]; exact Nat.mod_eq_of_lt hnr

theorem held_state_free (j : Nat) (hj : j ≠ 0) : (held_state.inode_table j).i_cnt = 0 := by
  simp [held_state, hj, zero_inode]

theorem write_through_round_trip_witness :
    ∃ st1 st2 st3 q st4,
      sync_inode sample_config held_state 0 = .ok st1
      ∧ put_inode_times 2 st1 0 = .ok st2
      ∧ (st2.inode_table 0).i_cnt = 0
      ∧ get_inode sample_config st2 ROOT_DEV 6 = .ok (some 0, st3)
      ∧ get_inode sample_config st3 ROOT_DEV 5 = .ok (some q, st4)
      ∧ (st4.inode_table q).i_mode = (held_state.inode_table 0).i_mode
      ∧ (st4.inode_table q).i_size = (held_state.inode_table 0).i_size
      ∧ (st4.inode_table q).i_start_sect = (held_state.inode_table 0).i_start_sect
      ∧ (st4.inode_table q).i_nr_sects = (held_state.inode_table 0).i_nr_sects :=
  write_through_round_trip sample_config held_state 0 2 ROOT_DEV 5 ROOT_DEV 6
    (by decide) rfl rfl rfl (by decide) (by decide) (by decide)
    (by simp [held_state]) (by simp [held_state]) (by simp [held_state]) (by simp [held_state])
    (fun j _ hj h => absurd (held_state_free j hj) h)
    ⟨0, by decide, rfl⟩ (by decide)
    (fun j hj => absurd hj (Nat.not_lt_zero j))
    (by decide) (by decide)
    (fun j _ hj h => absurd (held_state_free j hj) h)
    ⟨0, by decide, rfl⟩ (by decide)
    ⟨1, by decide, by decide, held_state_free 1 (by decide)⟩

/-! ## C13: unknown operation tags -/

/-- C13: an iteration of the dispatcher on a received message whose tag is none
of `OPEN`, `CLOSE`, `READ`, `WRITE`, `UNLINK`, `RESUME_PROC`, `FORK`, `EXIT`
ends in the failed assertion of the `default` branch; it returns no list of
sent messages, so no reply goes to any process. -/
theorem unknown_tag_fatal (K : Config) (H : Handlers) (st : State) (msg : MESSAGE)
    (h1 : msg.type ≠ K.OPEN) (h2 : msg.type ≠ K.CLOSE) (h3 : msg.type ≠ K.READ)
    (h4 : msg.type ≠ K.WRITE) (h5 : msg.type ≠ K.UNLINK) (h6 : msg.type ≠ K.RESUME_PROC)
    (h7 : msg.type ≠ K.FORK) (h8 : msg.type ≠ K.EXIT) :
    task_fs_iteration K H st msg = .error .assert_unknown_message
    ∧ ∀ st1 sends, task_fs_iteration K H st msg ≠ .ok (st1, sends) := by
  have hd : task_fs_dispatch K H { st with fs_msg := msg } = .error .assert_unknown_message := by
    unfold task_fs_dispatch
    simp only [h1, h2, h3, h4, h5, h6, h7, h8, if_false, or_self]
  have hi : task_fs_iteration K H st msg = .error .assert_unknown_message := by
    unfold task_fs_iteration
    rw [hd]
  refine ⟨hi, ?_⟩
  intro st1 sends h
  rw [hi] at h
  cases h

theorem unknown_tag_fatal_witness :
    task_fs_iteration sample_config sample_handlers sample_state (sample_msg 5 99 0)
      = .error .assert_unknown_message
    ∧ ∀ st1 sends,
        task_fs_iteration sample_config sample_handlers sample_state (sample_msg 5 99 0)
          ≠ .ok (st1, sends) :=
  unknown_tag_fatal sample_config sample_handlers sample_state (sample_msg 5 99 0)
    (by decide) (by decide) (by decide) (by decide) (by decide) (by decide) (by decide)
    (by decide)

/-! ## C20: cache uniqueness -/

/-- What a `get_inode` call that returns has done: nothing (`num == 0`), a hit
at a held slot that matches, or a miss that fills a free slot while no held
slot matches. -/
theorem get_inode_cases (K : Config) (st : State) (dev num : Int) (r : Option Nat) (st1 : State)
    (h : get_inode K st dev num = .ok (r, st1)) :
    (num = 0 ∧ r = none ∧ st1 = st)
    ∨ (∃ p, p < K.NR_INODE ∧ (st.inode_table p).i_cnt ≠ 0 ∧ (st.inode_table p).i_dev = dev
        ∧ (st.inode_table p).i_num = num ∧ r = some p ∧ st1 = hit_state st p)
    ∨ (∃ q i, q < K.NR_INODE ∧ (st.inode_table q).i_cnt = 0
        ∧ (∀ j, j < K.NR_INODE → ¬ ((st.inode_table j).i_cnt ≠ 0
            ∧ (st.inode_table j).i_dev = dev ∧ (st.inode_table j).i_num = num))
        ∧ get_super_block K st dev = .ok i
        ∧ K.dd_map (MAJOR dev) ≠ INVALID_DRIVER
        ∧ r = some q ∧ st1 = miss_state K st dev num q i) := by
  by_cases hnum : num = 0
  · left
    simp only [get_inode, hnum, if_true, Except.ok.injEq, Prod.mk.injEq] at h
    exact ⟨hnum, h.1.symm, h.2.symm⟩
  · right
    cases hhit : (List.range K.NR_INODE).find?
        (fun p => decide ((st.inode_table p).i_cnt ≠ 0 ∧ (st.inode_table p).i_dev = dev
          ∧ (st.inode_table p).i_num = num)) with
    | some p =>
      left
      obtain ⟨hp, hpp, hlow⟩ := find_range_some _ _ _ hhit
      have hpp2 : (st.inode_table p).i_cnt ≠ 0 ∧ (st.inode_table p).i_dev = dev
          ∧ (st.inode_table p).i_num = num := by simpa using hpp
      have h2 := get_inode_hit K st dev num p hnum hp hpp2.1 hpp2.2.1 hpp2.2.2
        (by intro j hj; simpa using hlow j hj)
      rw [h2] at h
      simp only [Except.ok.injEq, Prod.mk.injEq] at h
      exact ⟨p, hp, hpp2.1, hpp2.2.1, hpp2.2.2, h.1.symm, h.2.symm⟩
    | none =>
      right
      have hmiss : ∀ j, j < K.NR_INODE → ¬ ((st.inode_table j).i_cnt ≠ 0
          ∧ (st.inode_table j).i_dev = dev ∧ (st.inode_table j).i_num = num) := by
        intro j hj
        have := (find_range_none _ _).mp hhit j hj
        simpa using this
      cases hfree : (List.range K.NR_INODE).find?
          (fun p => decide ((st.inode_table p).i_cnt = 0)) with
      | none =>
        have hheld : ∀ j, j < K.NR_INODE → (st.inode_table j).i_cnt ≠ 0 := by
          intro j hj
          have := (find_range_none _ _).mp hfree j hj
          simpa using this
        rw [get_inode_full K st dev num hnum hmiss hheld] at h
        cases h
      | some q =>
        obtain ⟨hq, hqq, hlow⟩ := find_range_some _ _ _ hfree
        have hq0 : (st.inode_table q).i_cnt = 0 := by simpa using hqq
        have hlow2 : ∀ j, j < q → (st.inode_table j).i_cnt ≠ 0 := by
          intro j hj; simpa using hlow j hj
        have hsbc : ∀ tbl, get_super_block K { st with inode_table := tbl } dev
            = get_super_block K st dev := fun _ => rfl
        cases hg : get_super_block K st dev with
        | error e =>
          unfold get_inode at h
          rw [if_neg hnum, get_inode_scan_eq, hhit, hfree] at h
          simp only [Option.or, bind, Except.bind, hsbc, hg] at h
          cases h
        | ok i =>
          by_cases hd : K.dd_map (MAJOR dev) = INVALID_DRIVER
          · unfold get_inode at h
            rw [if_neg hnum, get_inode_scan_eq, hhit, hfree] at h
            simp only [Option.or, bind, Except.bind, hsbc, hg, RD_SECT, rw_sector, hd, if_true] at h
            cases h
          · rw [get_inode_miss K st dev num q i hnum hmiss hq hq0 hlow2 hg hd] at h
            simp only [Except.ok.injEq, Prod.mk.injEq] at h
            exact ⟨q, i, hq, hq0, hmiss, rfl, hd, h.1.symm, h.2.symm⟩

theorem put_inode_cases (st : State) (p : Nat) (st1 : State) (h : put_inode st p = .ok st1) :
    0 < (st.inode_table p).i_cnt ∧ st1 = put_state st p := by
  by_cases hpos : 0 < (st.inode_table p).i_cnt
  · rw [put_inode_pos st p hpos] at h
    simp only [Except.ok.injEq] at h
    exact ⟨hpos, h.symm⟩
  · simp [put_inode, hpos] at h

/-- C20: when no two held slots of the inode cache mirror the same
`(i_dev, i_num)`, the same holds in the state that any `get_inode` call that
returns leaves, and in the state that any `put_inode` call that returns
leaves. -/
theorem cache_unique_preserved (K : Config) (st : State) (hu : cache_unique K st) :
    (∀ dev num r st1, get_inode K st dev num = .ok (r, st1) → cache_unique K st1)
    ∧ (∀ p st1, put_inode st p = .ok st1 → cache_unique K st1) := by
  constructor
  · intro dev num r st1 h
    rcases get_inode_cases K st dev num r st1 h with ⟨_, _, rfl⟩ | ⟨p, hp, hc, hd, hn, _, rfl⟩ |
      ⟨q, i, hq, hq0, hmiss, _, _, _, rfl⟩
    · exact hu
    · -- hit: the keys stay, and a slot held afterwards was held before
      have hkey : ∀ j, ((hit_state st p).inode_table j).i_dev = (st.inode_table j).i_dev
          ∧ ((hit_state st p).inode_table j).i_num = (st.inode_table j).i_num
          ∧ (((hit_state st p).inode_table j).i_cnt ≠ 0 → (st.inode_table j).i_cnt ≠ 0) := by
        intro j
        by_cases hj : j = p
        · subst hj
          simp [hit_state, hc]
        · simp [hit_state, Function.update_noteq hj]
      intro a b ha hb hca hcb hda hna
      rw [(hkey a).1, (hkey b).1] at hda
      rw [(hkey a).2.1, (hkey b).2.1] at hna
      exact hu a b ha hb ((hkey a).2.2 hca) ((hkey b).2.2 hcb) hda hna
    · -- miss: slot q takes a key that no held slot has
      have hslot : (miss_state K st dev num q i).inode_table q = miss_inode K st dev num i := by
        simp [miss_state]
      have hoth : ∀ j, j ≠ q → (miss_state K st dev num q i).inode_table j = st.inode_table j := by
        intro j hj
        simp [miss_state, Function.update_noteq hj]
      intro a b ha hb hca hcb hda hna
      by_cases haq : a = q
      · by_cases hbq : b = q
        · rw [haq, hbq]
        · exfalso
          rw [haq, hslot, hoth b hbq] at hda hna
          rw [hoth b hbq] at hcb
          exact hmiss b hb ⟨hcb, hda.symm, hna.symm⟩
      · by_cases hbq : b = q
        · exfalso
          rw [hbq, hslot, hoth a haq] at hda hna
          rw [hoth a haq] at hca
          exact hmiss a ha ⟨hca, hda, hna⟩
        · rw [hoth a haq] at hca hda hna
          rw [hoth b hbq] at hcb hda hna
          exact hu a b ha hb hca hcb hda hna
  · intro p st1 h
    obtain ⟨hpos, rfl⟩ := put_inode_cases st p st1 h
    have hkey : ∀ j, ((put_state st p).inode_table j).i_dev = (st.inode_table j).i_dev
        ∧ ((put_state st p).inode_table j).i_num = (st.inode_table j).i_num
        ∧ (((put_state st p).inode_table j).i_cnt ≠ 0 → (st.inode_table j).i_cnt ≠ 0) := by
      intro j
      by_cases hj : j = p
      · subst hj
        rw [put_state_slot]
        exact ⟨rfl, rfl, fun _ => by omega⟩
      · rw [put_state_other st p j hj]
        exact ⟨rfl, rfl, fun h => h⟩
    intro a b ha hb hca hcb hda hna
    rw [(hkey a).1, (hkey b).1] at hda
    rw [(hkey a).2.1, (hkey b).2.1] at hna
    exact hu a b ha hb ((hkey a).2.2 hca) ((hkey b).2.2 hcb) hda hna

theorem held_state_unique : cache_unique sample_config held_state := by
  intro a b _ _ hca hcb _ _
  have ha : a = 0 := by
    by_contra hne
    exact hca (held_state_free a hne)
  have hb : b = 0 := by
    by_contra hne
    exact hcb (held_state_free b hne)
  rw [ha, hb]

theorem cache_unique_preserved_witness :
    (∀ dev num r st1, get_inode sample_config held_state dev num = .ok (r, st1) →
      cache_unique sample_config st1)
    ∧ (∀ p st1, put_inode held_state p = .ok st1 → cache_unique sample_config st1) :=
  cache_unique_preserved sample_config held_state held_state_unique
/-! ## C12: loading a superblock -/

theorem sect_pos_one : sect_pos 1 = SECTOR_SIZE * 1 := by decide

theorem read_super_block_ok (K : Config) (st : State) (dev : Int)
    (hdrv : K.dd_map (MAJOR dev) ≠ INVALID_DRIVER) (hnr : 0 < K.NR_SUPER_BLOCK)
    (h0 : (st.super_block 0).sb_dev = K.NO_DEV) :
    read_super_block K st dev = .ok (load_state K st dev) := by
  have hfind := find_range_first (fun i => decide ((st.super_block i).sb_dev = K.NO_DEV))
    K.NR_SUPER_BLOCK 0 hnr (by simp [h0]) (by intro j hj; omega)
  unfold read_super_block
  simp only [rw_sector, if_neg hdrv, hfind, ne_eq, not_true_eq_false, if_false]
  rfl

theorem read_super_block_full (K : Config) (st : State) (dev : Int)
    (hdrv : K.dd_map (MAJOR dev) ≠ INVALID_DRIVER)
    (hfull : ∀ i, i < K.NR_SUPER_BLOCK → (st.super_block i).sb_dev ≠ K.NO_DEV) :
    read_super_block K st dev = .error .panic_super_block_slots := by
  have hfind := (find_range_none (fun i => decide ((st.super_block i).sb_dev = K.NO_DEV))
    K.NR_SUPER_BLOCK).mpr (by intro j hj; simpa using hfull j hj)
  unfold read_super_block
  simp only [rw_sector, if_neg hdrv, hfind]

theorem read_super_block_not_first (K : Config) (st : State) (dev : Int)
    (hdrv : K.dd_map (MAJOR dev) ≠ INVALID_DRIVER)
    (h0 : (st.super_block 0).sb_dev ≠ K.NO_DEV)
    (hfree : ∃ i, i < K.NR_SUPER_BLOCK ∧ (st.super_block i).sb_dev = K.NO_DEV) :
    read_super_block K st dev = .error .assert_first_slot := by
  obtain ⟨j, hj, hjd⟩ := hfree
  obtain ⟨i, hi⟩ := find_range_exists (fun i => decide ((st.super_block i).sb_dev = K.NO_DEV))
    K.NR_SUPER_BLOCK ⟨j, hj, by simp [hjd]⟩
  obtain ⟨_, hii, _⟩ := find_range_some _ _ _ hi
  have hi0 : i ≠ 0 := by
    intro h
    subst h
    exact h0 (by simpa using hii)
  unfold read_super_block
  simp only [rw_sector, if_neg hdrv, hi, ne_eq, hi0, not_false_eq_true, if_true]

theorem read_super_block_no_driver (K : Config) (st : State) (dev : Int)
    (hdrv : K.dd_map (MAJOR dev) = INVALID_DRIVER) :
    read_super_block K st dev = .error .assert_driver := by
  unfold read_super_block
  simp only [rw_sector, if_pos hdrv]

/-- A `read_super_block` that returns found the driver mapped and slot 0
unused. -/
theorem read_super_block_cases (K : Config) (st : State) (dev : Int) (st1 : State)
    (h : read_super_block K st dev = .ok st1) :
    K.dd_map (MAJOR dev) ≠ INVALID_DRIVER ∧ 0 < K.NR_SUPER_BLOCK
      ∧ (st.super_block 0).sb_dev = K.NO_DEV ∧ st1 = load_state K st dev := by
  by_cases hdrv : K.dd_map (MAJOR dev) = INVALID_DRIVER
  · rw [read_super_block_no_driver K st dev hdrv] at h
    cases h
  · by_cases hfree : ∃ i, i < K.NR_SUPER_BLOCK ∧ (st.super_block i).sb_dev = K.NO_DEV
    · by_cases h0 : (st.super_block 0).sb_dev = K.NO_DEV
      · obtain ⟨i, hi, _⟩ := hfree
        have hnr : 0 < K.NR_SUPER_BLOCK := by omega
        rw [read_super_block_ok K st dev hdrv hnr h0] at h
        simp only [Except.ok.injEq] at h
        exact ⟨hdrv, hnr, h0, h.symm⟩
      · rw [read_super_block_not_first K st dev hdrv h0 hfree] at h
        cases h
    · rw [read_super_block_full K st dev hdrv
        (fun i hi hd => hfree ⟨i, hi, hd⟩)] at h
      cases h

theorem read_super_block_second_slot_fatal :
    1 < sample_config.NR_SUPER_BLOCK
    ∧ (sample_state.super_block 1).sb_dev = sample_config.NO_DEV
    ∧ read_super_block sample_config sample_state 802 = .error .assert_first_slot :=
  ⟨by decide, rfl,
    read_super_block_not_first sample_config sample_state 802 (by decide) (by decide)
      ⟨1, by decide, rfl⟩⟩

/-- C12 (as amended): with the driver of `dev` mapped, `read_super_block(dev)`
returns exactly when registry slot 0 is unused: it then puts the record read
from sector 1 of `dev` into slot 0, stamps it with `dev`, and leaves every other
slot, the inode cache and the device as they are.  It ends in the `panic` when
no slot is unused, and in the failed assertion `i == 0` when slot 0 is in use
though another slot is unused; so one volume at most is ever loaded. -/
theorem read_super_block_spec (K : Config) (st : State) (dev : Int)
    (hdrv : K.dd_map (MAJOR dev) ≠ INVALID_DRIVER) :
    ((0 < K.NR_SUPER_BLOCK ∧ (st.super_block 0).sb_dev = K.NO_DEV) →
      ∃ st1, read_super_block K st dev = .ok st1
        ∧ st1.super_block 0
            = { ld_super_block (fun a => st.disk (K.dd_map (MAJOR dev)) (MINOR dev)
                  (SECTOR_SIZE * 1 + a.toNat)) with sb_dev := dev }
        ∧ (∀ j, j ≠ 0 → st1.super_block j = st.super_block j)
        ∧ st1.inode_table = st.inode_table ∧ st1.disk = st.disk
        ∧ st1.f_desc_table = st.f_desc_table ∧ st1.proc_table = st.proc_table)
    ∧ ((∀ i, i < K.NR_SUPER_BLOCK → (st.super_block i).sb_dev ≠ K.NO_DEV) →
        read_super_block K st dev = .error .panic_super_block_slots)
    ∧ (((st.super_block 0).sb_dev ≠ K.NO_DEV
          ∧ ∃ i, i < K.NR_SUPER_BLOCK ∧ (st.super_block i).sb_dev = K.NO_DEV) →
        read_super_block K st dev = .error .assert_first_slot)
    ∧ (∀ st1, read_super_block K st dev = .ok st1 →
        0 < K.NR_SUPER_BLOCK ∧ (st.super_block 0).sb_dev = K.NO_DEV) := by
  refine ⟨?_, read_super_block_full K st dev hdrv, ?_, ?_⟩
  · rintro ⟨hnr, h0⟩
    refine ⟨_, read_super_block_ok K st dev hdrv hnr h0, ?_, ?_, rfl, rfl, rfl, rfl⟩
    · have hmem : ∀ o : Int, 0 ≤ o → o ≤ 508 →
          ld32 (fsbuf_after_read K st dev 1) o
            = ld32 (fun a => st.disk (K.dd_map (MAJOR dev)) (MINOR dev)
                (SECTOR_SIZE * 1 + a.toNat)) o := by
        intro o ho1 ho2
        apply ld32_congr
        intro k hk1 hk2
        have hs : ((SECTOR_SIZE : Nat) : Int) = 512 := by decide
        unfold fsbuf_after_read
        rw [if_pos ⟨by omega, by rw [hs]; omega⟩, sect_pos_one]
      simp only [load_state, Function.update_same, ld_super_block]
      rw [hmem 0 (by omega) (by omega), hmem 4 (by omega) (by omega),
        hmem 8 (by omega) (by omega), hmem 12 (by omega) (by omega),
        hmem 16 (by omega) (by omega), hmem 20 (by omega) (by omega),
        hmem 24 (by omega) (by omega), hmem 28 (by omega) (by omega),
        hmem 32 (by omega) (by omega), hmem 36 (by omega) (by omega),
        hmem 40 (by omega) (by omega), hmem 44 (by omega) (by omega),
        hmem 48 (by omega) (by omega), hmem 52 (by omega) (by omega)]
    · intro j hj
      simp only [load_state, Function.update_noteq hj]
  · rintro ⟨h0, hfree⟩
    exact read_super_block_not_first K st dev hdrv h0 hfree
  · intro st1 h
    obtain ⟨_, hnr, h0, _⟩ := read_super_block_cases K st dev st1 h
    exact ⟨hnr, h0⟩

theorem read_super_block_spec_witness :
    (∃ st1, read_super_block sample_config fresh_state ROOT_DEV = .ok st1
        ∧ ∀ j, j ≠ 0 → st1.super_block j = fresh_state.super_block j)
    ∧ read_super_block sample_config sample_state ROOT_DEV = .error .assert_first_slot :=
  ⟨by
    obtain ⟨st1, h, _, ho, _⟩ :=
      (read_super_block_spec sample_config fresh_state ROOT_DEV (by decide)).1
        ⟨by decide, rfl⟩
    exact ⟨st1, h, ho⟩,
   (read_super_block_spec sample_config sample_state ROOT_DEV (by decide)).2.2.1
    ⟨by decide, 1, by decide, rfl⟩⟩
/-! ## C15: the registry holds a device once -/

/-- In a reachable registry every slot but the first is unused. -/
theorem registry_reachable_tail (K : Config) (st : State) (hr : registry_reachable K st) :
    ∀ i, 0 < i → i < K.NR_SUPER_BLOCK → (st.super_block i).sb_dev = K.NO_DEV := by
  induction hr with
  | start st h => intro i _ hi; exact h i hi
  | load st st1 dev _ h ih =>
    intro i hi0 hi
    obtain ⟨_, _, _, rfl⟩ := read_super_block_cases K st dev st1 h
    have hne : i ≠ 0 := by omega
    simp only [load_state, Function.update_noteq hne]
    exact ih i hi0 hi
  | other st st1 _ h ih =>
    intro i hi0 hi
    rw [h]
    exact ih i hi0 hi

theorem get_super_block_cases (K : Config) (st : State) (dev : Int) :
    (∃ i, get_super_block K st dev = .ok i ∧ i < K.NR_SUPER_BLOCK
        ∧ (st.super_block i).sb_dev = dev
        ∧ ∀ j, j < i → (st.super_block j).sb_dev ≠ dev)
    ∨ (get_super_block K st dev = .error .panic_super_block_not_found
        ∧ ∀ i, i < K.NR_SUPER_BLOCK → (st.super_block i).sb_dev ≠ dev) := by
  cases hf : (List.range K.NR_SUPER_BLOCK).find?
      (fun i => decide ((st.super_block i).sb_dev = dev)) with
  | some i =>
    left
    obtain ⟨h1, h2, h3⟩ := find_range_some _ _ _ hf
    refine ⟨i, ?_, h1, by simpa using h2, ?_⟩
    · unfold get_super_block
      rw [hf]
    · intro j hj
      simpa using h3 j hj
  | none =>
    right
    refine ⟨?_, ?_⟩
    · unfold get_super_block
      rw [hf]
    · intro i hi
      simpa using (find_range_none _ _).mp hf i hi

/-- C15: in a registry state reached from the start state (every slot
`NO_DEV`) by successful `read_super_block` calls, two slots that carry the
same device other than `NO_DEV` are one slot; `get_super_block(dev)` returns a
slot that carries `dev`, the only such slot when `dev` is not `NO_DEV`, and
ends in its `panic` exactly when no slot carries `dev`. -/
theorem registry_device_unique (K : Config) (st : State) (hr : registry_reachable K st) :
    (∀ dev i j, dev ≠ K.NO_DEV → i < K.NR_SUPER_BLOCK → j < K.NR_SUPER_BLOCK →
      (st.super_block i).sb_dev = dev → (st.super_block j).sb_dev = dev → i = j)
    ∧ (∀ dev i, get_super_block K st dev = .ok i →
        i < K.NR_SUPER_BLOCK ∧ (st.super_block i).sb_dev = dev
        ∧ (dev ≠ K.NO_DEV → ∀ j, j < K.NR_SUPER_BLOCK → (st.super_block j).sb_dev = dev → j = i))
    ∧ (∀ dev, (∃ i, i < K.NR_SUPER_BLOCK ∧ (st.super_block i).sb_dev = dev) →
        ∃ i, get_super_block K st dev = .ok i)
    ∧ (∀ dev, get_super_block K st dev = .error .panic_super_block_not_found
        ↔ ∀ i, i < K.NR_SUPER_BLOCK → (st.super_block i).sb_dev ≠ dev)
    ∧ (∀ dev e, get_super_block K st dev = .error e → e = .panic_super_block_not_found) := by
  have htail := registry_reachable_tail K st hr
  have huniq : ∀ dev i j, dev ≠ K.NO_DEV → i < K.NR_SUPER_BLOCK → j < K.NR_SUPER_BLOCK →
      (st.super_block i).sb_dev = dev → (st.super_block j).sb_dev = dev → i = j := by
    intro dev i j hdev hi hj hdi hdj
    have hi0 : i = 0 := by
      by_contra hne
      exact hdev (hdi.symm.trans (htail i (by omega) hi))
    have hj0 : j = 0 := by
      by_contra hne
      exact hdev (hdj.symm.trans (htail j (by omega) hj))
    rw [hi0, hj0]
  refine ⟨huniq, ?_, ?_, ?_, ?_⟩
  · intro dev i h
    rcases get_super_block_cases K st dev with ⟨k, hk, hk1, hk2, _⟩ | ⟨he, _⟩
    · rw [hk] at h
      simp only [Except.ok.injEq] at h
      subst h
      exact ⟨hk1, hk2, fun hdev j hj hdj => huniq dev j k hdev hj hk1 hdj hk2⟩
    · rw [he] at h
      cases h
  · intro dev hex
    rcases get_super_block_cases K st dev with ⟨k, hk, _⟩ | ⟨_, hnone⟩
    · exact ⟨k, hk⟩
    · obtain ⟨i, hi, hd⟩ := hex
      exact absurd hd (hnone i hi)
  · intro dev
    rcases get_super_block_cases K st dev with ⟨k, hk, hk1, hk2, _⟩ | ⟨he, hnone⟩
    · constructor
      · intro h
        rw [hk] at h
        cases h
      · intro h
        exact absurd hk2 (h k hk1)
    · exact ⟨fun _ => hnone, fun _ => he⟩
  · intro dev e h
    rcases get_super_block_cases K st dev with ⟨k, hk, _⟩ | ⟨he, _⟩
    · rw [hk] at h
      cases h
    · rw [he] at h
      simp only [Except.error.injEq] at h
      exact h.symm

theorem fresh_state_loaded_reachable (st1 : State)
    (h : read_super_block sample_config fresh_state ROOT_DEV = .ok st1) :
    registry_reachable sample_config st1 :=
  registry_reachable.load fresh_state st1 ROOT_DEV
    (registry_reachable.start fresh_state (fun _ _ => rfl)) h

theorem registry_device_unique_witness :
    ∃ st1, read_super_block sample_config fresh_state ROOT_DEV = .ok st1
      ∧ (∀ dev i j, dev ≠ sample_config.NO_DEV → i < sample_config.NR_SUPER_BLOCK →
          j < sample_config.NR_SUPER_BLOCK →
          (st1.super_block i).sb_dev = dev → (st1.super_block j).sb_dev = dev → i = j)
      ∧ get_super_block sample_config st1 ROOT_DEV = .ok 0 :=
  ⟨load_state sample_config fresh_state ROOT_DEV,
    read_super_block_ok sample_config fresh_state ROOT_DEV (by decide) (by decide) rfl,
    (registry_device_unique sample_config (load_state sample_config fresh_state ROOT_DEV)
      (fresh_state_loaded_reachable _
        (read_super_block_ok sample_config fresh_state ROOT_DEV (by decide) (by decide) rfl))).1,
    by
      obtain ⟨i, hi⟩ := (registry_device_unique sample_config
        (load_state sample_config fresh_state ROOT_DEV)
        (fresh_state_loaded_reachable _
          (read_super_block_ok sample_config fresh_state ROOT_DEV (by decide) (by decide)
            rfl))).2.2.1 ROOT_DEV ⟨0, by decide, by simp [load_state]⟩
      have h0 := ((registry_device_unique sample_config
        (load_state sample_config fresh_state ROOT_DEV)
        (fresh_state_loaded_reachable _
          (read_super_block_ok sample_config fresh_state ROOT_DEV (by decide) (by decide)
            rfl))).2.1 ROOT_DEV i hi).2.2 (by decide) 0 (by decide) (by simp [load_state])
      rw [← h0] at hi
      exact hi⟩
/-! ## C14: what `sync_inode` changes -/

theorem st32_outside (m : Int → Nat) (o : Int) (v : Nat) (a : Int)
    (h : a < o ∨ o + 4 ≤ a) : st32 m o v a = m a := by
  unfold st32
  rw [if_neg (by omega), if_neg (by omega), if_neg (by omega), if_neg (by omega)]

theorem sync_buf_outside (K : Config) (st : State) (p i : Nat) (a : Int)
    (h : a < inode_offset (st.inode_table p).i_num
      ∨ inode_offset (st.inode_table p).i_num + 16 ≤ a) :
    sync_buf K st p i a
      = fsbuf_after_read K st (st.inode_table p).i_dev
          (inode_blk_nr (st.super_block i) (st.inode_table p).i_num) a := by
  unfold sync_buf
  rw [st32_outside _ _ _ _ (by omega), st32_outside _ _ _ _ (by omega),
    st32_outside _ _ _ _ (by omega), st32_outside _ _ _ _ (by omega)]

/-- C14: with the superblock of the inode's device in registry slot `i` and the
driver of the device mapped, `sync_inode(p)` returns; a byte of a device that
differs afterwards lies on the inode's device, in the inode-table sector of
inode `p->i_num`, within the sixteen bytes of mode, size, start sector and
sector count at the start of its record; no slot of the inode cache, of the
registry, of the descriptor table or of a file table is modified. -/
theorem sync_inode_frame (K : Config) (st : State) (p i : Nat)
    (hsb : get_super_block K st (st.inode_table p).i_dev = .ok i)
    (hdrv : K.dd_map (MAJOR (st.inode_table p).i_dev) ≠ INVALID_DRIVER) :
    ∃ st1, sync_inode K st p = .ok st1
      ∧ st1.inode_table = st.inode_table
      ∧ st1.super_block = st.super_block
      ∧ st1.f_desc_table = st.f_desc_table
      ∧ st1.proc_table = st.proc_table
      ∧ ∀ d m q, st1.disk d m q ≠ st.disk d m q →
          d = K.dd_map (MAJOR (st.inode_table p).i_dev)
          ∧ m = MINOR (st.inode_table p).i_dev
          ∧ sect_pos (inode_blk_nr (st.super_block i) (st.inode_table p).i_num) ≤ q
          ∧ q < sect_pos (inode_blk_nr (st.super_block i) (st.inode_table p).i_num) + SECTOR_SIZE
          ∧ (sect_pos (inode_blk_nr (st.super_block i) (st.inode_table p).i_num) : Int)
                + inode_offset (st.inode_table p).i_num ≤ q
          ∧ (q : Int) < sect_pos (inode_blk_nr (st.super_block i) (st.inode_table p).i_num)
                + inode_offset (st.inode_table p).i_num + 16 := by
  refine ⟨_, sync_inode_eq K st p i hsb hdrv, rfl, rfl, rfl, rfl, ?_⟩
  intro d m q hne
  by_cases hin : d = K.dd_map (MAJOR (st.inode_table p).i_dev) ∧ m = MINOR (st.inode_table p).i_dev
      ∧ sect_pos (inode_blk_nr (st.super_block i) (st.inode_table p).i_num) ≤ q
      ∧ q < sect_pos (inode_blk_nr (st.super_block i) (st.inode_table p).i_num) + SECTOR_SIZE
  · obtain ⟨hd, hm, hq1, hq2⟩ := hin
    refine ⟨hd, hm, hq1, hq2, ?_⟩
    by_contra hout
    apply hne
    have hs : SECTOR_SIZE = 512 := rfl
    have hval : (sync_state K st p i).disk d m q
        = sync_buf K st p i ((q - sect_pos (inode_blk_nr (st.super_block i)
            (st.inode_table p).i_num) : Nat) : Int) := by
      simp only [sync_state, wr_state]
      rw [if_pos ⟨hd, hm, hq1, hq2⟩]
    rw [hval, sync_buf_outside K st p i _ (by omega)]
    unfold fsbuf_after_read
    rw [if_pos ⟨by omega, by rw [hs]; omega⟩, hd, hm]
    congr 1
    omega
  · exfalso
    apply hne
    simp only [sync_state, wr_state]
    rw [if_neg hin]

theorem sync_inode_frame_witness :
    ∃ st1, sync_inode sample_config held_state 0 = .ok st1
      ∧ st1.inode_table = held_state.inode_table
      ∧ ∀ d m q, st1.disk d m q ≠ held_state.disk d m q →
          d = 2 ∧ m = 33 ∧ (2048 + 128 : Int) ≤ q ∧ (q : Int) < 2048 + 128 + 16 := by
  obtain ⟨st1, h, ht, _, _, _, hf⟩ :=
    sync_inode_frame sample_config held_state 0 0 rfl (by decide)
  refine ⟨st1, h, ht, ?_⟩
  intro d m q hne
  obtain ⟨hd, hm, _, _, h1, h2⟩ := hf d m q hne
  have hpos : sect_pos (inode_blk_nr (held_state.super_block 0) (held_state.inode_table 0).i_num)
      = 2048 := by decide
  have hoff : inode_offset (held_state.inode_table 0).i_num = 128 := by decide
  rw [hpos, hoff] at h1 h2
  exact ⟨hd, hm, by exact_mod_cast h1, by exact_mod_cast h2⟩
/-! ## C19: what `fs_exit` does -/

theorem slots_at_desc_head (filp : Nat → Option Nat) (i : Nat) (l : List Nat) (d0 d : Nat)
    (hf : filp i = some d0) :
    slots_at_desc filp (i :: l) d = slots_at_desc filp l d + if d = d0 then 1 else 0 := by
  simp only [slots_at_desc, List.countP_cons, hf]
  by_cases hd : d = d0
  · subst hd; simp
  · have hd2 : ¬ (some d0 = some d) := fun h => hd (Option.some.inj h).symm
    simp [hd, hd2]

theorem slots_at_desc_head_none (filp : Nat → Option Nat) (i : Nat) (l : List Nat) (d : Nat)
    (hf : filp i = none) : slots_at_desc filp (i :: l) d = slots_at_desc filp l d := by
  simp [slots_at_desc, List.countP_cons, hf]

theorem slots_at_desc_congr (filp filp1 : Nat → Option Nat) (l : List Nat) (d : Nat)
    (h : ∀ j, j ∈ l → filp1 j = filp j) :
    slots_at_desc filp1 l d = slots_at_desc filp l d := by
  unfold slots_at_desc
  apply List.countP_congr
  intro j hj
  rw [h j hj]

theorem exit_ready_none (pid : Int) (i : Nat) (l : List Nat) (st : State)
    (h : exit_ready pid (i :: l) st) (hf : (st.proc_table pid).filp i = none) :
    exit_ready pid l st := by
  obtain ⟨hnd, hptr, hnz, hfd, hino⟩ := h
  refine ⟨(List.nodup_cons.mp hnd).2, fun j hj => hptr j (List.mem_cons_of_mem _ hj), ?_, hfd, hino⟩
  intro d k hk1 hk2
  exact hnz d k hk1 (by rw [slots_at_desc_head_none _ _ _ _ hf]; exact hk2)

theorem exit_ready_some (pid : Int) (i : Nat) (l : List Nat) (st : State) (d0 n0 : Nat)
    (h : exit_ready pid (i :: l) st) (hf : (st.proc_table pid).filp i = some d0) :
    exit_ready pid l (exit_slot_state st pid i d0 n0)
    ∧ (∀ j, j ∈ l → ((exit_slot_state st pid i d0 n0).proc_table pid).filp j
        = (st.proc_table pid).filp j)
    ∧ (0 < slots_at_desc (st.proc_table pid).filp l d0 →
        wrap32 ((st.f_desc_table d0).fd_cnt - 1) ≠ 0) := by
  obtain ⟨hnd, hptr, hnz, hfd, hino⟩ := h
  have hil : i ∉ l := (List.nodup_cons.mp hnd).1
  have hfilp : ∀ j, j ∈ l → ((exit_slot_state st pid i d0 n0).proc_table pid).filp j
      = (st.proc_table pid).filp j := by
    intro j hj
    have hji : j ≠ i := fun h => hil (by rw [← h]; exact hj)
    rw [exit_slot_filp, if_neg hji]
  have hfirst : 0 < slots_at_desc (st.proc_table pid).filp l d0 →
      wrap32 ((st.f_desc_table d0).fd_cnt - 1) ≠ 0 := by
    intro hpos
    have := hnz d0 1 (le_refl 1) (by rw [slots_at_desc_head _ _ _ _ _ hf]; simp; omega)
    simpa using this
  refine ⟨⟨(List.nodup_cons.mp hnd).2, ?_, ?_, ?_, ?_⟩, hfilp, hfirst⟩
  · intro j hj d hd
    rw [hfilp j hj] at hd
    rw [exit_slot_fd_inode, if_neg]
    · exact hptr j (List.mem_cons_of_mem _ hj) d hd
    · rintro ⟨hdd, hz⟩
      subst hdd
      have hpos : 0 < slots_at_desc (st.proc_table pid).filp l d := by
        unfold slots_at_desc
        rw [List.countP_pos_iff]
        exact ⟨j, hj, by simp [hd]⟩
      exact hfirst hpos hz
  · intro d k hk1 hk2
    rw [slots_at_desc_congr _ _ _ _ hfilp] at hk2
    rw [exit_slot_fd_cnt]
    by_cases hd : d = d0
    · subst hd
      rw [if_pos rfl, wrap32_sub_succ]
      exact hnz d (k + 1) (by omega) (by rw [slots_at_desc_head _ _ _ _ _ hf]; simp; omega)
    · rw [if_neg hd]
      exact hnz d k hk1 (by rw [slots_at_desc_head _ _ _ _ _ hf]; simp [hd]; omega)
  · intro d
    rw [exit_slot_fd_cnt]
    split
    · exact wrap32_in_int32 _
    · exact hfd d
  · intro n
    rw [exit_slot_i_cnt]
    split
    · exact wrap32_in_int32 _
    · exact hino n

/-- The inode pointers, the file table and the other processes after the loop
of `fs_exit`. -/
theorem fs_exit_loop_tables (pid : Int) (l : List Nat) :
    ∀ st : State, exit_ready pid l st → ∀ st1, fs_exit_loop pid l st = .ok st1 →
      (∀ d, (st1.f_desc_table d).fd_inode
          = if 0 < slots_at_desc (st.proc_table pid).filp l d
              ∧ wrap32 ((st.f_desc_table d).fd_cnt
                  - slots_at_desc (st.proc_table pid).filp l d) = 0
            then none else (st.f_desc_table d).fd_inode)
      ∧ (∀ j, (st1.proc_table pid).filp j
          = if j ∈ l then none else (st.proc_table pid).filp j)
      ∧ (∀ pid1, pid1 ≠ pid → st1.proc_table pid1 = st.proc_table pid1) := by
  induction l with
  | nil =>
    intro st _ st1 h
    simp only [fs_exit_loop, Except.ok.injEq] at h
    subst h
    refine ⟨?_, ?_, fun _ _ => rfl⟩
    · intro d
      simp [slots_at_desc]
    · intro j
      simp
  | cons i l ih =>
    intro st hready st1 h
    cases hf : (st.proc_table pid).filp i with
    | none =>
      simp only [fs_exit_loop, fs_exit_slot_none st pid i hf] at h
      obtain ⟨h1, h2, h3⟩ := ih st (exit_ready_none pid i l st hready hf) st1 h
      refine ⟨?_, ?_, h3⟩
      · intro d
        rw [h1 d, slots_at_desc_head_none _ _ _ _ hf]
      · intro j
        rw [h2 j]
        by_cases hji : j = i
        · subst hji
          simp [hf]
        · simp [hji]
    | some d0 =>
      cases hn : (st.f_desc_table d0).fd_inode with
      | none => exact absurd hn (hready.2.1 i (List.mem_cons_self _ _) d0 hf)
      | some n0 =>
        simp only [fs_exit_loop, fs_exit_slot_some st pid i d0 n0 hf hn] at h
        obtain ⟨hready1, hfilp, hfirst⟩ := exit_ready_some pid i l st d0 n0 hready hf
        obtain ⟨h1, h2, h3⟩ := ih (exit_slot_state st pid i d0 n0) hready1 st1 h
        refine ⟨?_, ?_, ?_⟩
        · intro d
          rw [h1 d, slots_at_desc_congr _ _ _ _ hfilp, slots_at_desc_head _ _ _ _ _ hf,
            exit_slot_fd_cnt, exit_slot_fd_inode]
          by_cases hd : d = d0
          · subst hd
            simp only [if_true, true_and]
            by_cases hpos : 0 < slots_at_desc (st.proc_table pid).filp l d
            · have hz := hfirst hpos
              rw [wrap32_sub_succ]
              simp [hpos, hz]
            · have h0 : slots_at_desc (st.proc_table pid).filp l d = 0 := by omega
              simp [h0]
          · simp [hd]
        · intro j
          rw [h2 j, exit_slot_filp]
          by_cases hji : j = i
          · subst hji
            simp
          · simp [hji]
        · intro pid1 hp
          rw [h3 pid1 hp]
          simp [exit_slot_state, Function.update_noteq hp]

/-- C19: let every non-null slot of the exiting process's file table point at a
descriptor that points at an inode and whose `fd_cnt` is at least the number of
the process's slots that point at it, all counts being values of a C `int`.
Then `fs_exit` returns 0; the `i_cnt` of each inode has gone down (in `int`
arithmetic) by the number of the process's slots whose descriptor pointed at
it; the `fd_cnt` of each descriptor has gone down by the number of the
process's slots that pointed at it; a descriptor the process pointed at has
lost its `fd_inode` exactly when its `fd_cnt` has reached zero, and the inode
pointer of any other descriptor is as before; every slot of the file table is
cleared, so in particular each slot whose descriptor's count reaches zero;
the file tables of other processes are unchanged. -/
theorem fs_exit_effect (K : Config) (st : State)
    (hptr : ∀ i, i < K.NR_FILES → ∀ d, (st.proc_table (st.fs_msg.u K.PID)).filp i = some d →
      (st.f_desc_table d).fd_inode ≠ none)
    (hge : ∀ i, i < K.NR_FILES → ∀ d, (st.proc_table (st.fs_msg.u K.PID)).filp i = some d →
      (slots_at_desc (st.proc_table (st.fs_msg.u K.PID)).filp (List.range K.NR_FILES) d : Int)
        ≤ (st.f_desc_table d).fd_cnt)
    (hfd : ∀ d, in_int32 (st.f_desc_table d).fd_cnt)
    (hino : ∀ n, in_int32 (st.inode_table n).i_cnt) :
    ∃ st1, fs_exit K st = .ok (0, st1)
      ∧ (∀ n, (st1.inode_table n).i_cnt
          = wrap32 ((st.inode_table n).i_cnt
              - slots_at_inode (st.proc_table (st.fs_msg.u K.PID)).filp
                  (fun d => (st.f_desc_table d).fd_inode) (List.range K.NR_FILES) n))
      ∧ (∀ n, in_int32 ((st.inode_table n).i_cnt
              - slots_at_inode (st.proc_table (st.fs_msg.u K.PID)).filp
                  (fun d => (st.f_desc_table d).fd_inode) (List.range K.NR_FILES) n) →
          (st1.inode_table n).i_cnt
            = (st.inode_table n).i_cnt
              - slots_at_inode (st.proc_table (st.fs_msg.u K.PID)).filp
                  (fun d => (st.f_desc_table d).fd_inode) (List.range K.NR_FILES) n)
      ∧ (∀ d, (st1.f_desc_table d).fd_cnt
          = (st.f_desc_table d).fd_cnt
            - slots_at_desc (st.proc_table (st.fs_msg.u K.PID)).filp (List.range K.NR_FILES) d)
      ∧ (∀ i, i < K.NR_FILES → ∀ d, (st.proc_table (st.fs_msg.u K.PID)).filp i = some d →
          ((st1.f_desc_table d).fd_inode = none ↔ (st1.f_desc_table d).fd_cnt = 0))
      ∧ (∀ d, (∀ i, i < K.NR_FILES → (st.proc_table (st.fs_msg.u K.PID)).filp i ≠ some d) →
          (st1.f_desc_table d).fd_inode = (st.f_desc_table d).fd_inode)
      ∧ (∀ i, i < K.NR_FILES → (st1.proc_table (st.fs_msg.u K.PID)).filp i = none)
      ∧ (∀ i, K.NR_FILES ≤ i → (st1.proc_table (st.fs_msg.u K.PID)).filp i
          = (st.proc_table (st.fs_msg.u K.PID)).filp i)
      ∧ (∀ pid1, pid1 ≠ st.fs_msg.u K.PID → st1.proc_table pid1 = st.proc_table pid1) := by
  have hpos_ref : ∀ d, 0 < slots_at_desc (st.proc_table (st.fs_msg.u K.PID)).filp
      (List.range K.NR_FILES) d →
      ∃ i, i < K.NR_FILES ∧ (st.proc_table (st.fs_msg.u K.PID)).filp i = some d := by
    intro d hpos
    unfold slots_at_desc at hpos
    rw [List.countP_pos_iff] at hpos
    obtain ⟨i, hi, hd⟩ := hpos
    exact ⟨i, List.mem_range.mp hi, by simpa using hd⟩
  have hnz : ∀ d, ∀ k : Nat, 1 ≤ k →
      k < slots_at_desc (st.proc_table (st.fs_msg.u K.PID)).filp (List.range K.NR_FILES) d →
      wrap32 ((st.f_desc_table d).fd_cnt - k) ≠ 0 := by
    intro d k hk1 hk2
    obtain ⟨i, hi, hd⟩ := hpos_ref d (by omega)
    have h1 := hge i hi d hd
    have h2 := hfd d
    unfold in_int32 at h2
    unfold wrap32
    omega
  have hready : exit_ready (st.fs_msg.u K.PID) (List.range K.NR_FILES) st :=
    ⟨List.nodup_range _, fun i hi d hd => hptr i (List.mem_range.mp hi) d hd, hnz, hfd, hino⟩
  obtain ⟨st1, h1, _, hc, hn⟩ := fs_exit_loop_spec (st.fs_msg.u K.PID) (List.range K.NR_FILES) st
    (List.nodup_range _) (fun i hi d hd => hptr i (List.mem_range.mp hi) d hd) hnz hfd hino
  obtain ⟨ht1, ht2, ht3⟩ := fs_exit_loop_tables (st.fs_msg.u K.PID) (List.range K.NR_FILES) st
    hready st1 h1
  have hcnt : ∀ d, (st1.f_desc_table d).fd_cnt
      = (st.f_desc_table d).fd_cnt
        - slots_at_desc (st.proc_table (st.fs_msg.u K.PID)).filp (List.range K.NR_FILES) d := by
    intro d
    rw [hc d]
    apply wrap32_id
    have h2 := hfd d
    unfold in_int32 at h2 ⊢
    by_cases hpos : 0 < slots_at_desc (st.proc_table (st.fs_msg.u K.PID)).filp
        (List.range K.NR_FILES) d
    · obtain ⟨i, hi, hd⟩ := hpos_ref d hpos
      have := hge i hi d hd
      omega
    · omega
  refine ⟨st1, ?_, hn, ?_, hcnt, ?_, ?_, ?_, ?_, ht3⟩
  · unfold fs_exit
    rw [h1]
  · intro n hfit
    rw [hn n]
    exact wrap32_id _ hfit
  · intro i hi d hd
    have hpos : 0 < slots_at_desc (st.proc_table (st.fs_msg.u K.PID)).filp
        (List.range K.NR_FILES) d := by
      unfold slots_at_desc
      rw [List.countP_pos_iff]
      exact ⟨i, List.mem_range.mpr hi, by simp [hd]⟩
    rw [ht1 d, ← hc d]
    constructor
    · intro h
      by_contra hne
      rw [if_neg (fun hh => hne hh.2)] at h
      exact hptr i hi d hd h
    · intro h
      rw [if_pos ⟨hpos, h⟩]
  · intro d hun
    rw [ht1 d, if_neg]
    rintro ⟨hpos, _⟩
    obtain ⟨i, hi, hd⟩ := hpos_ref d hpos
    exact hun i hi hd
  · intro i hi
    rw [ht2 i, if_pos (List.mem_range.mpr hi)]
  · intro i hi
    rw [ht2 i, if_neg (fun h => by have := List.mem_range.mp h; omega)]

theorem last_holder_filp (i d : Nat)
    (h : (last_holder_state.proc_table (last_holder_state.fs_msg.u sample_config.PID)).filp i
      = some d) : d = 0 ∧ (i = 0 ∨ i = 1) := by
  have hd2 : (if i = 0 then some 0 else if i = 1 then some 0 else none) = some d := h
  split_ifs at hd2 with h0 h1
  · exact ⟨(Option.some.inj hd2).symm, Or.inl h0⟩
  · exact ⟨(Option.some.inj hd2).symm, Or.inr h1⟩

theorem fs_exit_effect_witness :
    ∃ st1, fs_exit sample_config last_holder_state = .ok (0, st1)
      ∧ (st1.f_desc_table 0).fd_cnt = 0
      ∧ (st1.f_desc_table 0).fd_inode = none
      ∧ (st1.inode_table 0).i_cnt = 0
      ∧ (∀ i, i < sample_config.NR_FILES →
          (st1.proc_table (last_holder_state.fs_msg.u sample_config.PID)).filp i = none) := by
  have hs : slots_at_desc
      (last_holder_state.proc_table (last_holder_state.fs_msg.u sample_config.PID)).filp
      (List.range sample_config.NR_FILES) 0 = 2 := by decide
  have hsi : slots_at_inode
      (last_holder_state.proc_table (last_holder_state.fs_msg.u sample_config.PID)).filp
      (fun d => (last_holder_state.f_desc_table d).fd_inode)
      (List.range sample_config.NR_FILES) 0 = 2 := by decide
  obtain ⟨st1, h, hn, _, hc, hdet, _, hclr, _, _⟩ :=
    fs_exit_effect sample_config last_holder_state
      (by
        intro i _ d hd
        obtain ⟨h0, _⟩ := last_holder_filp i d hd
        subst h0
        simp [last_holder_state])
      (by
        intro i _ d hd
        obtain ⟨h0, _⟩ := last_holder_filp i d hd
        subst h0
        rw [hs]
        decide)
      (by
        intro d
        simp only [last_holder_state, in_int32]
        split_ifs <;> decide)
      (by
        intro n
        simp only [last_holder_state, in_int32]
        split_ifs <;> decide)
  have hc0 : (st1.f_desc_table 0).fd_cnt = 0 := by
    rw [hc 0, hs]
    decide
  refine ⟨st1, h, hc0, (hdet 0 (by decide) 0 rfl).mpr hc0, ?_, hclr⟩
  rw [hn 0, hsi]
  decide

/-! ## The disk that `mkfs` leaves -/

theorem wr_state_disk_above (K : Config) (st : State) (dev n : Int) (d m : Int) (p : Nat)
    (h : sect_pos n + SECTOR_SIZE ≤ p) : (wr_state K st dev n).disk d m p = st.disk d m p := by
  simp only [wr_state]
  rw [if_neg]
  omega

theorem wr_each_state_fields (K : Config) (dev : Int) (ns : List Int) :
    ∀ st : State, (wr_each_state K dev ns st).fsbuf = st.fsbuf
      ∧ (wr_each_state K dev ns st).inode_table = st.inode_table
      ∧ (wr_each_state K dev ns st).super_block = st.super_block
      ∧ (wr_each_state K dev ns st).f_desc_table = st.f_desc_table
      ∧ (wr_each_state K dev ns st).proc_table = st.proc_table := by
  induction ns with
  | nil => intro st; exact ⟨rfl, rfl, rfl, rfl, rfl⟩
  | cons n ns ih =>
    intro st
    simp only [wr_each_state]
    exact ih (wr_state K st dev n)

theorem wr_each_state_disk_outside (K : Config) (dev : Int) (ns : List Int) :
    ∀ st : State, ∀ d m p,
      (∀ n, n ∈ ns → p < sect_pos n ∨ sect_pos n + SECTOR_SIZE ≤ p) →
      (wr_each_state K dev ns st).disk d m p = st.disk d m p := by
  induction ns with
  | nil => intro st _ _ _ _; rfl
  | cons n ns ih =>
    intro st d m p hout
    simp only [wr_each_state]
    rw [ih (wr_state K st dev n) d m p (fun x hx => hout x (List.mem_cons_of_mem _ hx))]
    rcases hout n (List.mem_cons_self _ _) with h | h
    · exact wr_state_disk_below K st dev n d m p h
    · exact wr_state_disk_above K st dev n d m p h

/-- Every sector of the list holds the buffer after the writes. -/
theorem wr_each_state_disk_inside (K : Config) (dev : Int) (ks : List Nat) :
    ∀ st : State, (∀ k, k ∈ ks → k < 4294967296) →
      ∀ k, k ∈ ks → ∀ a : Nat, a < SECTOR_SIZE →
        (wr_each_state K dev (ks.map (fun k => ((k : Nat) : Int))) st).disk
            (K.dd_map (MAJOR dev)) (MINOR dev) (k * 512 + a) = st.fsbuf (a : Int) := by
  induction ks with
  | nil => intro st _ k hk; cases hk
  | cons k0 ks ih =>
    intro st hb k hk a ha
    simp only [List.map_cons, wr_each_state]
    by_cases hin : k ∈ ks
    · rw [ih (wr_state K st dev k0) (fun x hx => hb x (List.mem_cons_of_mem _ hx)) k hin a ha]
      rfl
    · have hk0 : k = k0 := by
        rcases List.mem_cons.mp hk with h | h
        · exact h
        · exact absurd h hin
      subst hk0
      rw [wr_each_state_disk_outside]
      · have := wr_state_disk_inside K st dev (k : Int) a ha
        rw [sect_pos_nat k (hb k (List.mem_cons_self _ _))] at this
        exact this
      · intro n hn
        simp only [List.mem_map] at hn
        obtain ⟨x, hx, rfl⟩ := hn
        rw [sect_pos_nat x (hb x (List.mem_cons_of_mem _ hx))]
        have hne : x ≠ k := fun h => hin (h ▸ hx)
        unfold SECTOR_SIZE at ha ⊢
        omega

/-! Each transformation of the sector buffer is local: the byte it leaves at an
offset depends on the byte that was at this offset only. -/

theorem st32_local (m m1 : Int → Nat) (o : Int) (v : Nat) (a : Int) (h : m a = m1 a) :
    st32 m o v a = st32 m1 o v a := by
  unfold st32
  simp only [h]

theorem update_local (m m1 : Int → Nat) (o : Int) (v : Nat) (a : Int) (h : m a = m1 a) :
    Function.update m o v a = Function.update m1 o v a := by
  simp only [Function.update_apply, h]

theorem set_low_bits_local (m m1 : Int → Nat) (pos : Int) (n : Nat) (a : Int) (h : m a = m1 a) :
    set_low_bits m pos n a = set_low_bits m1 pos n a := by
  induction n with
  | zero => exact h
  | succ n ih =>
    unfold set_low_bits at ih ⊢
    rw [List.range_succ, List.foldl_append, List.foldl_append]
    simp only [List.foldl_cons, List.foldl_nil, Function.update_apply]
    by_cases hp : a = pos
    · subst hp
      simp only [if_true, ih]
    · simp only [hp, if_false, ih]

theorem foldl_update_local (l : List Int) (v : Nat) (a : Int) :
    ∀ m m1 : Int → Nat, m a = m1 a →
      l.foldl (fun m i => Function.update m i v) m a
        = l.foldl (fun m i => Function.update m i v) m1 a := by
  induction l with
  | nil => intro m m1 h; exact h
  | cons i l ih =>
    intro m m1 h
    simp only [List.foldl_cons]
    exact ih _ _ (update_local m m1 i v a h)

theorem fill_ff_local (m m1 : Int → Nat) (n : Nat) (a : Int) (h : m a = m1 a) :
    fill_ff m n a = fill_ff m1 n a := by
  unfold fill_ff
  exact foldl_update_local _ _ a m m1 h

theorem st_tty_inode_local (K : Config) (m m1 : Int → Nat) (i : Nat) (a : Int) (h : m a = m1 a) :
    st_tty_inode K m i a = st_tty_inode K m1 i a := by
  unfold st_tty_inode
  exact st32_local _ _ _ _ _ (st32_local _ _ _ _ _ (st32_local _ _ _ _ _
    (st32_local _ _ _ _ _ h)))

theorem foldl_tty_inode_local (K : Config) (l : List Nat) (a : Int) :
    ∀ m m1 : Int → Nat, m a = m1 a →
      l.foldl (st_tty_inode K) m a = l.foldl (st_tty_inode K) m1 a := by
  induction l with
  | nil => intro m m1 h; exact h
  | cons i l ih =>
    intro m m1 h
    simp only [List.foldl_cons]
    exact ih _ _ (st_tty_inode_local K m m1 i a h)

theorem memset_inside (m : Int → Nat) (c : Nat) (a : Int) (h0 : 0 ≤ a) (h1 : a < 512) :
    memset m c SECTOR_SIZE a = c % 256 := by
  have hs : ((SECTOR_SIZE : Nat) : Int) = 512 := by decide
  unfold memset
  rw [if_pos ⟨h0, by rw [hs]; exact h1⟩]

theorem memset_zero_inside (m : Int → Nat) (a : Nat) (h1 : a < 512) :
    memset m 0 SECTOR_SIZE (a : Int) = 0 := by
  rw [memset_inside m 0 (a : Int) (by omega) (by omega)]

theorem st_super_block_local (m m1 : Int → Nat) (sb : super_block) (a : Int) (h : m a = m1 a) :
    st_super_block m sb a = st_super_block m1 sb a := by
  unfold st_super_block
  exact st32_local _ _ _ _ _ (st32_local _ _ _ _ _ (st32_local _ _ _ _ _ (st32_local _ _ _ _ _
    (st32_local _ _ _ _ _ (st32_local _ _ _ _ _ (st32_local _ _ _ _ _ (st32_local _ _ _ _ _
    (st32_local _ _ _ _ _ (st32_local _ _ _ _ _ (st32_local _ _ _ _ _ (st32_local _ _ _ _ _
    (st32_local _ _ _ _ _ (st32_local _ _ _ _ _ h)))))))))))))

/-- One whole-sector write of the buffer `B` to sector `n`, which starts at
byte `k * 512`. -/
theorem write_buf_sector (K : Config) (st : State) (dev : Int) (B : Int → Nat) (n : Int) (k : Nat)
    (hdrv : K.dd_map (MAJOR dev) ≠ INVALID_DRIVER) (hn : sect_pos n = k * 512) :
    ∃ st1, WR_SECT K { st with fsbuf := B } dev n = .ok st1
      ∧ st1.inode_table = st.inode_table ∧ st1.super_block = st.super_block
      ∧ st1.f_desc_table = st.f_desc_table ∧ st1.proc_table = st.proc_table
      ∧ (∀ d m p, p < k * 512 ∨ (k + 1) * 512 ≤ p → st1.disk d m p = st.disk d m p)
      ∧ (∀ a : Nat, a < 512 →
          st1.disk (K.dd_map (MAJOR dev)) (MINOR dev) (k * 512 + a) = B a) := by
  rw [WR_SECT_eq K _ dev _ hdrv]
  refine ⟨_, rfl, rfl, rfl, rfl, rfl, ?_, ?_⟩
  · intro d m p hp
    rcases hp with h | h
    · exact wr_state_disk_below K _ dev n d m p (by rw [hn]; exact h)
    · exact wr_state_disk_above K _ dev n d m p (by rw [hn]; unfold SECTOR_SIZE; omega)
  · intro a ha
    have h := wr_state_disk_inside K { st with fsbuf := B } dev n a ha
    rw [hn] at h
    exact h

/-- The loop that writes a zeroed buffer to each of the sectors `ks`. -/
theorem zero_fill_sectors (K : Config) (st : State) (dev : Int) (ks : List Nat)
    (hdrv : K.dd_map (MAJOR dev) ≠ INVALID_DRIVER) (hb : ∀ k, k ∈ ks → k < 4294967296) :
    ∃ st1, WR_SECT_each K dev (ks.map (fun k => ((k : Nat) : Int)))
        { st with fsbuf := memset st.fsbuf 0 SECTOR_SIZE } = .ok st1
      ∧ st1.inode_table = st.inode_table ∧ st1.super_block = st.super_block
      ∧ st1.f_desc_table = st.f_desc_table ∧ st1.proc_table = st.proc_table
      ∧ (∀ d m p, (∀ k, k ∈ ks → p < k * 512 ∨ (k + 1) * 512 ≤ p) →
          st1.disk d m p = st.disk d m p)
      ∧ (∀ k, k ∈ ks → ∀ a : Nat, a < 512 →
          st1.disk (K.dd_map (MAJOR dev)) (MINOR dev) (k * 512 + a) = 0) := by
  rw [WR_SECT_each_eq K dev hdrv]
  refine ⟨_, rfl, ?_, ?_, ?_, ?_, ?_, ?_⟩
  · rw [(wr_each_state_fields K dev _ _).2.1]
  · rw [(wr_each_state_fields K dev _ _).2.2.1]
  · rw [(wr_each_state_fields K dev _ _).2.2.2.1]
  · rw [(wr_each_state_fields K dev _ _).2.2.2.2]
  · intro d m p hp
    rw [wr_each_state_disk_outside]
    intro n hn
    simp only [List.mem_map] at hn
    obtain ⟨k, hk, rfl⟩ := hn
    rw [sect_pos_nat k (hb k hk)]
    have := hp k hk
    unfold SECTOR_SIZE
    omega
  · intro k hk a ha
    have h := wr_each_state_disk_inside K dev ks
      { st with fsbuf := memset st.fsbuf 0 SECTOR_SIZE } hb k hk a ha
    rw [h]
    dsimp only
    exact memset_zero_inside st.fsbuf a ha

theorem mkfs_section1 (K : Config) (geo : part_info) (st : State)
    (hdrv : K.dd_map (MAJOR ROOT_DEV) ≠ INVALID_DRIVER) :
    ∃ st1, mkfs_write_super_block K (mkfs_super_block K geo) st = .ok st1
      ∧ st1.inode_table = st.inode_table ∧ st1.super_block = st.super_block
      ∧ st1.f_desc_table = st.f_desc_table ∧ st1.proc_table = st.proc_table
      ∧ (∀ d m p, p < 512 ∨ 1024 ≤ p → st1.disk d m p = st.disk d m p)
      ∧ (∀ a : Nat, a < 512 →
          st1.disk (K.dd_map (MAJOR ROOT_DEV)) (MINOR ROOT_DEV) (512 + a) = sb_sector K geo a) := by
  obtain ⟨st1, h, h1, h2, h3, h4, hf, hc⟩ := write_buf_sector K st ROOT_DEV
    (st_super_block (memset st.fsbuf 0x90 SECTOR_SIZE) (mkfs_super_block K geo)) 1 1 hdrv
    (by decide)
  refine ⟨st1, h, h1, h2, h3, h4, fun d m p hp => hf d m p (by omega), ?_⟩
  intro a ha
  have := hc a ha
  rw [Nat.one_mul] at this
  rw [this]
  exact st_super_block_local _ _ _ _ (memset_inside _ _ _ (by omega) (by omega))

theorem mkfs_section2 (K : Config) (st : State) (hcons : K.NR_CONSOLES = 3)
    (hdrv : K.dd_map (MAJOR ROOT_DEV) ≠ INVALID_DRIVER) :
    ∃ st1, mkfs_inode_map K st = .ok st1
      ∧ st1.inode_table = st.inode_table ∧ st1.super_block = st.super_block
      ∧ st1.f_desc_table = st.f_desc_table ∧ st1.proc_table = st.proc_table
      ∧ (∀ d m p, p < 1024 ∨ 1536 ≤ p → st1.disk d m p = st.disk d m p)
      ∧ (∀ a : Nat, a < 512 →
          st1.disk (K.dd_map (MAJOR ROOT_DEV)) (MINOR ROOT_DEV) (1024 + a)
            = if a = 0 then 0x1F else 0) := by
  have hbyte0 : set_low_bits (memset st.fsbuf 0 SECTOR_SIZE) 0 (K.NR_CONSOLES + 2) 0 = 0x1F := by
    rw [hcons]
    exact set_low_bits_five _ (by simp [memset, SECTOR_SIZE])
  obtain ⟨st1, h, h1, h2, h3, h4, hf, hc⟩ := write_buf_sector K st ROOT_DEV
    (set_low_bits (memset st.fsbuf 0 SECTOR_SIZE) 0 (K.NR_CONSOLES + 2)) 2 2 hdrv (by decide)
  refine ⟨st1, ?_, h1, h2, h3, h4, fun d m p hp => hf d m p (by omega), ?_⟩
  · unfold mkfs_inode_map
    simp only [hbyte0, ne_eq, not_true_eq_false, if_false]
    exact h
  · intro a ha
    rw [hc a ha]
    by_cases h0 : a = 0
    · subst h0
      rw [if_pos rfl]
      exact hbyte0
    · rw [if_neg h0, set_low_bits_other _ _ _ _ (by omega)]
      exact memset_zero_inside _ a ha

theorem mkfs_section3 (K : Config) (geo : part_info) (st : State)
    (hdrv : K.dd_map (MAJOR ROOT_DEV) ≠ INVALID_DRIVER) :
    ∃ st1, mkfs_sector_map K (mkfs_super_block K geo) st = .ok st1
      ∧ st1.inode_table = st.inode_table ∧ st1.super_block = st.super_block
      ∧ st1.f_desc_table = st.f_desc_table ∧ st1.proc_table = st.proc_table
      ∧ (∀ d m p, p < 1536 ∨ (3 + (mkfs_super_block K geo).nr_smap_sects) * 512 ≤ p →
          st1.disk d m p = st.disk d m p)
      ∧ (∀ a : Nat, a < 512 →
          st1.disk (K.dd_map (MAJOR ROOT_DEV)) (MINOR ROOT_DEV) (1536 + a) = smap_sector K a)
      ∧ (∀ i, 1 ≤ i → i < (mkfs_super_block K geo).nr_smap_sects → ∀ a : Nat, a < 512 →
          st1.disk (K.dd_map (MAJOR ROOT_DEV)) (MINOR ROOT_DEV) ((3 + i) * 512 + a) = 0) := by
  obtain ⟨hb1, hb2⟩ := smap_bound K geo
  have himap : (mkfs_super_block K geo).nr_imap_sects = 1 := rfl
  have hu3 : ((u32 (2 + 1) : Nat) : Int) = 3 := by decide
  have hlist : (List.range' 1 ((mkfs_super_block K geo).nr_smap_sects - 1)).map
      (fun i => ((u32 (2 + 1 + i) : Nat) : Int))
      = ((List.range' 1 ((mkfs_super_block K geo).nr_smap_sects - 1)).map (fun i => 3 + i)).map
          (fun k => ((k : Nat) : Int)) := by
    rw [List.map_map]
    apply List.map_congr_left
    intro i hi
    rw [List.mem_range'_1] at hi
    have hu : u32 (2 + 1 + i) = 3 + i := by unfold u32; omega
    simp only [Function.comp, hu]
  have hmem : ∀ k, k ∈ (List.range' 1 ((mkfs_super_block K geo).nr_smap_sects - 1)).map
      (fun i => 3 + i) ↔ 4 ≤ k ∧ k < 3 + (mkfs_super_block K geo).nr_smap_sects := by
    intro k
    simp only [List.mem_map, List.mem_range'_1]
    constructor
    · rintro ⟨i, ⟨h1, h2⟩, rfl⟩
      omega
    · intro h
      exact ⟨k - 3, ⟨by omega, by omega⟩, by omega⟩
  obtain ⟨sA, hA, a1, a2, a3, a4, af, ac⟩ := write_buf_sector K st ROOT_DEV
    (set_low_bits (fill_ff (memset st.fsbuf 0 SECTOR_SIZE) ((K.NR_DEFAULT_FILE_SECTS + 1) / 8))
      ((((K.NR_DEFAULT_FILE_SECTS + 1) / 8 : Nat) : Int)) ((K.NR_DEFAULT_FILE_SECTS + 1) % 8))
    3 3 hdrv (by decide)
  obtain ⟨sB, hB, b1, b2, b3, b4, bf, bc⟩ := zero_fill_sectors K sA ROOT_DEV
    ((List.range' 1 ((mkfs_super_block K geo).nr_smap_sects - 1)).map (fun i => 3 + i)) hdrv
    (by intro k hk; have := (hmem k).mp hk; omega)
  refine ⟨sB, ?_, b1.trans a1, b2.trans a2, b3.trans a3, b4.trans a4, ?_, ?_, ?_⟩
  · unfold mkfs_sector_map
    simp only [himap, hu3, hA, hlist]
    exact hB
  · intro d m p hp
    rw [bf d m p (by intro k hk; have := (hmem k).mp hk; omega)]
    exact af d m p (by omega)
  · intro a ha
    rw [bf _ _ _ (by intro k hk; have := (hmem k).mp hk; omega)]
    have := ac a ha
    rw [this]
    exact set_low_bits_local _ _ _ _ _
      (fill_ff_local _ _ _ _ (memset_zero_inside _ a ha))
  · intro i hi1 hi2 a ha
    exact bc (3 + i) ((hmem (3 + i)).mpr (by omega)) a ha

theorem mkfs_section4 (K : Config) (geo : part_info) (st : State)
    (hdrv : K.dd_map (MAJOR ROOT_DEV) ≠ INVALID_DRIVER) :
    ∃ st1, mkfs_inodes K (mkfs_super_block K geo) st = .ok st1
      ∧ st1.inode_table = st.inode_table ∧ st1.super_block = st.super_block
      ∧ st1.f_desc_table = st.f_desc_table ∧ st1.proc_table = st.proc_table
      ∧ (∀ d m p, p < (3 + (mkfs_super_block K geo).nr_smap_sects) * 512
            ∨ (4 + (mkfs_super_block K geo).nr_smap_sects) * 512 ≤ p →
          st1.disk d m p = st.disk d m p)
      ∧ (∀ a : Nat, a < 512 →
          st1.disk (K.dd_map (MAJOR ROOT_DEV)) (MINOR ROOT_DEV)
            ((3 + (mkfs_super_block K geo).nr_smap_sects) * 512 + a) = inode_sector K geo a) := by
  obtain ⟨hb1, hb2⟩ := smap_bound K geo
  have himap : (mkfs_super_block K geo).nr_imap_sects = 1 := rfl
  have hu : u32 (2 + (mkfs_super_block K geo).nr_imap_sects
      + (mkfs_super_block K geo).nr_smap_sects) = 3 + (mkfs_super_block K geo).nr_smap_sects := by
    rw [himap]
    unfold u32
    omega
  obtain ⟨st1, h, h1, h2, h3, h4, hf, hc⟩ := write_buf_sector K st ROOT_DEV
    ((List.range K.NR_CONSOLES).foldl (st_tty_inode K)
      (st32 (st32 (st32 (st32 (memset st.fsbuf 0 SECTOR_SIZE) 0 K.I_DIRECTORY) 4
        (u32 (K.DIR_ENTRY_SIZE * 4))) 8 (mkfs_super_block K geo).n_1st_sect) 12
        K.NR_DEFAULT_FILE_SECTS))
    ((u32 (2 + (mkfs_super_block K geo).nr_imap_sects
      + (mkfs_super_block K geo).nr_smap_sects) : Nat) : Int)
    (3 + (mkfs_super_block K geo).nr_smap_sects) hdrv
    (by rw [hu]; exact sect_pos_nat _ (by omega))
  refine ⟨st1, h, h1, h2, h3, h4, fun d m p hp => hf d m p (by omega), ?_⟩
  intro a ha
  rw [hc a ha]
  unfold inode_sector
  apply foldl_tty_inode_local
  apply st32_local
  apply st32_local
  apply st32_local
  apply st32_local
  exact memset_zero_inside _ a ha

theorem mkfs_section5 (K : Config) (geo : part_info) (st : State)
    (hdrv : K.dd_map (MAJOR ROOT_DEV) ≠ INVALID_DRIVER) :
    ∃ st1, mkfs_root_dir K (mkfs_super_block K geo) st = .ok st1
      ∧ st1.inode_table = st.inode_table ∧ st1.super_block = st.super_block
      ∧ st1.f_desc_table = st.f_desc_table ∧ st1.proc_table = st.proc_table
      ∧ (∀ d m p, p < (259 + (mkfs_super_block K geo).nr_smap_sects) * 512
            ∨ (260 + (mkfs_super_block K geo).nr_smap_sects) * 512 ≤ p →
          st1.disk d m p = st.disk d m p) := by
  obtain ⟨hb1, hb2⟩ := smap_bound K geo
  obtain ⟨st1, h, h1, h2, h3, h4, hf, _⟩ := write_buf_sector K st ROOT_DEV
    ((List.range K.NR_CONSOLES).foldl (st_tty_entry K)
      (st_bytes (st32 (memset st.fsbuf 0 SECTOR_SIZE) 0 1) 4 [46, 0]))
    (((mkfs_super_block K geo).n_1st_sect : Nat) : Int)
    (259 + (mkfs_super_block K geo).nr_smap_sects) hdrv
    (by rw [n_1st_sect_val]; exact sect_pos_nat _ (by omega))
  exact ⟨st1, h, h1, h2, h3, h4, fun d m p hp => hf d m p (by omega)⟩

/-- The disk after `mkfs`: the superblock sector, the inode bitmap, the sector
bitmap and the first sector of the inode table. -/
theorem mkfs_disk (K : Config) (geo : part_info) (st : State) (hcons : K.NR_CONSOLES = 3)
    (hdrv : K.dd_map (MAJOR ROOT_DEV) ≠ INVALID_DRIVER) :
    ∃ st1, mkfs K geo st = .ok st1
      ∧ st1.inode_table = st.inode_table ∧ st1.super_block = st.super_block
      ∧ st1.f_desc_table = st.f_desc_table ∧ st1.proc_table = st.proc_table
      ∧ (∀ a : Nat, a < 512 →
          st1.disk (K.dd_map (MAJOR ROOT_DEV)) (MINOR ROOT_DEV) (512 + a) = sb_sector K geo a)
      ∧ (∀ a : Nat, a < 512 →
          st1.disk (K.dd_map (MAJOR ROOT_DEV)) (MINOR ROOT_DEV) (1024 + a)
            = if a = 0 then 0x1F else 0)
      ∧ (∀ a : Nat, a < 512 →
          st1.disk (K.dd_map (MAJOR ROOT_DEV)) (MINOR ROOT_DEV) (1536 + a) = smap_sector K a)
      ∧ (∀ i, 1 ≤ i → i < (mkfs_super_block K geo).nr_smap_sects → ∀ a : Nat, a < 512 →
          st1.disk (K.dd_map (MAJOR ROOT_DEV)) (MINOR ROOT_DEV) ((3 + i) * 512 + a) = 0)
      ∧ (∀ a : Nat, a < 512 →
          st1.disk (K.dd_map (MAJOR ROOT_DEV)) (MINOR ROOT_DEV)
            ((3 + (mkfs_super_block K geo).nr_smap_sects) * 512 + a) = inode_sector K geo a) := by
  obtain ⟨hb1, hb2⟩ := smap_bound K geo
  obtain ⟨s1, e1, a1, b1, c1, d1, f1, k1⟩ := mkfs_section1 K geo st hdrv
  obtain ⟨s2, e2, a2, b2, c2, d2, f2, k2⟩ := mkfs_section2 K s1 hcons hdrv
  obtain ⟨s3, e3, a3, b3, c3, d3, f3, k3, z3⟩ := mkfs_section3 K geo s2 hdrv
  obtain ⟨s4, e4, a4, b4, c4, d4, f4, k4⟩ := mkfs_section4 K geo s3 hdrv
  obtain ⟨s5, e5, a5, b5, c5, d5, f5⟩ := mkfs_section5 K geo s4 hdrv
  refine ⟨s5, ?_, ?_, ?_, ?_, ?_, ?_, ?_, ?_, ?_, ?_⟩
  · unfold mkfs
    rw [if_neg hdrv]
    simp only [bind, Except.bind, e1, e2, e3, e4, e5]
  · rw [a5, a4, a3, a2, a1]
  · rw [b5, b4, b3, b2, b1]
  · rw [c5, c4, c3, c2, c1]
  · rw [d5, d4, d3, d2, d1]
  · intro a ha
    rw [f5 _ _ _ (by omega), f4 _ _ _ (by omega), f3 _ _ _ (by omega), f2 _ _ _ (by omega)]
    exact k1 a ha
  · intro a ha
    rw [f5 _ _ _ (by omega), f4 _ _ _ (by omega), f3 _ _ _ (by omega)]
    exact k2 a ha
  · intro a ha
    rw [f5 _ _ _ (by omega), f4 _ _ _ (by omega)]
    exact k3 a ha
  · intro i hi1 hi2 a ha
    rw [f5 _ _ _ (by omega), f4 _ _ _ (by omega)]
    exact z3 i hi1 hi2 a ha
  · intro a ha
    rw [f5 _ _ _ (by omega)]
    exact k4 a ha

/-! ## Bitmap bytes -/

theorem set_low_bits_step (m : Int → Nat) (pos : Int) (n : Nat) :
    set_low_bits m pos (n + 1)
      = Function.update (set_low_bits m pos n) pos
          ((set_low_bits m pos n pos ||| 1 <<< n) % 256) := by
  unfold set_low_bits
  rw [List.range_succ, List.foldl_append]
  rfl

/-- The byte that the loop `fsbuf[at] |= 1 << i`, `i < n`, leaves from a zero
byte. -/
theorem set_low_bits_val (m : Int → Nat) (pos : Int) (h0 : m pos = 0) :
    ∀ n, set_low_bits m pos n pos = (2 ^ n - 1) % 256 := by
  intro n
  induction n with
  | zero => simp [set_low_bits, h0]
  | succ n ih =>
    rw [set_low_bits_step, Function.update_same, ih]
    have h256 : (256 : Nat) = 2 ^ 8 := by norm_num
    rw [h256]
    apply Nat.eq_of_testBit_eq
    intro i
    simp only [Nat.testBit_mod_two_pow, Nat.testBit_or, Nat.testBit_two_pow_sub_one,
      Nat.shiftLeft_eq, one_mul, Nat.testBit_two_pow]
    by_cases h1 : i < 8 <;> by_cases h2 : i < n <;> by_cases h3 : n = i <;>
      simp [h1, h2, h3] <;> omega

theorem low_bits_five_iff (k : Nat) : (2 ^ k - 1) % 256 = 31 ↔ k = 5 := by
  constructor
  · intro h
    by_cases hk : k < 8
    · interval_cases k <;> simp_all
    · exfalso
      have h256 : (256 : Nat) = 2 ^ 8 := by norm_num
      have hb : ((2 ^ k - 1) % 256).testBit 7 = true := by
        rw [h256, Nat.testBit_mod_two_pow, Nat.testBit_two_pow_sub_one]
        simp
        omega
      rw [h] at hb
      revert hb
      decide
  · intro h
    subst h
    rfl

/-! ## C11: `mkfs` and the usable space -/

theorem mkfs_no_driver (K : Config) (geo : part_info) (st : State)
    (hdrv : K.dd_map (MAJOR ROOT_DEV) = INVALID_DRIVER) :
    mkfs K geo st = .error .assert_driver := by
  unfold mkfs
  rw [if_pos hdrv]

theorem mkfs_consoles_fatal (K : Config) (geo : part_info) (st : State)
    (hdrv : K.dd_map (MAJOR ROOT_DEV) ≠ INVALID_DRIVER) (hcons : K.NR_CONSOLES ≠ 3) :
    mkfs K geo st = .error .assert_inode_bitmap := by
  obtain ⟨s1, e1, _⟩ := mkfs_section1 K geo st hdrv
  have hbyte : set_low_bits (memset s1.fsbuf 0 SECTOR_SIZE) 0 (K.NR_CONSOLES + 2) 0 ≠ 0x1F := by
    rw [set_low_bits_val _ 0 (by simp [memset, SECTOR_SIZE])]
    intro h
    have := (low_bits_five_iff _).mp h
    omega
  have e2 : mkfs_inode_map K s1 = .error .assert_inode_bitmap := by
    unfold mkfs_inode_map
    simp only [hbyte, ne_eq, not_false_eq_true, if_true]
  unfold mkfs
  rw [if_neg hdrv]
  simp only [bind, Except.bind, e1, e2]

/-- A volume of 100 sectors: the computed first data sector is 260, so no data
sector is usable, and `mkfs` completes. -/
theorem mkfs_small_volume_completes :
    (mkfs_super_block sample_config { base := 0, size := 100 }).nr_sects
        ≤ (mkfs_super_block sample_config { base := 0, size := 100 }).n_1st_sect
      ∧ ∃ st1, mkfs sample_config { base := 0, size := 100 } sample_state = .ok st1 := by
  refine ⟨by decide, ?_⟩
  obtain ⟨st1, h, _⟩ := mkfs_disk sample_config { base := 0, size := 100 } sample_state rfl
    (by decide)
  exact ⟨st1, h⟩

/-- C11 (as amended): `mkfs` never looks at the usable space.  For every
geometry, also one whose sector count does not exceed the computed first data
sector, `mkfs` completes the format exactly when the driver of the root device
is mapped and there are three consoles; its fatal paths are the assertion on
the driver and the assertion on the first byte of the inode bitmap, and
neither depends on the geometry. -/
theorem mkfs_geometry_blind (K : Config) (geo : part_info) (st : State) :
    ((∃ st1, mkfs K geo st = .ok st1)
        ↔ (K.dd_map (MAJOR ROOT_DEV) ≠ INVALID_DRIVER ∧ K.NR_CONSOLES = 3))
      ∧ (mkfs K geo st = .error .assert_driver ↔ K.dd_map (MAJOR ROOT_DEV) = INVALID_DRIVER)
      ∧ (mkfs K geo st = .error .assert_inode_bitmap
          ↔ (K.dd_map (MAJOR ROOT_DEV) ≠ INVALID_DRIVER ∧ K.NR_CONSOLES ≠ 3)) := by
  by_cases hdrv : K.dd_map (MAJOR ROOT_DEV) = INVALID_DRIVER
  · have h := mkfs_no_driver K geo st hdrv
    rw [h]
    simp [hdrv]
  · by_cases hcons : K.NR_CONSOLES = 3
    · obtain ⟨st1, h, _⟩ := mkfs_disk K geo st hcons hdrv
      rw [h]
      simp [hdrv, hcons]
    · have h := mkfs_consoles_fatal K geo st hdrv hcons
      rw [h]
      simp [hdrv, hcons]

theorem mkfs_geometry_blind_witness :
    ∃ st1, mkfs sample_config { base := 0, size := 20000 } sample_state = .ok st1 :=
  (mkfs_geometry_blind sample_config { base := 0, size := 20000 } sample_state).1.mpr
    ⟨by decide, rfl⟩

/-! ## C17: the sector bitmap -/

theorem foldl_update_val (v : Nat) (a : Int) (l : List Int) :
    ∀ m : Int → Nat,
      (l.foldl (fun m i => Function.update m i v) m) a = if a ∈ l then v else m a := by
  induction l with
  | nil => intro m; simp
  | cons x l ih =>
    intro m
    rw [List.foldl_cons, ih]
    by_cases h1 : a ∈ l
    · simp [h1]
    · by_cases h2 : a = x
      · subst h2
        simp [h1]
      · simp [h1, h2]

theorem fill_ff_val (m : Int → Nat) (n a : Nat) :
    fill_ff m n (a : Int) = if a < n then 0xFF else m a := by
  unfold fill_ff
  rw [foldl_update_val]
  have hmem : ((a : Int) ∈ (do let k ← List.range n; pure ((k : Nat) : Int) : List Int)) ↔ a < n := by
    simp
  by_cases h : a < n
  · rw [if_pos (hmem.mpr h), if_pos h]
  · rw [if_neg (fun hc => h (hmem.mp hc)), if_neg h]

/-- The bytes of the first sector of the sector bitmap. -/
theorem smap_sector_val (K : Config) (a : Nat) :
    smap_sector K (a : Int)
      = if a < (K.NR_DEFAULT_FILE_SECTS + 1) / 8 then 0xFF
        else if a = (K.NR_DEFAULT_FILE_SECTS + 1) / 8
          then (2 ^ ((K.NR_DEFAULT_FILE_SECTS + 1) % 8) - 1) % 256
        else 0 := by
  unfold smap_sector
  by_cases h1 : a = (K.NR_DEFAULT_FILE_SECTS + 1) / 8
  · subst h1
    rw [set_low_bits_val _ _ (by rw [fill_ff_val]; simp)]
    simp
  · rw [set_low_bits_other _ _ _ _ (by omega), fill_ff_val]
    simp [h1]

theorem smap_sector_bit (K : Config) (b : Nat) :
    (smap_sector K ((b / 8 : Nat) : Int)).testBit (b % 8)
      = decide (b < K.NR_DEFAULT_FILE_SECTS + 1) := by
  rw [smap_sector_val]
  have h8 : b % 8 < 8 := Nat.mod_lt _ (by norm_num)
  by_cases h1 : b / 8 < (K.NR_DEFAULT_FILE_SECTS + 1) / 8
  · rw [if_pos h1]
    have h255 : (0xFF : Nat) = 2 ^ 8 - 1 := by norm_num
    rw [h255, Nat.testBit_two_pow_sub_one]
    have : b < K.NR_DEFAULT_FILE_SECTS + 1 := by omega
    simp [h8, this]
  · rw [if_neg h1]
    by_cases h2 : b / 8 = (K.NR_DEFAULT_FILE_SECTS + 1) / 8
    · rw [if_pos h2]
      have h256 : (256 : Nat) = 2 ^ 8 := by norm_num
      rw [h256, Nat.testBit_mod_two_pow, Nat.testBit_two_pow_sub_one]
      have : (b % 8 < (K.NR_DEFAULT_FILE_SECTS + 1) % 8) ↔ b < K.NR_DEFAULT_FILE_SECTS + 1 := by
        omega
      simp [h8, this]
    · rw [if_neg h2]
      have : ¬ b < K.NR_DEFAULT_FILE_SECTS + 1 := by omega
      simp [this]

/-- C17: after `mkfs`, in the first sector of the sector bitmap (sector
`2 + nr_imap_sects`) bit `b`, which is bit `b % 8` of byte `b / 8`, is set
exactly when `b < NR_DEFAULT_FILE_SECTS + 1` (the reserved bit 0 and one bit
per sector of the extent of the root directory), and every other sector of the
sector bitmap (indices 1 to `nr_smap_sects - 1`) holds zero bytes only. -/
theorem mkfs_sector_bitmap (K : Config) (geo : part_info) (st : State)
    (hcons : K.NR_CONSOLES = 3) (hdrv : K.dd_map (MAJOR ROOT_DEV) ≠ INVALID_DRIVER) :
    ∃ st1, mkfs K geo st = .ok st1
      ∧ (∀ b, b < SECTOR_SIZE * 8 →
          (st1.disk (K.dd_map (MAJOR ROOT_DEV)) (MINOR ROOT_DEV)
              ((2 + (mkfs_super_block K geo).nr_imap_sects) * SECTOR_SIZE + b / 8)).testBit (b % 8)
            = decide (b < K.NR_DEFAULT_FILE_SECTS + 1))
      ∧ (∀ i, 1 ≤ i → i < (mkfs_super_block K geo).nr_smap_sects →
          ∀ a, a < SECTOR_SIZE →
            st1.disk (K.dd_map (MAJOR ROOT_DEV)) (MINOR ROOT_DEV)
              ((2 + (mkfs_super_block K geo).nr_imap_sects + i) * SECTOR_SIZE + a) = 0) := by
  obtain ⟨st1, h, _, _, _, _, _, _, k3, z3, _⟩ := mkfs_disk K geo st hcons hdrv
  have himap : (mkfs_super_block K geo).nr_imap_sects = 1 := rfl
  have hs : SECTOR_SIZE = 512 := rfl
  refine ⟨st1, h, ?_, ?_⟩
  · intro b hb
    rw [himap, hs] at *
    have hk := k3 (b / 8) (by omega)
    have he : (2 + 1) * 512 + b / 8 = 1536 + b / 8 := by omega
    rw [he, hk]
    exact smap_sector_bit K b
  · intro i hi1 hi2 a ha
    rw [himap, hs] at *
    have hz := z3 i hi1 hi2 a ha
    have he : (2 + 1 + i) * 512 + a = (3 + i) * 512 + a := by omega
    rw [he]
    exact hz

theorem mkfs_sector_bitmap_witness :
    ∃ st1, mkfs sample_config { base := 0, size := 20000 } sample_state = .ok st1
      ∧ (∀ b, b < SECTOR_SIZE * 8 →
          (st1.disk (sample_config.dd_map (MAJOR ROOT_DEV)) (MINOR ROOT_DEV)
              ((2 + (mkfs_super_block sample_config { base := 0, size := 20000 }).nr_imap_sects)
                * SECTOR_SIZE + b / 8)).testBit (b % 8)
            = decide (b < sample_config.NR_DEFAULT_FILE_SECTS + 1))
      ∧ (∀ i, 1 ≤ i →
          i < (mkfs_super_block sample_config { base := 0, size := 20000 }).nr_smap_sects →
          ∀ a, a < SECTOR_SIZE →
            st1.disk (sample_config.dd_map (MAJOR ROOT_DEV)) (MINOR ROOT_DEV)
              ((2 + (mkfs_super_block sample_config { base := 0, size := 20000 }).nr_imap_sects + i)
                * SECTOR_SIZE + a) = 0) :=
  mkfs_sector_bitmap sample_config { base := 0, size := 20000 } sample_state rfl (by decide)

/-! ## C18: the superblock read back -/

/-- Reading back the record that `memcpy(fsbuf, &sb, SUPER_BLOCK_SIZE)` stored:
the first eight fields. -/
theorem ld32_st_super_block (m : Int → Nat) (sb : super_block) :
    ld32 (st_super_block m sb) 0 = sb.magic % 4294967296
      ∧ ld32 (st_super_block m sb) 4 = sb.nr_inodes % 4294967296
      ∧ ld32 (st_super_block m sb) 8 = sb.nr_inode_sects % 4294967296
      ∧ ld32 (st_super_block m sb) 12 = sb.nr_sects % 4294967296
      ∧ ld32 (st_super_block m sb) 16 = sb.nr_imap_sects % 4294967296
      ∧ ld32 (st_super_block m sb) 20 = sb.nr_smap_sects % 4294967296
      ∧ ld32 (st_super_block m sb) 24 = sb.n_1st_sect % 4294967296
      ∧ ld32 (st_super_block m sb) 28 = sb.root_inode % 4294967296 := by
  simp only [st_super_block]
  refine ⟨?_, ?_, ?_, ?_, ?_, ?_, ?_, ?_⟩
  · rw [ld32_st32_other _ _ _ _ (by omega), ld32_st32_other _ _ _ _ (by omega),
      ld32_st32_other _ _ _ _ (by omega), ld32_st32_other _ _ _ _ (by omega),
      ld32_st32_other _ _ _ _ (by omega), ld32_st32_other _ _ _ _ (by omega),
      ld32_st32_other _ _ _ _ (by omega), ld32_st32_other _ _ _ _ (by omega),
      ld32_st32_other _ _ _ _ (by omega), ld32_st32_other _ _ _ _ (by omega),
      ld32_st32_other _ _ _ _ (by omega), ld32_st32_other _ _ _ _ (by omega),
      ld32_st32_other _ _ _ _ (by omega), ld32_st32_same]
  · rw [ld32_st32_other _ _ _ _ (by omega), ld32_st32_other _ _ _ _ (by omega),
      ld32_st32_other _ _ _ _ (by omega), ld32_st32_other _ _ _ _ (by omega),
      ld32_st32_other _ _ _ _ (by omega), ld32_st32_other _ _ _ _ (by omega),
      ld32_st32_other _ _ _ _ (by omega), ld32_st32_other _ _ _ _ (by omega),
      ld32_st32_other _ _ _ _ (by omega), ld32_st32_other _ _ _ _ (by omega),
      ld32_st32_other _ _ _ _ (by omega), ld32_st32_other _ _ _ _ (by omega),
      ld32_st32_same]
  · rw [ld32_st32_other _ _ _ _ (by omega), ld32_st32_other _ _ _ _ (by omega),
      ld32_st32_other _ _ _ _ (by omega), ld32_st32_other _ _ _ _ (by omega),
      ld32_st32_other _ _ _ _ (by omega), ld32_st32_other _ _ _ _ (by omega),
      ld32_st32_other _ _ _ _ (by omega), ld32_st32_other _ _ _ _ (by omega),
      ld32_st32_other _ _ _ _ (by omega), ld32_st32_other _ _ _ _ (by omega),
      ld32_st32_other _ _ _ _ (by omega), ld32_st32_same]
  · rw [ld32_st32_other _ _ _ _ (by omega), ld32_st32_other _ _ _ _ (by omega),
      ld32_st32_other _ _ _ _ (by omega), ld32_st32_other _ _ _ _ (by omega),
      ld32_st32_other _ _ _ _ (by omega), ld32_st32_other _ _ _ _ (by omega),
      ld32_st32_other _ _ _ _ (by omega), ld32_st32_other _ _ _ _ (by omega),
      ld32_st32_other _ _ _ _ (by omega), ld32_st32_other _ _ _ _ (by omega),
      ld32_st32_same]
  · rw [ld32_st32_other _ _ _ _ (by omega), ld32_st32_other _ _ _ _ (by omega),
      ld32_st32_other _ _ _ _ (by omega), ld32_st32_other _ _ _ _ (by omega),
      ld32_st32_other _ _ _ _ (by omega), ld32_st32_other _ _ _ _ (by omega),
      ld32_st32_other _ _ _ _ (by omega), ld32_st32_other _ _ _ _ (by omega),
      ld32_st32_other _ _ _ _ (by omega), ld32_st32_same]
  · rw [ld32_st32_other _ _ _ _ (by omega), ld32_st32_other _ _ _ _ (by omega),
      ld32_st32_other _ _ _ _ (by omega), ld32_st32_other _ _ _ _ (by omega),
      ld32_st32_other _ _ _ _ (by omega), ld32_st32_other _ _ _ _ (by omega),
      ld32_st32_other _ _ _ _ (by omega), ld32_st32_other _ _ _ _ (by omega),
      ld32_st32_same]
  · rw [ld32_st32_other _ _ _ _ (by omega), ld32_st32_other _ _ _ _ (by omega),
      ld32_st32_other _ _ _ _ (by omega), ld32_st32_other _ _ _ _ (by omega),
      ld32_st32_other _ _ _ _ (by omega), ld32_st32_other _ _ _ _ (by omega),
      ld32_st32_other _ _ _ _ (by omega), ld32_st32_same]
  · rw [ld32_st32_other _ _ _ _ (by omega), ld32_st32_other _ _ _ _ (by omega),
      ld32_st32_other _ _ _ _ (by omega), ld32_st32_other _ _ _ _ (by omega),
      ld32_st32_other _ _ _ _ (by omega), ld32_st32_other _ _ _ _ (by omega),
      ld32_st32_same]

/-- What `read_super_block` finds in `fsbuf` when sector 1 of the root device
holds the bytes `sec`. -/
theorem fsbuf_after_read_one (K : Config) (st : State) (sec : Int → Nat)
    (hk : ∀ a : Nat, a < 512 →
      st.disk (K.dd_map (MAJOR ROOT_DEV)) (MINOR ROOT_DEV) (512 + a) = sec a)
    (x : Int) (h0 : 0 ≤ x) (h1 : x < 512) :
    fsbuf_after_read K st ROOT_DEV 1 x = sec x := by
  have hs : ((SECTOR_SIZE : Nat) : Int) = 512 := by decide
  have hp : sect_pos 1 = 512 := by decide
  unfold fsbuf_after_read
  rw [if_pos ⟨h0, by rw [hs]; exact h1⟩, hp, hk x.toNat (by omega), Int.toNat_of_nonneg h0]

theorem ld32_after_read_one (K : Config) (st : State) (sec : Int → Nat)
    (hk : ∀ a : Nat, a < 512 →
      st.disk (K.dd_map (MAJOR ROOT_DEV)) (MINOR ROOT_DEV) (512 + a) = sec a)
    (o : Int) (h0 : 0 ≤ o) (h1 : o ≤ 508) :
    ld32 (fsbuf_after_read K st ROOT_DEV 1) o = ld32 sec o := by
  apply ld32_congr
  intro k hk1 hk2
  exact fsbuf_after_read_one K st sec hk (o + k) (by omega) (by omega)

theorem get_super_block_loaded (K : Config) (st : State) (dev : Int)
    (hnr : 0 < K.NR_SUPER_BLOCK) :
    get_super_block K (load_state K st dev) dev = .ok 0 := by
  have hfind := find_range_first
    (fun i => decide (((load_state K st dev).super_block i).sb_dev = dev))
    K.NR_SUPER_BLOCK 0 hnr (by simp [load_state]) (by intro j hj; omega)
  unfold get_super_block
  rw [hfind]

/-- The registry record that `read_super_block(ROOT_DEV)` stores after `mkfs`. -/
theorem mkfs_then_load (K : Config) (geo : part_info) (st : State)
    (hcons : K.NR_CONSOLES = 3) (hdrv : K.dd_map (MAJOR ROOT_DEV) ≠ INVALID_DRIVER)
    (hnr : 0 < K.NR_SUPER_BLOCK) (h0 : (st.super_block 0).sb_dev = K.NO_DEV) :
    ∃ st1, mkfs K geo st = .ok st1
      ∧ read_super_block K st1 ROOT_DEV = .ok (load_state K st1 ROOT_DEV)
      ∧ get_super_block K (load_state K st1 ROOT_DEV) ROOT_DEV = .ok 0
      ∧ st1.inode_table = st.inode_table
      ∧ (∀ a : Nat, a < 512 →
          st1.disk (K.dd_map (MAJOR ROOT_DEV)) (MINOR ROOT_DEV)
            ((3 + (mkfs_super_block K geo).nr_smap_sects) * 512 + a) = inode_sector K geo a)
      ∧ ((load_state K st1 ROOT_DEV).super_block 0).magic = K.MAGIC_V1 % 4294967296
      ∧ ((load_state K st1 ROOT_DEV).super_block 0).nr_inodes
          = (mkfs_super_block K geo).nr_inodes
      ∧ ((load_state K st1 ROOT_DEV).super_block 0).nr_inode_sects
          = (mkfs_super_block K geo).nr_inode_sects
      ∧ ((load_state K st1 ROOT_DEV).super_block 0).nr_sects
          = (mkfs_super_block K geo).nr_sects
      ∧ ((load_state K st1 ROOT_DEV).super_block 0).nr_imap_sects
          = (mkfs_super_block K geo).nr_imap_sects
      ∧ ((load_state K st1 ROOT_DEV).super_block 0).nr_smap_sects
          = (mkfs_super_block K geo).nr_smap_sects
      ∧ ((load_state K st1 ROOT_DEV).super_block 0).n_1st_sect
          = (mkfs_super_block K geo).n_1st_sect
      ∧ ((load_state K st1 ROOT_DEV).super_block 0).root_inode = K.ROOT_INODE % 4294967296
      ∧ ((load_state K st1 ROOT_DEV).super_block 0).sb_dev = ROOT_DEV := by
  obtain ⟨hb1, hb2⟩ := smap_bound K geo
  obtain ⟨st1, h, hit, hsb, _, _, k1, _, _, _, k4⟩ := mkfs_disk K geo st hcons hdrv
  have hload := read_super_block_ok K st1 ROOT_DEV hdrv hnr (by rw [hsb]; exact h0)
  obtain ⟨e0, e4, e8, e12, e16, e20, e24, e28⟩ :=
    ld32_st_super_block (fun _ => 0x90) (mkfs_super_block K geo)
  have hld : ∀ o : Int, 0 ≤ o → o ≤ 508 →
      ld32 (fsbuf_after_read K st1 ROOT_DEV 1) o = ld32 (sb_sector K geo) o :=
    fun o ho1 ho2 => ld32_after_read_one K st1 (sb_sector K geo) k1 o ho1 ho2
  have hslot : (load_state K st1 ROOT_DEV).super_block 0
      = { ld_super_block (fsbuf_after_read K st1 ROOT_DEV 1) with sb_dev := ROOT_DEV } := by
    simp [load_state]
  refine ⟨st1, h, hload, get_super_block_loaded K st1 ROOT_DEV hnr, hit, k4, ?_, ?_, ?_, ?_, ?_,
    ?_, ?_, ?_, ?_⟩
  · rw [hslot]
    show ld32 (fsbuf_after_read K st1 ROOT_DEV 1) 0 = _
    rw [hld 0 (by omega) (by omega)]
    unfold sb_sector
    rw [e0]
    rfl
  · rw [hslot]
    show ld32 (fsbuf_after_read K st1 ROOT_DEV 1) 4 = _
    rw [hld 4 (by omega) (by omega)]
    unfold sb_sector
    rw [e4, nr_inodes_val]
  · rw [hslot]
    show ld32 (fsbuf_after_read K st1 ROOT_DEV 1) 8 = _
    rw [hld 8 (by omega) (by omega)]
    unfold sb_sector
    rw [e8, nr_inode_sects_val]
  · rw [hslot]
    show ld32 (fsbuf_after_read K st1 ROOT_DEV 1) 12 = _
    rw [hld 12 (by omega) (by omega)]
    unfold sb_sector
    rw [e12]
    exact Nat.mod_mod _ _
  · rw [hslot]
    show ld32 (fsbuf_after_read K st1 ROOT_DEV 1) 16 = _
    rw [hld 16 (by omega) (by omega)]
    unfold sb_sector
    rw [e16]
    rfl
  · rw [hslot]
    show ld32 (fsbuf_after_read K st1 ROOT_DEV 1) 20 = _
    rw [hld 20 (by omega) (by omega)]
    unfold sb_sector
    rw [e20]
    exact Nat.mod_eq_of_lt (by omega)
  · rw [hslot]
    show ld32 (fsbuf_after_read K st1 ROOT_DEV 1) 24 = _
    rw [hld 24 (by omega) (by omega)]
    unfold sb_sector
    rw [e24, n_1st_sect_val]
    exact Nat.mod_eq_of_lt (by omega)
  · rw [hslot]
    show ld32 (fsbuf_after_read K st1 ROOT_DEV 1) 28 = _
    rw [hld 28 (by omega) (by omega)]
    unfold sb_sector
    rw [e28]
    rfl
  · rw [hslot]

theorem init_tables_cache_empty (K : Config) (n : Nat) (st : State) (j : Nat)
    (hj : j < K.NR_INODE) : ((init_tables K n st).inode_table j).i_cnt = 0 := by
  simp [init_tables, hj]

/-- The assertion `sb->magic == MAGIC_V1` of `init_fs` holds: `init_fs` does
not end at it. -/
theorem init_fs_magic (K : Config) (n : Nat) (geo : part_info) (st : State)
    (hcons : K.NR_CONSOLES = 3) (hdrv : K.dd_map (MAJOR ROOT_DEV) ≠ INVALID_DRIVER)
    (hmagic : K.MAGIC_V1 < 4294967296) (hnr : 0 < K.NR_SUPER_BLOCK) :
    init_fs K n geo st ≠ .error .assert_magic := by
  obtain ⟨s1, hm, hl, hg, hit, _, hmag, _⟩ := mkfs_then_load K geo (init_tables K n st) hcons hdrv
    hnr (by simp [init_tables, hnr])
  rw [Nat.mod_eq_of_lt hmagic] at hmag
  have hcnt : ∀ j, j < K.NR_INODE → ((load_state K s1 ROOT_DEV).inode_table j).i_cnt = 0 := by
    intro j hj
    show (s1.inode_table j).i_cnt = 0
    rw [hit]
    exact init_tables_cache_empty K n st j hj
  unfold init_fs
  simp only [if_neg hdrv, hm, hl, hg, hmag, ne_eq, not_true_eq_false, if_false]
  by_cases hnum : ((K.ROOT_INODE : Nat) : Int) = 0
  · have hget : get_inode K (load_state K s1 ROOT_DEV) ROOT_DEV K.ROOT_INODE
        = .ok (none, load_state K s1 ROOT_DEV) := by
      unfold get_inode
      rw [if_pos hnum]
    rw [hget]
    simp
  · by_cases hni : 0 < K.NR_INODE
    · have hget := get_inode_miss K (load_state K s1 ROOT_DEV) ROOT_DEV K.ROOT_INODE 0 0 hnum
        (by intro j hj hc; exact hc.1 (hcnt j hj)) hni (hcnt 0 hni) (by intro j hj; omega) hg hdrv
      rw [hget]
      simp
    · have hget := get_inode_full K (load_state K s1 ROOT_DEV) ROOT_DEV K.ROOT_INODE hnum
        (by intro j hj; omega) (by intro j hj; omega)
      rw [hget]
      simp

/-- C18: on a device that returns on read what was last written, after `mkfs`
the call `read_super_block(ROOT_DEV)` succeeds and `get_super_block(ROOT_DEV)`
then yields a record whose magic is `MAGIC_V1`, whose inode count, inode-table
sector count, total sector count, bitmap sector counts, first data sector and
root inode number are the values `mkfs` computed, and whose `sb_dev` is
`ROOT_DEV`; and `init_fs` never ends at its assertion `sb->magic == MAGIC_V1`.
The driver of the root device is mapped, there are three consoles (the
assertion of `mkfs` on the inode bitmap), `MAGIC_V1` and `ROOT_INODE` are
values of the 32-bit fields that carry them, and the first registry slot is
unused when `read_super_block` runs. -/
theorem super_block_round_trip (K : Config) (geo : part_info) (st : State)
    (hcons : K.NR_CONSOLES = 3) (hdrv : K.dd_map (MAJOR ROOT_DEV) ≠ INVALID_DRIVER)
    (hmagic : K.MAGIC_V1 < 4294967296) (hroot : K.ROOT_INODE < 4294967296)
    (hnr : 0 < K.NR_SUPER_BLOCK) (h0 : (st.super_block 0).sb_dev = K.NO_DEV) :
    (∃ st1 st2 i, mkfs K geo st = .ok st1
      ∧ read_super_block K st1 ROOT_DEV = .ok st2
      ∧ get_super_block K st2 ROOT_DEV = .ok i
      ∧ (st2.super_block i).magic = K.MAGIC_V1
      ∧ (st2.super_block i).nr_inodes = (mkfs_super_block K geo).nr_inodes
      ∧ (st2.super_block i).nr_inode_sects = (mkfs_super_block K geo).nr_inode_sects
      ∧ (st2.super_block i).nr_sects = (mkfs_super_block K geo).nr_sects
      ∧ (st2.super_block i).nr_imap_sects = (mkfs_super_block K geo).nr_imap_sects
      ∧ (st2.super_block i).nr_smap_sects = (mkfs_super_block K geo).nr_smap_sects
      ∧ (st2.super_block i).n_1st_sect = (mkfs_super_block K geo).n_1st_sect
      ∧ (st2.super_block i).root_inode = (mkfs_super_block K geo).root_inode
      ∧ (st2.super_block i).sb_dev = ROOT_DEV)
    ∧ ∀ (n : Nat) (st0 : State), init_fs K n geo st0 ≠ .error .assert_magic := by
  obtain ⟨st1, hm, hl, hg, _, _, f1, f2, f3, f4, f5, f6, f7, f8, f9⟩ :=
    mkfs_then_load K geo st hcons hdrv hnr h0
  rw [Nat.mod_eq_of_lt hmagic] at f1
  rw [Nat.mod_eq_of_lt hroot] at f8
  exact ⟨⟨st1, load_state K st1 ROOT_DEV, 0, hm, hl, hg, f1, f2, f3, f4, f5, f6, f7, f8, f9⟩,
    fun n st0 => init_fs_magic K n geo st0 hcons hdrv hmagic hnr⟩

theorem super_block_round_trip_witness :
    (∃ st1 st2 i, mkfs sample_config { base := 0, size := 20000 } fresh_state = .ok st1
      ∧ read_super_block sample_config st1 ROOT_DEV = .ok st2
      ∧ get_super_block sample_config st2 ROOT_DEV = .ok i
      ∧ (st2.super_block i).magic = 273
      ∧ (st2.super_block i).nr_inodes = 4096
      ∧ (st2.super_block i).nr_inode_sects = 256
      ∧ (st2.super_block i).nr_sects = 20000
      ∧ (st2.super_block i).nr_imap_sects = 1
      ∧ (st2.super_block i).nr_smap_sects = 5
      ∧ (st2.super_block i).n_1st_sect = 264
      ∧ (st2.super_block i).root_inode = 1
      ∧ (st2.super_block i).sb_dev = ROOT_DEV)
    ∧ ∀ (n : Nat) (st0 : State),
        init_fs sample_config n { base := 0, size := 20000 } st0 ≠ .error .assert_magic :=
  super_block_round_trip sample_config { base := 0, size := 20000 } fresh_state rfl (by decide)
    (by decide) (by decide) (by decide) rfl

/-! ## C16: the inode records read back -/

/-- The first sector of the inode table with three consoles, store by store. -/
theorem inode_sector_three (K : Config) (geo : part_info) (hcons : K.NR_CONSOLES = 3) :
    inode_sector K geo
      = st32 (st32 (st32 (st32 (st32 (st32 (st32 (st32 (st32 (st32 (st32 (st32 (st32 (st32 (st32
        (st32 (fun _ => 0) 0 K.I_DIRECTORY) 4 (u32 (K.DIR_ENTRY_SIZE * 4))) 8 (mkfs_super_block K
        geo).n_1st_sect) 12 K.NR_DEFAULT_FILE_SECTS) 32 K.I_CHAR_SPECIAL) 36 0) 40 (MAKE_DEV
        K.DEV_CHAR_TTY 0)) 44 0) 64 K.I_CHAR_SPECIAL) 68 0) 72 (MAKE_DEV K.DEV_CHAR_TTY 1)) 76 0) 96
        K.I_CHAR_SPECIAL) 100 0) 104 (MAKE_DEV K.DEV_CHAR_TTY 2)) 108 0 := by
  unfold inode_sector
  rw [hcons]
  rfl

/-- The sixteen fields of the first four inode records that `mkfs` writes. -/
theorem inode_sector_fields (K : Config) (geo : part_info) (hcons : K.NR_CONSOLES = 3) :
    ld32 (inode_sector K geo) 0 = K.I_DIRECTORY % 4294967296
      ∧ ld32 (inode_sector K geo) 4 = u32 (K.DIR_ENTRY_SIZE * 4) % 4294967296
      ∧ ld32 (inode_sector K geo) 8 = (mkfs_super_block K geo).n_1st_sect % 4294967296
      ∧ ld32 (inode_sector K geo) 12 = K.NR_DEFAULT_FILE_SECTS % 4294967296
      ∧ ∀ N : Nat, N < 3 →
          ld32 (inode_sector K geo) (32 * (N + 1)) = K.I_CHAR_SPECIAL % 4294967296
          ∧ ld32 (inode_sector K geo) (32 * (N + 1) + 4) = 0
          ∧ ld32 (inode_sector K geo) (32 * (N + 1) + 8)
              = MAKE_DEV K.DEV_CHAR_TTY N % 4294967296
          ∧ ld32 (inode_sector K geo) (32 * (N + 1) + 12) = 0 := by
  rw [inode_sector_three K geo hcons]
  refine ⟨?_, ?_, ?_, ?_, ?_⟩
  · rw [ld32_st32_other _ _ _ _ (by omega), ld32_st32_other _ _ _ _ (by omega),
      ld32_st32_other _ _ _ _ (by omega), ld32_st32_other _ _ _ _ (by omega),
      ld32_st32_other _ _ _ _ (by omega), ld32_st32_other _ _ _ _ (by omega),
      ld32_st32_other _ _ _ _ (by omega), ld32_st32_other _ _ _ _ (by omega),
      ld32_st32_other _ _ _ _ (by omega), ld32_st32_other _ _ _ _ (by omega),
      ld32_st32_other _ _ _ _ (by omega), ld32_st32_other _ _ _ _ (by omega),
      ld32_st32_other _ _ _ _ (by omega), ld32_st32_other _ _ _ _ (by omega),
      ld32_st32_other _ _ _ _ (by omega), ld32_st32_same]
  · rw [ld32_st32_other _ _ _ _ (by omega), ld32_st32_other _ _ _ _ (by omega),
      ld32_st32_other _ _ _ _ (by omega), ld32_st32_other _ _ _ _ (by omega),
      ld32_st32_other _ _ _ _ (by omega), ld32_st32_other _ _ _ _ (by omega),
      ld32_st32_other _ _ _ _ (by omega), ld32_st32_other _ _ _ _ (by omega),
      ld32_st32_other _ _ _ _ (by omega), ld32_st32_other _ _ _ _ (by omega),
      ld32_st32_other _ _ _ _ (by omega), ld32_st32_other _ _ _ _ (by omega),
      ld32_st32_other _ _ _ _ (by omega), ld32_st32_other _ _ _ _ (by omega),
      ld32_st32_same]
  · rw [ld32_st32_other _ _ _ _ (by omega), ld32_st32_other _ _ _ _ (by omega),
      ld32_st32_other _ _ _ _ (by omega), ld32_st32_other _ _ _ _ (by omega),
      ld32_st32_other _ _ _ _ (by omega), ld32_st32_other _ _ _ _ (by omega),
      ld32_st32_other _ _ _ _ (by omega), ld32_st32_other _ _ _ _ (by omega),
      ld32_st32_other _ _ _ _ (by omega), ld32_st32_other _ _ _ _ (by omega),
      ld32_st32_other _ _ _ _ (by omega), ld32_st32_other _ _ _ _ (by omega),
      ld32_st32_other _ _ _ _ (by omega), ld32_st32_same]
  · rw [ld32_st32_other _ _ _ _ (by omega), ld32_st32_other _ _ _ _ (by omega),
      ld32_st32_other _ _ _ _ (by omega), ld32_st32_other _ _ _ _ (by omega),
      ld32_st32_other _ _ _ _ (by omega), ld32_st32_other _ _ _ _ (by omega),
      ld32_st32_other _ _ _ _ (by omega), ld32_st32_other _ _ _ _ (by omega),
      ld32_st32_other _ _ _ _ (by omega), ld32_st32_other _ _ _ _ (by omega),
      ld32_st32_other _ _ _ _ (by omega), ld32_st32_other _ _ _ _ (by omega),
      ld32_st32_same]
  · intro N hN
    have hN3 : N = 0 ∨ N = 1 ∨ N = 2 := by omega
    rcases hN3 with h | h | h <;> subst h
    · refine ⟨?_, ?_, ?_, ?_⟩
      · show ld32 _ 32 = _
        rw [ld32_st32_other _ _ _ _ (by omega), ld32_st32_other _ _ _ _ (by omega),
          ld32_st32_other _ _ _ _ (by omega), ld32_st32_other _ _ _ _ (by omega),
          ld32_st32_other _ _ _ _ (by omega), ld32_st32_other _ _ _ _ (by omega),
          ld32_st32_other _ _ _ _ (by omega), ld32_st32_other _ _ _ _ (by omega),
          ld32_st32_other _ _ _ _ (by omega), ld32_st32_other _ _ _ _ (by omega),
          ld32_st32_other _ _ _ _ (by omega), ld32_st32_same]
      · show ld32 _ 36 = _
        rw [ld32_st32_other _ _ _ _ (by omega), ld32_st32_other _ _ _ _ (by omega),
          ld32_st32_other _ _ _ _ (by omega), ld32_st32_other _ _ _ _ (by omega),
          ld32_st32_other _ _ _ _ (by omega), ld32_st32_other _ _ _ _ (by omega),
          ld32_st32_other _ _ _ _ (by omega), ld32_st32_other _ _ _ _ (by omega),
          ld32_st32_other _ _ _ _ (by omega), ld32_st32_other _ _ _ _ (by omega),
          ld32_st32_same]
      · show ld32 _ 40 = _
        rw [ld32_st32_other _ _ _ _ (by omega), ld32_st32_other _ _ _ _ (by omega),
          ld32_st32_other _ _ _ _ (by omega), ld32_st32_other _ _ _ _ (by omega),
          ld32_st32_other _ _ _ _ (by omega), ld32_st32_other _ _ _ _ (by omega),
          ld32_st32_other _ _ _ _ (by omega), ld32_st32_other _ _ _ _ (by omega),
          ld32_st32_other _ _ _ _ (by omega), ld32_st32_same]
      · show ld32 _ 44 = _
        rw [ld32_st32_other _ _ _ _ (by omega), ld32_st32_other _ _ _ _ (by omega),
          ld32_st32_other _ _ _ _ (by omega), ld32_st32_other _ _ _ _ (by omega),
          ld32_st32_other _ _ _ _ (by omega), ld32_st32_other _ _ _ _ (by omega),
          ld32_st32_other _ _ _ _ (by omega), ld32_st32_other _ _ _ _ (by omega),
          ld32_st32_same]
    · refine ⟨?_, ?_, ?_, ?_⟩
      · show ld32 _ 64 = _
        rw [ld32_st32_other _ _ _ _ (by omega), ld32_st32_other _ _ _ _ (by omega),
          ld32_st32_other _ _ _ _ (by omega), ld32_st32_other _ _ _ _ (by omega),
          ld32_st32_other _ _ _ _ (by omega), ld32_st32_other _ _ _ _ (by omega),
          ld32_st32_other _ _ _ _ (by omega), ld32_st32_same]
      · show ld32 _ 68 = _
        rw [ld32_st32_other _ _ _ _ (by omega), ld32_st32_other _ _ _ _ (by omega),
          ld32_st32_other _ _ _ _ (by omega), ld32_st32_other _ _ _ _ (by omega),
          ld32_st32_other _ _ _ _ (by omega), ld32_st32_other _ _ _ _ (by omega),
          ld32_st32_same]
      · show ld32 _ 72 = _
        rw [ld32_st32_other _ _ _ _ (by omega), ld32_st32_other _ _ _ _ (by omega),
          ld32_st32_other _ _ _ _ (by omega), ld32_st32_other _ _ _ _ (by omega),
          ld32_st32_other _ _ _ _ (by omega), ld32_st32_same]
      · show ld32 _ 76 = _
        rw [ld32_st32_other _ _ _ _ (by omega), ld32_st32_other _ _ _ _ (by omega),
          ld32_st32_other _ _ _ _ (by omega), ld32_st32_other _ _ _ _ (by omega),
          ld32_st32_same]
    · refine ⟨?_, ?_, ?_, ?_⟩
      · show ld32 _ 96 = _
        rw [ld32_st32_other _ _ _ _ (by omega), ld32_st32_other _ _ _ _ (by omega),
          ld32_st32_other _ _ _ _ (by omega), ld32_st32_same]
      · show ld32 _ 100 = _
        rw [ld32_st32_other _ _ _ _ (by omega), ld32_st32_other _ _ _ _ (by omega),
          ld32_st32_same]
      · show ld32 _ 104 = _
        rw [ld32_st32_other _ _ _ _ (by omega), ld32_st32_same]
      · show ld32 _ 108 = _
        rw [ld32_st32_same]

theorem inode_blk_first (sb : super_block) (num : Nat) (h1 : 1 ≤ num) (h2 : num ≤ 16)
    (himap : sb.nr_imap_sects = 1) (hsmap : sb.nr_smap_sects ≤ 1048576) :
    inode_blk_nr sb (num : Int) = ((3 + sb.nr_smap_sects : Nat) : Int) := by
  have hw : wrap32 ((num : Int) - 1) = (num : Int) - 1 :=
    wrap32_id _ (by unfold in_int32; omega)
  have h16 : ((SECTOR_SIZE / INODE_SIZE : Nat) : Int) = 16 := by decide
  unfold inode_blk_nr
  rw [hw, h16, himap, Int.tdiv_eq_ediv (by omega) (by decide)]
  have hq : ((num : Int) - 1) / 16 = 0 := by omega
  rw [hq]
  rw [wrap32_id _ (by unfold in_int32; omega)]
  omega

theorem inode_offset_first (num : Nat) (h1 : 1 ≤ num) (h2 : num ≤ 16) :
    inode_offset (num : Int) = 32 * ((num : Int) - 1) := by
  have hw : wrap32 ((num : Int) - 1) = (num : Int) - 1 :=
    wrap32_id _ (by unfold in_int32; omega)
  have h16 : ((SECTOR_SIZE / INODE_SIZE : Nat) : Int) = 16 := by decide
  have h32 : ((INODE_SIZE : Nat) : Int) = 32 := by decide
  unfold inode_offset
  rw [hw, h16, h32, Int.tmod_eq_emod (by omega) (by decide)]
  omega

/-- What a sector read finds in `fsbuf` when the sector, which starts at byte
`k * 512` of the root device, holds the bytes `sec`. -/
theorem ld32_after_read_at (K : Config) (st : State) (sec : Int → Nat) (n : Int) (k : Nat)
    (hn : sect_pos n = k * 512)
    (hk : ∀ a : Nat, a < 512 →
      st.disk (K.dd_map (MAJOR ROOT_DEV)) (MINOR ROOT_DEV) (k * 512 + a) = sec a)
    (o : Int) (h0 : 0 ≤ o) (h1 : o ≤ 508) :
    ld32 (fsbuf_after_read K st ROOT_DEV n) o = ld32 sec o := by
  have hs : ((SECTOR_SIZE : Nat) : Int) = 512 := by decide
  apply ld32_congr
  intro j hj1 hj2
  unfold fsbuf_after_read
  rw [if_pos ⟨by omega, by rw [hs]; omega⟩, hn, hk (o + j).toNat (by omega),
    Int.toNat_of_nonneg (by omega)]

/-- A miss for one of the first sixteen inode numbers of the root device, in a
cache without a held slot, after `mkfs` and `read_super_block(ROOT_DEV)`: the
call fills slot 0 with the record of the first inode-table sector. -/
theorem get_inode_after_mkfs (K : Config) (geo : part_info) (st : State)
    (hcons : K.NR_CONSOLES = 3) (hdrv : K.dd_map (MAJOR ROOT_DEV) ≠ INVALID_DRIVER)
    (hnr : 0 < K.NR_SUPER_BLOCK) (h0 : (st.super_block 0).sb_dev = K.NO_DEV)
    (hni : 0 < K.NR_INODE) (hempty : ∀ j, j < K.NR_INODE → (st.inode_table j).i_cnt = 0) :
    ∃ st1, mkfs K geo st = .ok st1
      ∧ read_super_block K st1 ROOT_DEV = .ok (load_state K st1 ROOT_DEV)
      ∧ get_super_block K (load_state K st1 ROOT_DEV) ROOT_DEV = .ok 0
      ∧ ((load_state K st1 ROOT_DEV).super_block 0).n_1st_sect
          = (mkfs_super_block K geo).n_1st_sect
      ∧ ∀ num : Nat, 1 ≤ num → num ≤ 16 →
          ∃ st3, get_inode K (load_state K st1 ROOT_DEV) ROOT_DEV num = .ok (some 0, st3)
            ∧ (st3.inode_table 0).i_mode = ld32 (inode_sector K geo) (32 * ((num : Int) - 1))
            ∧ (st3.inode_table 0).i_size
                = ld32 (inode_sector K geo) (32 * ((num : Int) - 1) + 4)
            ∧ (st3.inode_table 0).i_start_sect
                = ld32 (inode_sector K geo) (32 * ((num : Int) - 1) + 8)
            ∧ (st3.inode_table 0).i_nr_sects
                = ld32 (inode_sector K geo) (32 * ((num : Int) - 1) + 12) := by
  obtain ⟨hb1, hb2⟩ := smap_bound K geo
  obtain ⟨st1, hm, hl, hg, hit, k4, _, _, _, _, fi, fs, f1, _, _⟩ :=
    mkfs_then_load K geo st hcons hdrv hnr h0
  refine ⟨st1, hm, hl, hg, f1, ?_⟩
  intro num hn1 hn2
  have hcnt : ∀ j, j < K.NR_INODE → ((load_state K st1 ROOT_DEV).inode_table j).i_cnt = 0 := by
    intro j hj
    show (st1.inode_table j).i_cnt = 0
    rw [hit]
    exact hempty j hj
  have hget := get_inode_miss K (load_state K st1 ROOT_DEV) ROOT_DEV num 0 0 (by omega)
    (by intro j hj hc; exact hc.1 (hcnt j hj)) hni (hcnt 0 hni) (by intro j hj; omega) hg hdrv
  have hblk : inode_blk_nr ((load_state K st1 ROOT_DEV).super_block 0) (num : Int)
      = ((3 + (mkfs_super_block K geo).nr_smap_sects : Nat) : Int) := by
    rw [inode_blk_first _ num hn1 hn2 fi (by rw [fs]; exact hb2), fs]
  have hld : ∀ o : Int, 0 ≤ o → o ≤ 508 →
      ld32 (fsbuf_after_read K (load_state K st1 ROOT_DEV) ROOT_DEV
        (inode_blk_nr ((load_state K st1 ROOT_DEV).super_block 0) (num : Int))) o
        = ld32 (inode_sector K geo) o := by
    intro o ho1 ho2
    rw [hblk]
    exact ld32_after_read_at K (load_state K st1 ROOT_DEV) (inode_sector K geo) _
      (3 + (mkfs_super_block K geo).nr_smap_sects) (sect_pos_nat _ (by omega)) k4 o ho1 ho2
  have hoff := inode_offset_first num hn1 hn2
  refine ⟨_, hget, ?_, ?_, ?_, ?_⟩
  · show ld32 _ (inode_offset (num : Int)) = _
    rw [hoff, hld _ (by omega) (by omega)]
  · show ld32 _ (inode_offset (num : Int) + 4) = _
    rw [hoff, hld _ (by omega) (by omega)]
  · show ld32 _ (inode_offset (num : Int) + 8) = _
    rw [hoff, hld _ (by omega) (by omega)]
  · show ld32 _ (inode_offset (num : Int) + 12) = _
    rw [hoff, hld _ (by omega) (by omega)]

theorem MAKE_DEV_bound (a b : Nat) (ha : a < 16777216) (hb : b < 256) :
    MAKE_DEV a b < 4294967296 := by
  have h32 : (4294967296 : Nat) = 2 ^ 32 := by norm_num
  unfold MAKE_DEV
  rw [h32]
  apply Nat.or_lt_two_pow
  · rw [Nat.shiftLeft_eq]
    omega
  · omega

/-- C16: on a device that returns on read what was last written, after `mkfs`
and `read_super_block(ROOT_DEV)`, `get_inode(ROOT_DEV, 1)` into an empty cache
yields mode `I_DIRECTORY`, size `4 * DIR_ENTRY_SIZE` (the entry `.` and three
consoles), start sector the `n_1st_sect` of the superblock and sector count
`NR_DEFAULT_FILE_SECTS`; and for each console `N` below 3,
`get_inode(ROOT_DEV, 2 + N)` into an empty cache yields mode `I_CHAR_SPECIAL`,
size 0, start sector `MAKE_DEV(DEV_CHAR_TTY, N)` and sector count 0.  The
driver of the root device is mapped, there are three consoles, the first
registry slot is unused when `read_super_block` runs, the cache has a slot,
and the constants stored are values of the 32-bit fields that carry them. -/
theorem mkfs_inode_records (K : Config) (geo : part_info) (st : State)
    (hcons : K.NR_CONSOLES = 3) (hdrv : K.dd_map (MAJOR ROOT_DEV) ≠ INVALID_DRIVER)
    (hnr : 0 < K.NR_SUPER_BLOCK) (h0 : (st.super_block 0).sb_dev = K.NO_DEV)
    (hni : 0 < K.NR_INODE) (hempty : ∀ j, j < K.NR_INODE → (st.inode_table j).i_cnt = 0)
    (hdir : K.I_DIRECTORY < 4294967296) (hchr : K.I_CHAR_SPECIAL < 4294967296)
    (hdes : K.DIR_ENTRY_SIZE * 4 < 4294967296) (hnrd : K.NR_DEFAULT_FILE_SECTS < 4294967296)
    (htty : K.DEV_CHAR_TTY < 16777216) :
    ∃ st1 st2 sb, mkfs K geo st = .ok st1
      ∧ read_super_block K st1 ROOT_DEV = .ok st2
      ∧ get_super_block K st2 ROOT_DEV = .ok sb
      ∧ (∃ p st3, get_inode K st2 ROOT_DEV 1 = .ok (some p, st3)
          ∧ (st3.inode_table p).i_mode = K.I_DIRECTORY
          ∧ (st3.inode_table p).i_size = 4 * K.DIR_ENTRY_SIZE
          ∧ (st3.inode_table p).i_start_sect = (st2.super_block sb).n_1st_sect
          ∧ (st3.inode_table p).i_nr_sects = K.NR_DEFAULT_FILE_SECTS)
      ∧ ∀ N : Nat, N < 3 →
          ∃ p st3, get_inode K st2 ROOT_DEV ((2 + N : Nat) : Int) = .ok (some p, st3)
            ∧ (st3.inode_table p).i_mode = K.I_CHAR_SPECIAL
            ∧ (st3.inode_table p).i_size = 0
            ∧ (st3.inode_table p).i_start_sect = MAKE_DEV K.DEV_CHAR_TTY N
            ∧ (st3.inode_table p).i_nr_sects = 0 := by
  obtain ⟨hb1, hb2⟩ := smap_bound K geo
  obtain ⟨st1, hm, hl, hg, f1, hall⟩ := get_inode_after_mkfs K geo st hcons hdrv hnr h0 hni hempty
  obtain ⟨d0, d4, d8, d12, dcons⟩ := inode_sector_fields K geo hcons
  refine ⟨st1, load_state K st1 ROOT_DEV, 0, hm, hl, hg, ?_, ?_⟩
  · obtain ⟨st3, hget, g0, g4, g8, g12⟩ := hall 1 (by omega) (by omega)
    have e0 : (32 : Int) * (((1 : Nat) : Int) - 1) = 0 := by omega
    have e4 : (32 : Int) * (((1 : Nat) : Int) - 1) + 4 = 4 := by omega
    have e8 : (32 : Int) * (((1 : Nat) : Int) - 1) + 8 = 8 := by omega
    have e12 : (32 : Int) * (((1 : Nat) : Int) - 1) + 12 = 12 := by omega
    rw [e0, d0, Nat.mod_eq_of_lt hdir] at g0
    rw [e4, d4] at g4
    rw [e8, d8, n_1st_sect_val, Nat.mod_eq_of_lt (by omega)] at g8
    rw [e12, d12, Nat.mod_eq_of_lt hnrd] at g12
    refine ⟨0, st3, hget, g0, ?_, ?_, g12⟩
    · rw [g4]
      unfold u32
      omega
    · rw [g8, f1, n_1st_sect_val]
  · intro N hN
    obtain ⟨st3, hget, g0, g4, g8, g12⟩ := hall (2 + N) (by omega) (by omega)
    obtain ⟨c0, c4, c8, c12⟩ := dcons N hN
    have e0 : (32 : Int) * (((2 + N : Nat) : Int) - 1) = 32 * ((N : Int) + 1) := by omega
    rw [e0] at g0 g4 g8 g12
    rw [c0, Nat.mod_eq_of_lt hchr] at g0
    rw [c4] at g4
    rw [c8, Nat.mod_eq_of_lt (MAKE_DEV_bound _ _ htty (by omega))] at g8
    rw [c12] at g12
    exact ⟨0, st3, hget, g0, g4, g8, g12⟩

theorem mkfs_inode_records_witness :
    ∃ st1 st2 sb, mkfs sample_config { base := 0, size := 20000 } fresh_state = .ok st1
      ∧ read_super_block sample_config st1 ROOT_DEV = .ok st2
      ∧ get_super_block sample_config st2 ROOT_DEV = .ok sb
      ∧ (∃ p st3, get_inode sample_config st2 ROOT_DEV 1 = .ok (some p, st3)
          ∧ (st3.inode_table p).i_mode = 16384
          ∧ (st3.inode_table p).i_size = 4 * 16
          ∧ (st3.inode_table p).i_start_sect = (st2.super_block sb).n_1st_sect
          ∧ (st3.inode_table p).i_nr_sects = 2048)
      ∧ ∀ N : Nat, N < 3 →
          ∃ p st3, get_inode sample_config st2 ROOT_DEV ((2 + N : Nat) : Int) = .ok (some p, st3)
            ∧ (st3.inode_table p).i_mode = 8192
            ∧ (st3.inode_table p).i_size = 0
            ∧ (st3.inode_table p).i_start_sect = MAKE_DEV 4 N
            ∧ (st3.inode_table p).i_nr_sects = 0 :=
  mkfs_inode_records sample_config { base := 0, size := 20000 } fresh_state rfl (by decide)
    (by decide) rfl (by decide) (fun _ _ => rfl) (by decide) (by decide) (by decide) (by decide)
    (by decide)

/-! ## C21: where the record of an inode lies -/

/-- Sector and offset of the record of inode `num` under the superblock of
`mkfs`, for the inode numbers of the volume. -/
theorem inode_location_val (K : Config) (geo : part_info) (num : Int)
    (h1 : 1 ≤ num) (h2 : num ≤ 4096) :
    inode_blk_nr (mkfs_super_block K geo) num
        = 3 + ((mkfs_super_block K geo).nr_smap_sects : Int) + (num - 1) / 16
      ∧ inode_offset num = (num - 1) % 16 * 32 := by
  obtain ⟨hb1, hb2⟩ := smap_bound K geo
  have himap : (mkfs_super_block K geo).nr_imap_sects = 1 := rfl
  have hw : wrap32 (num - 1) = num - 1 := wrap32_id _ (by unfold in_int32; omega)
  have h16 : ((SECTOR_SIZE / INODE_SIZE : Nat) : Int) = 16 := by decide
  have h32 : ((INODE_SIZE : Nat) : Int) = 32 := by decide
  constructor
  · unfold inode_blk_nr
    rw [hw, h16, himap, Int.tdiv_eq_ediv (by omega) (by decide),
      wrap32_id _ (by unfold in_int32; omega)]
    omega
  · unfold inode_offset
    rw [hw, h16, h32, Int.tmod_eq_emod (by omega) (by decide)]

/-- C21: for the superblock that `mkfs` produces and an inode number `num`
with `1 ≤ num ≤ nr_inodes`, the sector that `get_inode` and `sync_inode` both
compute for the record lies in the inode table, from sector
`2 + nr_imap_sects + nr_smap_sects` up to but not including `n_1st_sect`; the
offset in the sector is `((num - 1) mod 16) * INODE_SIZE`, and the record ends
inside the sector; another inode number of the volume has another pair of
sector and offset, and the byte ranges of the two records on the device do not
overlap.  The last two parts say that this sector and this offset are the
ones a miss of `get_inode` reads from and `sync_inode` writes to. -/
theorem inode_location_in_table (K : Config) (geo : part_info) (num : Int)
    (h1 : 1 ≤ num) (h2 : num ≤ ((mkfs_super_block K geo).nr_inodes : Int)) :
    (((2 + (mkfs_super_block K geo).nr_imap_sects
          + (mkfs_super_block K geo).nr_smap_sects : Nat) : Int)
        ≤ inode_blk_nr (mkfs_super_block K geo) num)
      ∧ inode_blk_nr (mkfs_super_block K geo) num
          < ((mkfs_super_block K geo).n_1st_sect : Int)
      ∧ inode_offset num = (num - 1) % 16 * (INODE_SIZE : Int)
      ∧ 0 ≤ inode_offset num
      ∧ inode_offset num + (INODE_SIZE : Int) ≤ (SECTOR_SIZE : Int)
      ∧ (∀ num1 : Int, 1 ≤ num1 → num1 ≤ ((mkfs_super_block K geo).nr_inodes : Int) →
          num1 ≠ num →
          (inode_blk_nr (mkfs_super_block K geo) num1, inode_offset num1)
              ≠ (inode_blk_nr (mkfs_super_block K geo) num, inode_offset num)
            ∧ ((sect_pos (inode_blk_nr (mkfs_super_block K geo) num1) : Int)
                  + inode_offset num1 + (INODE_SIZE : Int)
                ≤ (sect_pos (inode_blk_nr (mkfs_super_block K geo) num) : Int)
                  + inode_offset num
              ∨ (sect_pos (inode_blk_nr (mkfs_super_block K geo) num) : Int)
                  + inode_offset num + (INODE_SIZE : Int)
                ≤ (sect_pos (inode_blk_nr (mkfs_super_block K geo) num1) : Int)
                  + inode_offset num1))
      ∧ (∀ (st : State) (dev : Int) (q i : Nat),
          (∀ j, j < K.NR_INODE → ¬ ((st.inode_table j).i_cnt ≠ 0
            ∧ (st.inode_table j).i_dev = dev ∧ (st.inode_table j).i_num = num)) →
          q < K.NR_INODE → (st.inode_table q).i_cnt = 0 →
          (∀ j, j < q → (st.inode_table j).i_cnt ≠ 0) →
          get_super_block K st dev = .ok i →
          K.dd_map (MAJOR dev) ≠ INVALID_DRIVER →
          ∃ st1, get_inode K st dev num = .ok (some q, st1)
            ∧ st1.fsbuf = fsbuf_after_read K st dev (inode_blk_nr (st.super_block i) num)
            ∧ (st1.inode_table q).i_mode = ld32 st1.fsbuf (inode_offset num)
            ∧ (st1.inode_table q).i_size = ld32 st1.fsbuf (inode_offset num + 4)
            ∧ (st1.inode_table q).i_start_sect = ld32 st1.fsbuf (inode_offset num + 8)
            ∧ (st1.inode_table q).i_nr_sects = ld32 st1.fsbuf (inode_offset num + 12))
      ∧ (∀ (st : State) (p i : Nat), (st.inode_table p).i_num = num →
          get_super_block K st (st.inode_table p).i_dev = .ok i →
          K.dd_map (MAJOR (st.inode_table p).i_dev) ≠ INVALID_DRIVER →
          ∃ st1, sync_inode K st p = .ok st1
            ∧ st1 = wr_state K { st with fsbuf := sync_buf K st p i } (st.inode_table p).i_dev
                (inode_blk_nr (st.super_block i) num)
            ∧ sync_buf K st p i
                = st32 (st32 (st32 (st32
                    (fsbuf_after_read K st (st.inode_table p).i_dev
                      (inode_blk_nr (st.super_block i) num))
                    (inode_offset num) (st.inode_table p).i_mode)
                    (inode_offset num + 4) (st.inode_table p).i_size)
                    (inode_offset num + 8) (st.inode_table p).i_start_sect)
                    (inode_offset num + 12) (st.inode_table p).i_nr_sects) := by
  obtain ⟨hb1, hb2⟩ := smap_bound K geo
  have himap : (mkfs_super_block K geo).nr_imap_sects = 1 := rfl
  have hn := nr_inodes_val K geo
  have h1st := n_1st_sect_val K geo
  have h32 : ((INODE_SIZE : Nat) : Int) = 32 := by decide
  have h512 : ((SECTOR_SIZE : Nat) : Int) = 512 := by decide
  rw [hn] at h2
  obtain ⟨hblk, hoff⟩ := inode_location_val K geo num h1 (by omega)
  refine ⟨?_, ?_, ?_, ?_, ?_, ?_, ?_, ?_⟩
  · rw [hblk, himap]
    omega
  · rw [hblk, h1st]
    omega
  · rw [hoff, h32]
  · rw [hoff]
    omega
  · rw [hoff, h32, h512]
    omega
  · intro num1 g1 g2 hne
    rw [hn] at g2
    obtain ⟨hblk1, hoff1⟩ := inode_location_val K geo num1 g1 (by omega)
    have hp : ∀ n : Int, 1 ≤ n → n ≤ 4096 →
        (sect_pos (3 + ((mkfs_super_block K geo).nr_smap_sects : Int) + (n - 1) / 16) : Int)
          = (3 + ((mkfs_super_block K geo).nr_smap_sects : Int) + (n - 1) / 16) * 512 := by
      intro n hn1 hn2
      have hk := sect_pos_nat ((3 + ((mkfs_super_block K geo).nr_smap_sects : Int)
        + (n - 1) / 16).toNat) (by omega)
      rw [Int.toNat_of_nonneg (by omega)] at hk
      rw [hk]
      push_cast
      rw [Int.toNat_of_nonneg (by omega)]
    constructor
    · intro heq
      rw [Prod.mk.injEq, hblk, hblk1, hoff, hoff1] at heq
      omega
    · rw [hblk, hblk1, hoff, hoff1, h32, hp num h1 (by omega), hp num1 g1 (by omega)]
      omega
  · intro st dev q i hmiss hq hfree hlow hsb hdrv
    exact ⟨_, get_inode_miss K st dev num q i (by omega) hmiss hq hfree hlow hsb hdrv, rfl,
      by simp [miss_state, miss_inode], by simp [miss_state, miss_inode],
      by simp [miss_state, miss_inode], by simp [miss_state, miss_inode]⟩
  · intro st p i hnum hsb hdrv
    refine ⟨_, sync_inode_eq K st p i hsb hdrv, ?_, ?_⟩
    · subst hnum
      rfl
    · subst hnum
      rfl

theorem inode_location_in_table_witness :
    ((1 : Int) ≤ 17
        ∧ (17 : Int) ≤ ((mkfs_super_block sample_config { base := 0, size := 20000 }).nr_inodes : Int))
      ∧ (((2 + (mkfs_super_block sample_config { base := 0, size := 20000 }).nr_imap_sects
            + (mkfs_super_block sample_config { base := 0, size := 20000 }).nr_smap_sects : Nat) : Int)
          ≤ inode_blk_nr (mkfs_super_block sample_config { base := 0, size := 20000 }) 17)
      ∧ inode_blk_nr (mkfs_super_block sample_config { base := 0, size := 20000 }) 17
          < ((mkfs_super_block sample_config { base := 0, size := 20000 }).n_1st_sect : Int)
      ∧ inode_offset 17 = (17 - 1) % 16 * (INODE_SIZE : Int)
      ∧ 0 ≤ inode_offset 17
      ∧ inode_offset 17 + (INODE_SIZE : Int) ≤ (SECTOR_SIZE : Int)
      ∧ (inode_blk_nr (mkfs_super_block sample_config { base := 0, size := 20000 }) 16,
            inode_offset 16)
          ≠ (inode_blk_nr (mkfs_super_block sample_config { base := 0, size := 20000 }) 17,
              inode_offset 17) :=
  have h := inode_location_in_table sample_config { base := 0, size := 20000 } 17 (by decide)
    (by decide)
  ⟨⟨by decide, by decide⟩, h.1, h.2.1, h.2.2.1, h.2.2.2.1, h.2.2.2.2.1,
    (h.2.2.2.2.2.1 16 (by decide) (by decide) (by decide)).1⟩

end OrangeFS
